import Mathlib

/-!
# P2OS driver: link synchronisation, profile lookup and command dispatch

A shallow embedding of `src/src/p2os.cc` (class `P2OSNode`).

* Outgoing packets are kept symbolic: a packet is the `command` array that the
  code hands to `P2OSPacket::Build`, with the command and argument-type bytes
  kept as the names the source uses (`SYNC0`, `VEL`, `ARGINT`, ...).  The
  framing added by `Build` (header, length, checksum) lives in `packet.cc`.
* Everything the node does to the outside world is appended to a trace of
  `Event`s, most recent event first.
* The outside world is an `Env`: the result of every `Receive` and of the
  system calls that can fail, each as a function of the trace so far.
* `double` values are modelled by exact rationals.
-/

namespace P2OS

/-! ## Packets and events -/

/-- Command bytes of the P2OS protocol, by the names used in the source. -/
inductive Cmd
  | SYNC0 | SYNC1 | SYNC2
  | PULSE | OPEN | CLOSE | ENABLE | SETA | SETO | VEL | RVEL | SETRA
  | SONAR | STOP | BUMP_STALL | GRIPPER
  | ROTKP | ROTKV | ROTKI | TRANSKP | TRANSKV | TRANSKI
  | ARM_INFO | ARM_STATUS | ARM_POWER | ARM_POS
  deriving DecidableEq, Repr

/-- Argument-type bytes of the P2OS protocol. -/
inductive ArgType
  | ARGINT | ARGNINT | ARGSTR
  deriving DecidableEq, Repr

/-- The `command` array handed to `P2OSPacket::Build(command, len)`:
`command[0]` is `op`, `command[1]` (when `len > 1`) is `argType`, and the
remaining `len - 2` bytes are `data`. -/
structure P2OSPacket where
  op : Cmd
  argType : Option ArgType
  data : List Nat
  deriving DecidableEq, Repr

/-- The packet `Build(&command, 1)`. -/
def P2OSPacket.cmd (c : Cmd) : P2OSPacket := ⟨c, none, []⟩

/-- The packet `Build(command, 4)` with `command = {op, t, b2, b3}`. -/
def P2OSPacket.cmd4 (c : Cmd) (t : ArgType) (b2 b3 : Nat) : P2OSPacket :=
  ⟨c, some t, [b2, b3]⟩

/-- Outcome of `P2OSPacket::Receive`: `err` is "returned nonzero", `packet` is
the content of the receive buffer after the call. -/
structure RecvResult where
  err : Bool
  packet : List Nat
  deriving DecidableEq, Repr

/-- The part of `ros_p2os_data_t` that the node itself reads or writes, and an
uninterpreted `rest` for what only the SIP decoder fills in. -/
structure ros_p2os_data_t where
  motors_state : Int
  rest : List Int
  deriving DecidableEq, Repr

/-- Observable actions of the node. -/
inductive Event
  | send (p : P2OSPacket)
  | recv (r : RecvResult)
  | setBaud (idx : Nat)
  | fcntl
  | tcflush
  | close
  | publish (d : ros_p2os_data_t)
  deriving DecidableEq, Repr

/-- The byte `packet[i]` of a receive buffer. -/
def byteAt (packet : List Nat) (i : Nat) : Nat := packet.getD i 0

/-- Packets handed to the transport, oldest first. -/
def sentPackets (tr : List Event) : List P2OSPacket :=
  (tr.filterMap fun e => match e with
    | .send p => some p
    | _ => none).reverse

/-- Number of `Receive` calls recorded in a trace. -/
def numRecv (tr : List Event) : Nat :=
  (tr.filter fun e => match e with
    | .recv _ => true
    | _ => false).length

/-- Indices into `bauds` used by `cfsetispeed`/`cfsetospeed`, oldest first. -/
def baudIndices (tr : List Event) : List Nat :=
  (tr.filterMap fun e => match e with
    | .setBaud i => some i
    | _ => none).reverse

/-- Number of packets with command byte `c` in a list of packets. -/
def countCmd (c : Cmd) (ps : List P2OSPacket) : Nat :=
  (ps.filter fun p => p.op = c).length

/-- The world outside the node. -/
structure Env where
  Receive : List Event → RecvResult
  fcntl_ok : List Event → Bool
  tcsetattr_ok : List Event → Bool
  tcflush_ok : List Event → Bool

/-- Numeric values of the command bytes (from `packet.h`, which fixes them). -/
structure Consts where
  code : Cmd → Nat

/-! ## Link synchronisation (`Setup`, `SetupTCP`) -/

/-- The local `enum` of `Setup` and `SetupTCP`. -/
inductive PsosState
  | NO_SYNC | AFTER_FIRST_SYNC | AFTER_SECOND_SYNC | READY
  deriving DecidableEq, Repr

/-- Local variables of the synchronisation loop, with `psos_fd` and the trace. -/
structure SyncState where
  psos_state : PsosState
  num_sync_attempts : Int
  currbaud : Nat
  sent_close : Bool
  receivedpacket : List Nat
  psos_fd : Int
  trace : List Event
  deriving DecidableEq, Repr

/-- `int bauds[] = {B9600, B38400, B19200, B115200, B57600};` -/
def bauds : List Nat := [9600, 38400, 19200, 115200, 57600]

/-- Size of an `int` in bytes on the platforms the driver is built for. -/
def sizeof_int : Nat := 4

/-- `int numbauds = sizeof(bauds);` -/
def numbauds : Nat := bauds.length * sizeof_int

/-- How one pass through the body of the `while` loop ends. -/
inductive IterResult
  | next (s : SyncState)
  | brk (s : SyncState)
  | ret1 (s : SyncState)
  deriving DecidableEq, Repr

/-- How the `while` loop ends: the model ran out of fuel, control reached the
statement after the loop, or the function returned 1 from inside the loop. -/
inductive LoopResult
  | outOfFuel (s : SyncState)
  | after (s : SyncState)
  | ret1 (s : SyncState)
  deriving DecidableEq, Repr

/-- `packet.Build(&command, 1); packet.Send(this->psos_fd);` -/
def SyncState.send (s : SyncState) (c : Cmd) : SyncState :=
  { s with trace := .send (.cmd c) :: s.trace }

/-- `close(this->psos_fd); this->psos_fd = -1;` -/
def SyncState.closeFd (s : SyncState) : SyncState :=
  { s with psos_fd := -1, trace := .close :: s.trace }

/-- The first `switch(psos_state)` of the loop body: send the sync command of
the current state.  `none` is the `return(1)` after a failed `fcntl`. -/
def sync_send (env : Env) (s : SyncState) : Option SyncState :=
  match s.psos_state with
  | .NO_SYNC => some (s.send .SYNC0)
  | .AFTER_FIRST_SYNC =>
    if env.fcntl_ok s.trace then
      some ({ s with trace := .fcntl :: s.trace }.send .SYNC1)
    else none
  | .AFTER_SECOND_SYNC => some (s.send .SYNC2)
  | .READY => some s

/-- The second `switch(receivedpacket.packet[3])` of the loop body. -/
def sync_switch (K : Consts) (s : SyncState) : SyncState :=
  let b := byteAt s.receivedpacket 3
  if b = K.code .SYNC0 then { s with psos_state := .AFTER_FIRST_SYNC }
  else if b = K.code .SYNC1 then { s with psos_state := .AFTER_SECOND_SYNC }
  else if b = K.code .SYNC2 then { s with psos_state := .READY }
  else if !s.sent_close then
    { (s.send .CLOSE) with
        sent_close := true
        trace := .tcflush :: (s.send .CLOSE).trace
        psos_state := .NO_SYNC }
  else s

/-- `receivedpacket.Receive(this->psos_fd)`: the buffer and the trace after the
call, and whether it failed. -/
def sync_receive (env : Env) (s : SyncState) : Bool × SyncState :=
  let r := env.Receive s.trace
  (r.err, { s with receivedpacket := r.packet, trace := .recv r :: s.trace })

/-- One pass through the body of the `while` loop of `Setup`. -/
def Setup_iter (K : Consts) (env : Env) (s : SyncState) : IterResult :=
  match sync_send env s with
  | none => .ret1 s.closeFd
  | some s1 =>
    let (err, s2) := sync_receive env s1
    if err then
      if s2.psos_state = .NO_SYNC ∧ s2.num_sync_attempts ≥ 0 then
        .next { s2 with num_sync_attempts := s2.num_sync_attempts - 1 }
      else
        -- couldn't connect; try different speed.
        let s3 := { s2 with currbaud := s2.currbaud + 1 }
        if s3.currbaud < numbauds then
          let s4 := { s3 with trace := .setBaud s3.currbaud :: s3.trace }
          if !env.tcsetattr_ok s4.trace then .ret1 s4.closeFd
          else if !env.tcflush_ok s4.trace then .ret1 s4.closeFd
          else .next { s4 with num_sync_attempts := 3, trace := .tcflush :: s4.trace }
        else
          -- tried all speeds; bail
          .brk s3
    else
      .next (sync_switch K s2)

/-- One pass through the body of the `while` loop of `SetupTCP`. -/
def SetupTCP_iter (K : Consts) (env : Env) (s : SyncState) : IterResult :=
  match sync_send env s with
  | none => .ret1 s.closeFd
  | some s1 =>
    let (err, s2) := sync_receive env s1
    if err ∧ s2.psos_state = .NO_SYNC ∧ s2.num_sync_attempts ≥ 0 then
      .next { s2 with num_sync_attempts := s2.num_sync_attempts - 1 }
    else
      -- on an error outside the retry budget only "Couldn't connect" is logged
      .next (sync_switch K s2)

/-- The loop `while(psos_state != READY) { ... }` over a loop body. -/
def sync_loop (iter : SyncState → IterResult) : Nat → SyncState → LoopResult
  | 0, s => .outOfFuel s
  | n + 1, s =>
    if s.psos_state = .READY then .after s
    else match iter s with
      | .next s1 => sync_loop iter n s1
      | .brk s1 => .after s1
      | .ret1 s1 => .ret1 s1

/-- The state in which `Setup` enters its loop: the port is open on `fd` and
set to `bauds[0]`; `buf` is the content of the fresh `receivedpacket`. -/
def Setup_init (fd : Int) (buf : List Nat) : SyncState :=
  { psos_state := .NO_SYNC, num_sync_attempts := 3, currbaud := 0,
    sent_close := false, receivedpacket := buf, psos_fd := fd,
    trace := [.setBaud 0] }

/-- The state in which `SetupTCP` enters its loop, the socket connected. -/
def SetupTCP_init (fd : Int) (buf : List Nat) : SyncState :=
  { psos_state := .NO_SYNC, num_sync_attempts := 3, currbaud := 0,
    sent_close := false, receivedpacket := buf, psos_fd := fd,
    trace := [] }

/-- Result of the synchronisation part of `Setup`/`SetupTCP`. -/
inductive SyncResult
  | outOfFuel (s : SyncState)
  | failed (rc : Int) (s : SyncState)
  | ready (s : SyncState)
  deriving DecidableEq, Repr

/-- The statement after the loop: `if(psos_state != READY) { close; return(1); }`. -/
def sync_finish : LoopResult → SyncResult
  | .outOfFuel s => .outOfFuel s
  | .ret1 s => .failed 1 s
  | .after s =>
    if s.psos_state ≠ .READY then .failed 1 s.closeFd else .ready s

/-- `Setup`, from the loop up to the check that follows it. -/
def Setup_sync (K : Consts) (env : Env) (fuel : Nat) (fd : Int) (buf : List Nat) :
    SyncResult :=
  sync_finish (sync_loop (Setup_iter K env) fuel (Setup_init fd buf))

/-- `SetupTCP`, from the loop up to the check that follows it. -/
def SetupTCP_sync (K : Consts) (env : Env) (fuel : Nat) (fd : Int) (buf : List Nat) :
    SyncResult :=
  sync_finish (sync_loop (SetupTCP_iter K env) fuel (SetupTCP_init fd buf))

/-! ## Robot profile lookup -/

/-- `tolower` in the C locale. -/
def tolower (c : Nat) : Nat := if 65 ≤ c ∧ c ≤ 90 then c + 32 else c

/-- The C string held in a buffer: the bytes before the first NUL. -/
def cstr (buf : List Nat) : List Nat := buf.takeWhile (· ≠ 0)

/-- `strcasecmp` on the bytes of two C strings; the end of a list is the NUL. -/
def strcasecmp : List Nat → List Nat → Int
  | [], [] => 0
  | [], b :: _ => 0 - (tolower b : Int)
  | a :: _, [] => (tolower a : Int) - 0
  | a :: as, b :: bs =>
    if tolower a = tolower b then strcasecmp as bs
    else (tolower a : Int) - (tolower b : Int)

/-- The fields of `RobotParams_t` that `Setup` reads. -/
structure RobotParams_t where
  Class : List Nat
  Subclass : List Nat
  deriving DecidableEq, Repr

/-- The test of the lookup loop:
`!strcasecmp(Class.c_str(), type) && !strcasecmp(Subclass.c_str(), subtype)`. -/
def params_match (p : RobotParams_t) (type subtype : List Nat) : Bool :=
  strcasecmp (cstr p.Class) (cstr type) = 0 ∧ strcasecmp (cstr p.Subclass) (cstr subtype) = 0

/-- The loop `for(i=0;i<PLAYER_NUM_ROBOT_TYPES;i++)` over the rest of the table
from index `i` on: the final `i` and `param_idx`. -/
def find_params_loop (type subtype : List Nat) :
    List RobotParams_t → Nat → Int → Nat × Int
  | [], i, param_idx => (i, param_idx)
  | p :: rest, i, param_idx =>
    if params_match p type subtype then (i, (i : Int))
    else find_params_loop type subtype rest (i + 1) param_idx

/-- "now, based on robot type, find the right set of parameters": the value
of `param_idx` after the loop and the `if(i == PLAYER_NUM_ROBOT_TYPES)` that
follows it.  `PLAYER_NUM_ROBOT_TYPES` is the length of `PlayerRobotParams`. -/
def find_params (PlayerRobotParams : List RobotParams_t) (type subtype : List Nat)
    (param_idx : Int) : Int :=
  let r := find_params_loop type subtype PlayerRobotParams 0 param_idx
  if r.1 = PlayerRobotParams.length then 0 else r.2

/-- Equality of two C strings ignoring ASCII case, as the specification words it. -/
def eqIgnoreCase (a b : List Nat) : Prop :=
  (cstr a).map tolower = (cstr b).map tolower

/-- A table entry matches a received class and subtype, in the specification's words. -/
def ProfileMatches (p : RobotParams_t) (type subtype : List Nat) : Prop :=
  eqIgnoreCase p.Class type ∧ eqIgnoreCase p.Subclass subtype

/-- `snprintf(dst, 20, "%s", &packet[cnt])`: the string stored in `dst` and the
value returned. -/
def snprintf20 (packet : List Nat) (cnt : Nat) : List Nat × Nat :=
  let src := cstr (packet.drop cnt)
  (src.take 19, src.length)

/-- The identity strings `name`, `type`, `subtype` read from the `SYNC2` frame. -/
def Setup_identity (packet : List Nat) : List Nat × List Nat × List Nat :=
  let cnt := 4
  let name := snprintf20 packet cnt
  let cnt := cnt + name.2 + 1
  let type := snprintf20 packet cnt
  let cnt := cnt + type.2 + 1
  let subtype := snprintf20 packet cnt
  (name.1, type.1, subtype.1)

/-- The bytes of an ASCII string. -/
def ascii (s : String) : List Nat := s.toList.map Char.toNat

/-- A small profile table in the shape of `PlayerRobotParams`. -/
def sampleParams : List RobotParams_t :=
  [⟨ascii "Pioneer", ascii "AMIGO-SH"⟩, ⟨ascii "Pioneer", ascii "P3DX"⟩,
   ⟨ascii "pioneer", ascii "p3dx"⟩, ⟨ascii "Pioneer", ascii "P3AT"⟩]

/-! ## The node -/

/-- `geometry_msgs::Twist`. -/
structure Twist where
  linear_x : ℚ
  linear_y : ℚ
  linear_z : ℚ
  angular_x : ℚ
  angular_y : ℚ
  angular_z : ℚ
  deriving DecidableEq, Repr

/-- `p2os_driver::GripperState`, the two `state` fields that the node sends. -/
structure GripperState where
  grip_state : Int
  lift_state : Int
  deriving DecidableEq, Repr

/-- `ArmJoint` of `sip.h`. -/
structure ArmJoint where
  speed : Int
  home : Nat
  min : Nat
  centre : Nat
  max : Nat
  ticksPer90 : Nat
  deriving DecidableEq, Repr

/-- The members of class `SIP` that `p2os.cc` reads or writes, and an
uninterpreted `rest` for what only the SIP decoder uses. -/
structure SIP where
  param_idx : Int
  battery : Nat
  lwstall : Bool
  rwstall : Bool
  rawxpos : Int
  rawypos : Int
  xpos : Int
  ypos : Int
  armNumJoints : Nat
  armVersionString : List Nat
  armJoints : List ArmJoint
  armJointMoving : List Bool
  armJointPos : List Nat
  armJointPosRads : List ℚ
  armJointTargetPos : List Nat
  rest : List Int

/-- The state of `P2OSPtz` that `p2os.cc` looks at: `isOn()` and the buffer `cb_`. -/
structure P2OSPtz where
  is_on : Bool
  cb_ : List Nat
  deriving DecidableEq, Repr

/-- The members of `P2OSNode`, and the trace of its actions. -/
structure P2OSNode where
  cmdvel_ : Twist
  cmdmotor_state_ : Int
  gripper_state_ : GripperState
  p2os_data : ros_p2os_data_t
  psos_use_tcp : Bool
  use_arm_ : Bool
  arm_initialized_ : Bool
  veltime : ℚ
  arm_cmd : List ℚ
  arm_pos : List ℚ
  arm_vel : List ℚ
  arm_eff : List ℚ
  jnt_state_names : List String
  jnt_pos_names : List String
  sippacket : Option SIP
  psos_fd : Int
  vel_dirty : Bool
  motor_dirty : Bool
  gripper_dirty_ : Bool
  param_idx : Int
  rot_kp : Int
  rot_kv : Int
  rot_ki : Int
  trans_kp : Int
  trans_kv : Int
  trans_ki : Int
  bumpstall : Int
  NumberOfJoints : Int
  motor_max_speed : Int
  motor_max_turnspeed : Int
  motor_max_trans_accel : Int
  motor_max_trans_decel : Int
  motor_max_rot_accel : Int
  motor_max_rot_decel : Int
  pulse : ℚ
  lastPulseTime : ℚ
  use_sonar_ : Bool
  ptz_ : P2OSPtz
  trace : List Event

/-- What `p2os.cc` uses from files that are not part of it: the packet-type
bytes and `M_PI`, the SIP decoder (`sip.cc`), the PTZ buffer (`p2os_ptz.cc`) and
the profile table (`robot_params.cc`). -/
structure Platform where
  SERAUX : Nat
  ARMPAC : Nat
  ARMINFOPAC : Nat
  M_PI : ℚ
  newSIP : Int → SIP
  ParseStandard : SIP → List Nat → SIP
  FillStandard : SIP → ros_p2os_data_t → ros_p2os_data_t
  ParseArm : SIP → List Nat → SIP
  ParseArmInfo : SIP → List Nat → SIP
  gotPacket : List Nat → Bool
  putOnBuf : List Nat → Nat → List Nat
  PlayerRobotParams : List RobotParams_t

/-- How a call ends: it returned, the thread ended in `pthread_exit`, the model
ran out of fuel, or an index was out of range. -/
inductive Status
  | returned | exited | outOfFuel | fault
  deriving DecidableEq, Repr

/-- The way a call ended and the node at that point. -/
abbrev Res := Status × P2OSNode

/-- Sequencing: go on only after a normal return. -/
def Res.andThen (r : Res) (f : P2OSNode → Res) : Res :=
  match r.1 with
  | .returned => f r.2
  | _ => r

/-- Modelled from the spec: the macro `RTOD` of the missing `robot_params.h`,
the standard conversion of radians to degrees. -/
def RTOD (P : Platform) (r : ℚ) : ℚ := r * 180 / P.M_PI

/-- Modelled from the spec: the macro `DTOR` of the missing `robot_params.h`,
the standard conversion of degrees to radians. -/
def DTOR (P : Platform) (d : ℚ) : ℚ := d * P.M_PI / 180

/-- The cast `(int)x` of a `double`: truncation toward zero. -/
def truncToInt (q : ℚ) : Int := if 0 ≤ q then ⌊q⌋ else ⌈q⌉

/-- `rint` in the default rounding mode: to nearest, ties to even. -/
def rint (q : ℚ) : Int :=
  let f := ⌊q⌋
  if q - f < 1 / 2 then f
  else if 1 / 2 < q - f then f + 1
  else if f % 2 = 0 then f else f + 1

/-- The cast `(unsigned char)x`. -/
def u8 (x : Int) : Nat := (x % 256).toNat

/-- The byte `x & 0x00FF`. -/
def lowByte (x : Int) : Nat := (Int.land x 0x00FF).toNat

/-- The byte `(x & 0xFF00) >> 8`. -/
def highByte (x : Int) : Nat := ((Int.land x 0xFF00) >>> 8).toNat

/-- `strstr(hay, needle) != NULL` on C strings. -/
def strstr (hay needle : List Nat) : Bool :=
  (cstr hay).tails.any fun t => needle.isPrefixOf t

/-- `std::vector::resize` on a vector of `double`. -/
def resize (v : List ℚ) (n : Nat) : List ℚ :=
  v.take n ++ List.replicate (n - v.length) 0

/-- `TicksToDegrees`. -/
def TicksToDegrees (sip : SIP) (joint : Int) (ticks : Nat) : ℚ :=
  if joint < 0 ∨ joint ≥ sip.armNumJoints then 0
  else
    let j := sip.armJoints.getD joint.toNat ⟨0, 0, 0, 0, 0, 0⟩
    let pos : Int := (ticks : Int) - (j.centre : Int)
    let result : ℚ := 90 / (j.ticksPer90 : ℚ)
    let result := result * pos
    if joint ≥ 0 ∧ joint ≤ 2 then -result else result

/-- `TicksToRadians`. -/
def TicksToRadians (P : Platform) (sip : SIP) (joint : Int) (ticks : Nat) : ℚ :=
  DTOR P (TicksToDegrees sip joint ticks)

/-- `SecsPerTicktoRadsPerSec`. -/
def SecsPerTicktoRadsPerSec (P : Platform) (sip : SIP) (joint : Int) (msecs : ℚ) : ℚ :=
  let ticksPerSec : ℚ := 1 / (msecs / 1000)
  let ticksPerDeg : ℚ := ((sip.armJoints.getD joint.toNat ⟨0, 0, 0, 0, 0, 0⟩).ticksPer90 : ℚ) / 90
  let degs := ticksPerSec / ticksPerDeg
  DTOR P degs

/-- `StandardSIPPutData`: the snapshot goes to the publishers. -/
def StandardSIPPutData (s : P2OSNode) : P2OSNode :=
  { s with trace := .publish s.p2os_data :: s.trace }

/-- One pass of the second loop of `read_arm_state`, for joint `i`; `none` when
an index is outside its array or vector. -/
def read_arm_joint (P : Platform) (sip : SIP) (s : P2OSNode) (i : Nat) : Option P2OSNode :=
  if i < sip.armJointPos.length ∧ i < sip.armJointMoving.length ∧ i < s.arm_pos.length ∧
      i < s.arm_vel.length ∧ i < s.arm_eff.length then
    let pos := TicksToRadians P sip (i : Int) (sip.armJointPos.getD i 0)
    let vel :=
      if sip.armJointMoving.getD i false then
        SecsPerTicktoRadsPerSec P sip (i : Int) (sip.armJoints.getD i ⟨0, 0, 0, 0, 0, 0⟩).speed
      else 0
    some { s with arm_pos := s.arm_pos.set i pos, arm_vel := s.arm_vel.set i vel,
                  arm_eff := s.arm_eff.set i (-1) }
  else none

/-- `read_arm_state`. -/
def read_arm_state (P : Platform) (s : P2OSNode) : Res :=
  match s.sippacket with
  | none => (.fault, s)
  | some sip =>
    let rads := (List.range 6).map fun (ii : Nat) =>
      TicksToRadians P sip (ii : Int) (sip.armJointPos.getD ii 0)
    let sip1 := { sip with armJointPosRads := rads }
    let s1 := { s with sippacket := some sip1 }
    (List.range sip1.armNumJoints).foldl
      (fun (r : Res) i => r.andThen fun s2 =>
        match read_arm_joint P sip1 s2 i with
        | some s3 => (.returned, s3)
        | none => (.fault, s2))
      (.returned, s1)

/-- The names under which `arm_initialize` registers the joints: `ss` is never
cleared, so `ss.str()` after `ss << i` holds every index written so far. -/
def joint_names (n : Nat) : List String :=
  ((List.range n).foldl
    (fun (acc : String × List String) i =>
      let ss := acc.1 ++ toString i
      (ss, acc.2 ++ ["Joint" ++ ss]))
    ("", [])).2

/-- `arm_initialize`, over the `SendReceive` it calls. -/
def arm_initialize (SendReceive : P2OSNode → Option P2OSPacket → Bool → Res)
    (s : P2OSNode) : Res :=
  match s.sippacket with
  | none => (.fault, s)
  | some sip =>
    if !strstr sip.armVersionString (ascii "No arm") then
      if s.use_arm_ ∧ !s.arm_initialized_ then
        -- Turn on arm power
        (SendReceive s (some (.cmd4 .ARM_POWER .ARGINT 1 0)) false).andThen fun s1 =>
        -- Configure P2OS to stream ARMPAC (joint state) messages
        (SendReceive s1 (some (.cmd4 .ARM_STATUS .ARGINT 2 0)) false).andThen fun s2 =>
        match s2.sippacket with
        | none => (.fault, s2)
        | some sip2 =>
          let n := sip2.armNumJoints
          (.returned,
            { s2 with
              NumberOfJoints := n
              arm_cmd := resize s2.arm_cmd n
              arm_pos := resize s2.arm_pos n
              arm_vel := resize s2.arm_vel n
              arm_eff := resize s2.arm_eff n
              jnt_state_names := s2.jnt_state_names ++ joint_names n
              jnt_pos_names := s2.jnt_pos_names ++ joint_names n
              arm_initialized_ := true })
      else (.returned, s)
    else (.returned, s)

/-- The body of `SendReceive`, over the `SendReceive` that `arm_initialize`
calls. -/
def SendReceive_body (P : Platform) (env : Env)
    (nested : P2OSNode → Option P2OSPacket → Bool → Res)
    (s : P2OSNode) (pkt : Option P2OSPacket) (publish_data : Bool) : Res :=
  match s.sippacket with
  | none => (.returned, s)
  | some sip =>
    if s.psos_fd ≥ 0 then
      let s1 := match pkt with
        | some p => { s with trace := .send p :: s.trace }
        | none => s
      -- receive a packet
      let r := env.Receive s1.trace
      let s2 := { s1 with trace := .recv r :: s1.trace }
      if r.err then (.exited, s2)
      else
        let packet := r.packet
        if byteAt packet 0 = 0xFA ∧ byteAt packet 1 = 0xFB ∧
            (byteAt packet 3 = 0x30 ∨ byteAt packet 3 = 0x31 ∨ byteAt packet 3 = 0x32 ∨
             byteAt packet 3 = 0x33 ∨ byteAt packet 3 = 0x34) then
          -- It is a server packet, so process it
          let sip1 := P.ParseStandard sip (packet.drop 3)
          let s3 := { s2 with sippacket := some sip1,
                              p2os_data := P.FillStandard sip1 s2.p2os_data }
          if publish_data then (.returned, StandardSIPPutData s3) else (.returned, s3)
        else if byteAt packet 0 = 0xFA ∧ byteAt packet 1 = 0xFB ∧
            byteAt packet 3 = P.SERAUX then
          -- This is an AUX serial packet
          if s2.ptz_.is_on then
            let len : Int := (byteAt packet 2 : Int) - 3
            if P.gotPacket s2.ptz_.cb_ then (.returned, s2)
            else
              let bytes := (List.range len.toNat).map fun k => byteAt packet (4 + k)
              (.returned, { s2 with ptz_ := { s2.ptz_ with cb_ := bytes.foldl P.putOnBuf s2.ptz_.cb_ } })
          else (.returned, s2)
        else if byteAt packet 0 = 0xFA ∧ byteAt packet 1 = 0xFB ∧
            byteAt packet 3 = P.ARMPAC then
          let s3 := { s2 with sippacket := some (P.ParseArm sip (packet.drop 2)) }
          if publish_data then read_arm_state P s3 else (.returned, s3)
        else if byteAt packet 0 = 0xFA ∧ byteAt packet 1 = 0xFB ∧
            byteAt packet 3 = P.ARMINFOPAC then
          let s3 := { s2 with sippacket := some (P.ParseArmInfo sip (packet.drop 2)) }
          arm_initialize nested s3
        else
          (.returned, s2)
    else (.returned, s)

/-- `SendReceive`: send the packet, then receive and parse an SIP.  The fuel
bounds the depth of `SendReceive` calls made from inside `arm_initialize`. -/
def SendReceive (P : Platform) (env : Env) :
    Nat → P2OSNode → Option P2OSPacket → Bool → Res
  | 0 => SendReceive_body P env fun s _ _ => (.outOfFuel, s)
  | fuel + 1 => SendReceive_body P env (SendReceive P env fuel)

/-! ## Command dispatch -/

/-- `cmdmotor_state`. -/
def cmdmotor_state (s : P2OSNode) (msg : Int) : P2OSNode :=
  { s with motor_dirty := true, cmdmotor_state_ := msg }

/-- `check_and_set_motor_state`. -/
def check_and_set_motor_state (P : Platform) (env : Env) (fuel : Nat) (s : P2OSNode) : Res :=
  if !s.motor_dirty then (.returned, s)
  else
    let s := { s with motor_dirty := false }
    let val := u8 s.cmdmotor_state_
    let packet := P2OSPacket.cmd4 .ENABLE .ARGINT val 0
    -- Store the current motor state so that we can set it back
    let s := { s with p2os_data := { s.p2os_data with motors_state := s.cmdmotor_state_ } }
    SendReceive P env fuel s (some packet) false

/-- `gripperCallback`. -/
def gripperCallback (s : P2OSNode) (msg : GripperState) : P2OSNode :=
  { s with gripper_dirty_ := true, gripper_state_ := msg }

/-- `check_and_set_gripper_state`. -/
def check_and_set_gripper_state (P : Platform) (env : Env) (fuel : Nat) (s : P2OSNode) : Res :=
  if !s.gripper_dirty_ then (.returned, s)
  else
    let s := { s with gripper_dirty_ := false }
    -- Send the gripper command
    let grip_packet := P2OSPacket.cmd4 .GRIPPER .ARGINT (u8 s.gripper_state_.grip_state) 0
    (SendReceive P env fuel s (some grip_packet) false).andThen fun s1 =>
    -- Send the lift command
    let lift_packet := P2OSPacket.cmd4 .GRIPPER .ARGINT (u8 s1.gripper_state_.lift_state) 0
    SendReceive P env fuel s1 (some lift_packet) false

/-- `cmdvel_cb`, with `now` the value of `ros::Time::now()` during the call. -/
def cmdvel_cb (s : P2OSNode) (msg : Twist) (now : ℚ) : P2OSNode :=
  if |msg.linear_x - s.cmdvel_.linear_x| > 1 / 100 ∨
      |msg.angular_z - s.cmdvel_.angular_z| > 1 / 100 then
    { s with veltime := now, vel_dirty := true, cmdvel_ := msg }
  else
    let veldur := now - s.veltime
    if veldur > 5 ∧ (|s.cmdvel_.linear_x| > 1 / 100 ∨ |s.cmdvel_.angular_z| > 1 / 100) then
      { s with vel_dirty := true, veltime := now }
    else s

/-- The `motorcommand` that `check_and_set_vel` builds for the demand `v`
(`vx` or `va`) and the limit `max` (`motor_max_speed` or `motor_max_turnspeed`). -/
def vel_command (op : Cmd) (v : Int) (max : Int) : P2OSPacket :=
  let argType := if v ≥ 0 then ArgType.ARGINT else ArgType.ARGNINT
  -- (unsigned short)abs(v)
  let absDemand : Int := ((v.natAbs % 65536 : Nat) : Int)
  if absDemand ≤ max then
    .cmd4 op argType (lowByte absDemand) (highByte absDemand)
  else
    .cmd4 op argType (lowByte max) (highByte max)

/-- `int vx = (int)(cmdvel_.linear.x*1e3);` -/
def vel_vx (s : P2OSNode) : Int := truncToInt (s.cmdvel_.linear_x * 1000)

/-- `int va = (int)rint(RTOD(cmdvel_.angular.z));` -/
def vel_va (P : Platform) (s : P2OSNode) : Int := rint (RTOD P s.cmdvel_.angular_z)

/-- `check_and_set_vel`. -/
def check_and_set_vel (P : Platform) (env : Env) (fuel : Nat) (s : P2OSNode) : Res :=
  if !s.vel_dirty then (.returned, s)
  else
    let s := { s with vel_dirty := false }
    -- Linear velocity command
    (SendReceive P env fuel s (some (vel_command .VEL (vel_vx s) s.motor_max_speed)) true).andThen
    fun s1 =>
    -- Rotational velocity command
    SendReceive P env fuel s1 (some (vel_command .RVEL (vel_va P s) s1.motor_max_turnspeed)) true

/-- `check_and_set_vel` called `k` times in a row. -/
def check_and_set_vel_times (P : Platform) (env : Env) (fuel : Nat) :
    Nat → P2OSNode → Res
  | 0, s => (.returned, s)
  | k + 1, s => (check_and_set_vel P env fuel s).andThen (check_and_set_vel_times P env fuel k)

/-- `ToggleSonarPower`. -/
def ToggleSonarPower (P : Platform) (env : Env) (fuel : Nat) (s : P2OSNode) (val : Nat) : Res :=
  SendReceive P env fuel s (some (.cmd4 .SONAR .ARGINT val 0)) false

/-- A block `if(cond) { ...Build(command, 4); SendReceive(&packet, publish_data); }`. -/
def sendWhen (P : Platform) (env : Env) (fuel : Nat) (cond : Bool) (packet : P2OSPacket)
    (publish_data : Bool) (s : P2OSNode) : Res :=
  if cond then SendReceive P env fuel s (some packet) publish_data else (.returned, s)

/-- `Setup`, "if requested, set max accel/decel limits". -/
def Setup_accel (P : Platform) (env : Env) (fuel : Nat) (s : P2OSNode) : Res :=
  (sendWhen P env fuel (s.motor_max_trans_accel > 0)
    (.cmd4 .SETA .ARGINT (lowByte s.motor_max_trans_accel) (highByte s.motor_max_trans_accel))
    false s).andThen fun s =>
  (sendWhen P env fuel (s.motor_max_trans_decel < 0)
    (.cmd4 .SETA .ARGNINT (lowByte |s.motor_max_trans_decel|) (highByte |s.motor_max_trans_decel|))
    false s).andThen fun s =>
  (sendWhen P env fuel (s.motor_max_rot_accel > 0)
    (.cmd4 .SETRA .ARGINT (lowByte s.motor_max_rot_accel) (highByte s.motor_max_rot_accel))
    false s).andThen fun s =>
  sendWhen P env fuel (s.motor_max_rot_decel < 0)
    (.cmd4 .SETRA .ARGNINT (lowByte |s.motor_max_rot_decel|) (highByte |s.motor_max_rot_decel|))
    false s

/-- `Setup`, "if requested, change PID settings". -/
def Setup_pid (P : Platform) (env : Env) (fuel : Nat) (s : P2OSNode) : Res :=
  (sendWhen P env fuel (s.rot_kp ≥ 0)
    (.cmd4 .ROTKP .ARGINT (lowByte s.rot_kp) (highByte s.rot_kp)) true s).andThen fun s =>
  (sendWhen P env fuel (s.rot_kv ≥ 0)
    (.cmd4 .ROTKV .ARGINT (lowByte s.rot_kv) (highByte s.rot_kv)) true s).andThen fun s =>
  (sendWhen P env fuel (s.rot_ki ≥ 0)
    (.cmd4 .ROTKI .ARGINT (lowByte s.rot_ki) (highByte s.rot_ki)) true s).andThen fun s =>
  (sendWhen P env fuel (s.trans_kp ≥ 0)
    (.cmd4 .TRANSKP .ARGINT (lowByte s.trans_kp) (highByte s.trans_kp)) true s).andThen fun s =>
  (sendWhen P env fuel (s.trans_kv ≥ 0)
    (.cmd4 .TRANSKV .ARGINT (lowByte s.trans_kv) (highByte s.trans_kv)) true s).andThen fun s =>
  sendWhen P env fuel (s.trans_ki ≥ 0)
    (.cmd4 .TRANSKI .ARGINT (lowByte s.trans_ki) (highByte s.trans_ki)) true s

/-- `Setup`, the acceleration/deceleration and PID overrides one after the other. -/
def Setup_overrides (P : Platform) (env : Env) (fuel : Nat) (s : P2OSNode) : Res :=
  (Setup_accel P env fuel s).andThen fun s => Setup_pid P env fuel s

/-- The packets handed to the transport between two traces, oldest first. -/
def emitted (before after : List Event) : List P2OSPacket :=
  (sentPackets after).drop (sentPackets before).length

/-- The packets of a list with command byte `op` and argument type `t`. -/
def ofKind (op : Cmd) (t : ArgType) (ps : List P2OSPacket) : List P2OSPacket :=
  ps.filter fun p => p.op = op ∧ p.argType = some t

/-- The command bytes as `packet.h` of the P2OS protocol numbers them. -/
def p2osCode : Cmd → Nat
  | .SYNC0 => 0 | .SYNC1 => 1 | .SYNC2 => 2
  | .PULSE => 0 | .OPEN => 1 | .CLOSE => 2 | .ENABLE => 4 | .SETA => 5
  | .SETO => 7 | .VEL => 11 | .RVEL => 21 | .SETRA => 23 | .SONAR => 28
  | .STOP => 29 | .BUMP_STALL => 44 | .GRIPPER => 33
  | .ROTKP => 82 | .ROTKV => 83 | .ROTKI => 84
  | .TRANSKP => 85 | .TRANSKV => 86 | .TRANSKI => 87
  | .ARM_INFO => 70 | .ARM_STATUS => 71 | .ARM_POWER => 76 | .ARM_POS => 77

/-- Constants of the real protocol. -/
def p2osConsts : Consts := ⟨p2osCode⟩

/-- A transport that answers every packet with a frame carrying the command
byte of that packet; every system call succeeds. -/
def echoEnv : Env :=
  { Receive := fun h => match h with
      | .send p :: _ => ⟨false, [0xFA, 0xFB, 3, p2osCode p.op]⟩
      | _ => ⟨true, []⟩
    fcntl_ok := fun _ => true
    tcsetattr_ok := fun _ => true
    tcflush_ok := fun _ => true }

/-- A transport whose first frame is a status frame (byte 3 is `0x32`) of a
robot still running, and which echoes afterwards. -/
def recoverEnv : Env :=
  { echoEnv with
    Receive := fun h =>
      if numRecv h = 0 then ⟨false, [0xFA, 0xFB, 3, 0x32]⟩ else echoEnv.Receive h }

/-- A transport on which every `Receive` fails, leaving `0xFF` bytes in the
buffer; every system call succeeds. -/
def allFailEnv : Env :=
  { echoEnv with Receive := fun _ => ⟨true, [0xFF, 0xFF, 0xFF, 0xFF]⟩ }

/-- The node can talk to the robot: the test `(psos_fd >= 0) && sippacket` of
`SendReceive`. -/
def connected (s : P2OSNode) : Bool := decide (s.psos_fd ≥ 0) && s.sippacket.isSome

/-- The members of the node that `SendReceive` never writes: everything but the
trace, the SIP object, the telemetry snapshot, the PTZ buffer and the arm
buffers. -/
def P2OSNode.pending (s : P2OSNode) : P2OSNode :=
  { s with trace := [], sippacket := none, p2os_data := ⟨0, []⟩, ptz_ := ⟨false, []⟩,
           arm_cmd := [], arm_pos := [], arm_vel := [], arm_eff := [],
           jnt_state_names := [], jnt_pos_names := [], NumberOfJoints := 0,
           arm_initialized_ := false }

/-- The two packets that `arm_initialize` sends. -/
def isArmInit (p : P2OSPacket) : Prop :=
  p = .cmd4 .ARM_POWER .ARGINT 1 0 ∨ p = .cmd4 .ARM_STATUS .ARGINT 2 0

/-- A `SendReceive`-like call leaves the pending command state alone, keeps the
node connected, and hands to the transport nothing but its packet and the
packets of `arm_initialize`. -/
def SendsOnly (f : P2OSNode → Option P2OSPacket → Bool → Res) : Prop :=
  ∀ s pkt publish_data,
    (f s pkt publish_data).2.pending = s.pending ∧
    (connected s = true → connected (f s pkt publish_data).2 = true) ∧
    ∃ added, sentPackets (f s pkt publish_data).2.trace = sentPackets s.trace ++ added ∧
      ∀ p ∈ added, some p = pkt ∨ isArmInit p

/-! ## Shutdown -/

/-- `Shutdown` after the PTZ line: from `if(this->psos_fd == -1) return -1;` to
the end; the value returned and the node afterwards. -/
def Shutdown_link (s : P2OSNode) : Int × P2OSNode :=
  if s.psos_fd = -1 then (-1, s)
  else
    let s := { s with trace := Event.send (.cmd .STOP) :: s.trace }
    let s := { s with trace := Event.send (.cmd .CLOSE) :: s.trace }
    let s :=
      if !s.psos_use_tcp then { s with psos_fd := -1, trace := Event.close :: s.trace }
      else { s with psos_fd := -1, trace := Event.close :: s.trace }
    (0, { s with sippacket := none })

/-- `Shutdown`, over the `ptz_.shutdown()` of `p2os_ptz.cc`: how the call ends,
the value returned and the node afterwards. -/
def Shutdown (ptz_shutdown : P2OSNode → Res) (s : P2OSNode) : Status × Int × P2OSNode :=
  let r := if s.ptz_.is_on then ptz_shutdown s else (.returned, s)
  match r.1 with
  | .returned => (.returned, Shutdown_link r.2)
  | st => (st, 0, r.2)

/-! ## Sample platform, transports and nodes -/

/-- A platform with the packet-type bytes of the real protocol and a SIP
decoder that stores nothing. -/
def samplePlatform : Platform :=
  { SERAUX := 0xB0, ARMPAC := 0xA0, ARMINFOPAC := 0xA1,
    M_PI := 355 / 113,
    newSIP := fun i => ⟨i, 0, false, false, 0, 0, 0, 0, 0, [], [], [], [], [], [], []⟩,
    ParseStandard := fun sip _ => sip,
    FillStandard := fun _ d => d,
    ParseArm := fun sip _ => sip,
    ParseArmInfo := fun sip _ => sip,
    gotPacket := fun _ => false,
    putOnBuf := fun b x => b ++ [x],
    PlayerRobotParams := sampleParams }

/-- A robot that answers every `Receive` with a standard status frame. -/
def statusEnv : Env :=
  { echoEnv with Receive := fun _ => ⟨false, [0xFA, 0xFB, 3, 0x32]⟩ }

/-- A connected node with nothing pending and no override configured. -/
def idleNode : P2OSNode :=
  { cmdvel_ := ⟨0, 0, 0, 0, 0, 0⟩, cmdmotor_state_ := 0, gripper_state_ := ⟨0, 0⟩,
    p2os_data := ⟨0, []⟩, psos_use_tcp := false, use_arm_ := false,
    arm_initialized_ := false, veltime := 0, arm_cmd := [], arm_pos := [], arm_vel := [],
    arm_eff := [], jnt_state_names := [], jnt_pos_names := [],
    sippacket := some (samplePlatform.newSIP 0), psos_fd := 3,
    vel_dirty := false, motor_dirty := false, gripper_dirty_ := false, param_idx := 0,
    rot_kp := -1, rot_kv := -1, rot_ki := -1, trans_kp := -1, trans_kv := -1, trans_ki := -1,
    bumpstall := -1, NumberOfJoints := 0, motor_max_speed := 500, motor_max_turnspeed := 100,
    motor_max_trans_accel := 0, motor_max_trans_decel := 0, motor_max_rot_accel := 0,
    motor_max_rot_decel := 0, pulse := 5, lastPulseTime := 0, use_sonar_ := false,
    ptz_ := ⟨false, []⟩, trace := [] }

/-- A node that is not connected, with all three channels dirty. -/
def offlineNode : P2OSNode :=
  { idleNode with psos_fd := -1, vel_dirty := true, motor_dirty := true,
                  gripper_dirty_ := true }

/-- A connected node with a velocity, a motor state and a gripper state pending. -/
def busyNode : P2OSNode :=
  { idleNode with cmdvel_ := ⟨3 / 10, 0, 0, 0, 0, 0⟩, cmdmotor_state_ := 1,
                  gripper_state_ := ⟨1, 4⟩, vel_dirty := true, motor_dirty := true,
                  gripper_dirty_ := true }

/-- The packets sent by a block `if(cond) { ... SendReceive(&packet); }`: the
packet when the condition holds, nothing otherwise. -/
def frameWhen (cond : Bool) (packet : P2OSPacket) : List P2OSPacket :=
  if cond then [packet] else []

/-- A block `if(cond) { ...Build(command, 4); SendReceive(&packet, publish_data); }`
as data: the condition and the packet as functions of the node. -/
structure Step where
  cond : P2OSNode → Bool
  packet : P2OSNode → P2OSPacket
  publish_data : Bool

/-- A list of blocks run one after the other. -/
def runSteps (P : Platform) (env : Env) (fuel : Nat) : List Step → P2OSNode → Res
  | [], s => (.returned, s)
  | st :: rest, s =>
    (sendWhen P env fuel (st.cond s) (st.packet s) st.publish_data s).andThen
      (runSteps P env fuel rest)

/-- The packets that a list of blocks sends on a node when every call returns. -/
def stepFrames : List Step → P2OSNode → List P2OSPacket
  | [], _ => []
  | st :: rest, s => frameWhen (st.cond s) (st.packet s) ++ stepFrames rest s

/-- The blocks of `Setup_accel` and `Setup_pid`, in the order of the source. -/
def overrideSteps : List Step :=
  [ ⟨fun s => s.motor_max_trans_accel > 0, fun s => .cmd4 .SETA .ARGINT
      (lowByte s.motor_max_trans_accel) (highByte s.motor_max_trans_accel), false⟩,
    ⟨fun s => s.motor_max_trans_decel < 0, fun s => .cmd4 .SETA .ARGNINT
      (lowByte |s.motor_max_trans_decel|) (highByte |s.motor_max_trans_decel|), false⟩,
    ⟨fun s => s.motor_max_rot_accel > 0, fun s => .cmd4 .SETRA .ARGINT
      (lowByte s.motor_max_rot_accel) (highByte s.motor_max_rot_accel), false⟩,
    ⟨fun s => s.motor_max_rot_decel < 0, fun s => .cmd4 .SETRA .ARGNINT
      (lowByte |s.motor_max_rot_decel|) (highByte |s.motor_max_rot_decel|), false⟩,
    ⟨fun s => s.rot_kp ≥ 0, fun s => .cmd4 .ROTKP .ARGINT
      (lowByte s.rot_kp) (highByte s.rot_kp), true⟩,
    ⟨fun s => s.rot_kv ≥ 0, fun s => .cmd4 .ROTKV .ARGINT
      (lowByte s.rot_kv) (highByte s.rot_kv), true⟩,
    ⟨fun s => s.rot_ki ≥ 0, fun s => .cmd4 .ROTKI .ARGINT
      (lowByte s.rot_ki) (highByte s.rot_ki), true⟩,
    ⟨fun s => s.trans_kp ≥ 0, fun s => .cmd4 .TRANSKP .ARGINT
      (lowByte s.trans_kp) (highByte s.trans_kp), true⟩,
    ⟨fun s => s.trans_kv ≥ 0, fun s => .cmd4 .TRANSKV .ARGINT
      (lowByte s.trans_kv) (highByte s.trans_kv), true⟩,
    ⟨fun s => s.trans_ki ≥ 0, fun s => .cmd4 .TRANSKI .ARGINT
      (lowByte s.trans_ki) (highByte s.trans_ki), true⟩ ]

/-- A block reads only members that `SendReceive` never writes. -/
def Step.Stable (st : Step) : Prop :=
  ∀ a b : P2OSNode, a.pending = b.pending → st.cond a = st.cond b ∧ st.packet a = st.packet b

/-- What a run on a connected node hands to the transport, up to the packets
of `arm_initialize`: for every kind of packet, a prefix of the packets `ps` of
that kind, and all of them when the run returns. -/
def Emits (s : P2OSNode) (r : Res) (ps : List P2OSPacket) : Prop :=
  r.2.pending = s.pending ∧ connected r.2 = true ∧
  ∃ X, sentPackets r.2.trace = sentPackets s.trace ++ X ∧
    (∀ op t, op ≠ Cmd.ARM_POWER → op ≠ Cmd.ARM_STATUS → ofKind op t X <+: ofKind op t ps) ∧
    (r.1 = .returned → ∀ op t, op ≠ Cmd.ARM_POWER → op ≠ Cmd.ARM_STATUS →
      ofKind op t X = ofKind op t ps)

/-- The packets that `Setup_overrides` hands to the transport. -/
def overrides_emitted (P : Platform) (env : Env) (fuel : Nat) (s : P2OSNode) :
    List P2OSPacket :=
  emitted s.trace (Setup_overrides P env fuel s).2.trace

/-- No packet of the kind `op`, `t` is among `E`. -/
def NoFrame (op : Cmd) (t : ArgType) (E : List P2OSPacket) : Prop :=
  ofKind op t E = []

/-- Exactly one packet of the kind `op`, `t` is among `E`, and it carries `v`
as its 16-bit argument, low byte first. -/
def OneFrame (op : Cmd) (t : ArgType) (v : Nat) (E : List P2OSPacket) : Prop :=
  ofKind op t E = [.cmd4 op t (v % 256) (v / 256)]

/-- A connected node with a translation deceleration of 200 mm/s/s configured
the way the code expects it, as a negative number, and `rot_kp = 40`. -/
def decelNode : P2OSNode :=
  { idleNode with motor_max_trans_decel := -200, rot_kp := 40 }

/-- A connected node with every acceleration and deceleration override positive. -/
def positiveNode : P2OSNode :=
  { idleNode with motor_max_trans_accel := 300, motor_max_trans_decel := 200,
                  motor_max_rot_accel := 100, motor_max_rot_decel := 50 }

/-- The same velocity message delivered to `cmdvel_cb` at the times `t1` and
`t2`, with `k1` calls of `check_and_set_vel` after the first delivery and `k2`
calls after the second. -/
def deliver_twice (P : Platform) (env : Env) (fuel : Nat) (s : P2OSNode) (msg : Twist)
    (t1 t2 : ℚ) (k1 k2 : Nat) : Res :=
  (check_and_set_vel_times P env fuel k1 (cmdvel_cb s msg t1)).andThen fun s2 =>
    check_and_set_vel_times P env fuel k2 (cmdvel_cb s2 msg t2)

/-! ## Arm: ticks, degrees, radians -/

/-- `round` of `<cmath>`: to nearest, halfway cases away from zero. -/
def cround (q : ℚ) : Int := if 0 ≤ q then ⌊q + 1 / 2⌋ else ⌈q - 1 / 2⌉

/-- The calibration `sippacket->armJoints[joint]`. -/
def armJoint (sip : SIP) (joint : Int) : ArmJoint :=
  sip.armJoints.getD joint.toNat ⟨0, 0, 0, 0, 0, 0⟩

/-- The value `val` of `DegreesToTicks` before it is compared with `min` and
`max`: the rounded tick offset, negated for joints 0 to 2, plus `centre`. -/
def unclampedTicks (sip : SIP) (joint : Int) (degrees : ℚ) : ℚ :=
  let val : ℚ := ((armJoint sip joint).ticksPer90 : ℚ) * degrees / 90
  let val : ℚ := (cround val : ℚ)
  let val : ℚ := if joint ≥ 0 ∧ joint ≤ 2 then -val else val
  val + ((armJoint sip joint).centre : ℚ)

/-- `DegreesToTicks`. -/
def DegreesToTicks (sip : SIP) (joint : Int) (degrees : ℚ) : Nat :=
  if joint < 0 ∨ joint ≥ sip.armNumJoints then 0
  else
    let val := unclampedTicks sip joint degrees
    if val < ((armJoint sip joint).min : ℚ) then (armJoint sip joint).min
    else if val > ((armJoint sip joint).max : ℚ) then (armJoint sip joint).max
    else u8 (cround val)

/-- `RadiansToTicks`. -/
def RadiansToTicks (P : Platform) (sip : SIP) (joint : Int) (rads : ℚ) : Nat :=
  DegreesToTicks sip joint (RTOD P rads) % 256

/-- A SIP object whose `n` joints all have the calibration
`centre = 100, ticksPer90 = 90, min = 0, max = 200`. -/
def calibratedSIP (n : Nat) : SIP :=
  { samplePlatform.newSIP 0 with
    armNumJoints := n
    armJoints := List.replicate n ⟨0, 0, 0, 100, 200, 90⟩
    armJointTargetPos := List.replicate 6 0 }

/-- A connected node holding the small command 0.005 m/s, unchanged since time 0. -/
def creepNode : P2OSNode :=
  { idleNode with cmdvel_ := ⟨1 / 200, 0, 0, 0, 0, 0⟩ }

/-- A connected node holding the command 0.3 m/s, unchanged since time 0. -/
def cruiseNode : P2OSNode :=
  { idleNode with cmdvel_ := ⟨3 / 10, 0, 0, 0, 0, 0⟩ }

/-- The first test of `SendReceive` on a received packet: a standard SIP. -/
def isStandardSIP (packet : List Nat) : Prop :=
  byteAt packet 0 = 0xFA ∧ byteAt packet 1 = 0xFB ∧
    (byteAt packet 3 = 0x30 ∨ byteAt packet 3 = 0x31 ∨ byteAt packet 3 = 0x32 ∨
     byteAt packet 3 = 0x33 ∨ byteAt packet 3 = 0x34)

/-- The later tests of `SendReceive` on a received packet: the sync bytes and
the packet type `t` (`SERAUX`, `ARMPAC`, `ARMINFOPAC`). -/
def isPacketOfType (t : Nat) (packet : List Nat) : Prop :=
  byteAt packet 0 = 0xFA ∧ byteAt packet 1 = 0xFB ∧ byteAt packet 3 = t

/-- The trace after `if(pkt) pkt->Send(psos_fd)`. -/
def traceAfterSend (s : P2OSNode) (pkt : Option P2OSPacket) : List Event :=
  match pkt with
  | some p => .send p :: s.trace
  | none => s.trace

/-- A robot that answers every `Receive` with a valid frame of the unknown
type `0x99`. -/
def strangeEnv : Env :=
  { echoEnv with Receive := fun _ => ⟨false, [0xFA, 0xFB, 3, 0x99]⟩ }

/-! ## Arm dispatch and the control loop -/

/-- The `ARM_POS` command of `write_arm_state` for joint `i`. -/
def arm_pos_command (position : Nat) (i : Nat) : P2OSPacket :=
  .cmd4 .ARM_POS .ARGINT position (u8 ((i : Int) + 1))

/-- One pass through the loop of `write_arm_state`, for joint `i`; `fault` when
`i` is outside `arm_cmd` or `armJointTargetPos`. -/
def write_arm_joint (P : Platform) (env : Env) (fuel : Nat) (s : P2OSNode) (i : Nat) : Res :=
  match s.sippacket with
  | none => (.fault, s)
  | some sip =>
    if i < s.arm_cmd.length ∧ i < sip.armJointTargetPos.length then
      -- Calculate joint settings
      let position := RadiansToTicks P sip (i : Int) (s.arm_cmd.getD i 0)
      if position ≠ sip.armJointTargetPos.getD i 0 then
        (SendReceive P env fuel s (some (arm_pos_command position i)) true).andThen fun s1 =>
          match s1.sippacket with
          | none => (.fault, s1)
          | some sip1 =>
            if i < sip1.armJointTargetPos.length then
              (.returned, { s1 with sippacket := some { sip1 with
                armJointTargetPos := sip1.armJointTargetPos.set i position } })
            else (.fault, s1)
      else (.returned, s)
    else (.fault, s)

/-- The loop `for(unsigned char i = 0; i < sippacket->armNumJoints; ++i)` of
`write_arm_state` from `i` on; `n` bounds the passes left (`i` is a byte). -/
def write_arm_loop (P : Platform) (env : Env) (fuel : Nat) : Nat → Nat → P2OSNode → Res
  | 0, _, s => (.outOfFuel, s)
  | n + 1, i, s =>
    match s.sippacket with
    | none => (.fault, s)
    | some sip =>
      if i < sip.armNumJoints then
        (write_arm_joint P env fuel s i).andThen (write_arm_loop P env fuel n (i + 1))
      else (.returned, s)

/-- `write_arm_state`. -/
def write_arm_state (P : Platform) (env : Env) (fuel : Nat) (s : P2OSNode) : Res :=
  write_arm_loop P env fuel 256 0 s

/-- `check_and_set_arm_state`, over the controller manager: `cm_update` gives
the joint commands that `cm.update` writes into `arm_cmd`. -/
def check_and_set_arm_state (P : Platform) (env : Env) (fuel : Nat)
    (cm_update : P2OSNode → List ℚ) (s : P2OSNode) : Res :=
  if s.arm_initialized_ then
    (read_arm_state P s).andThen fun s1 =>
      write_arm_state P env fuel { s1 with arm_cmd := cm_update s1 }
  else (.returned, s)

/-- `SendPulse`. -/
def SendPulse (P : Platform) (env : Env) (fuel : Nat) (s : P2OSNode) : Res :=
  SendReceive P env fuel s (some (.cmd .PULSE)) true

/-- The four `check_and_set_*` calls at the start of a pass of the loop of `main`. -/
def main_dispatch (P : Platform) (env : Env) (fuel : Nat) (cm_update : P2OSNode → List ℚ)
    (s : P2OSNode) : Res :=
  (check_and_set_vel P env fuel s).andThen fun s =>
  (check_and_set_motor_state P env fuel s).andThen fun s =>
  (check_and_set_gripper_state P env fuel s).andThen fun s =>
  check_and_set_arm_state P env fuel cm_update s

/-- One pass of the loop of `main`, up to and including the `SendReceive(NULL, true)`:
the node afterwards and the new value of `pulseCounter`. -/
def main_tick (P : Platform) (env : Env) (fuel : Nat) (cm_update : P2OSNode → List ℚ)
    (s : P2OSNode) (pulseCounter : Int) : Res × Int :=
  let r := main_dispatch P env fuel cm_update s
  let pulseCounter := pulseCounter + 1
  if (pulseCounter : ℚ) > r.2.pulse then
    (((r.andThen fun s => SendPulse P env fuel s).andThen fun s =>
      -- Listen at a constant rate
      SendReceive P env fuel s none true), 0)
  else
    ((r.andThen fun s => SendReceive P env fuel s none true), pulseCounter)

/-- A run `r` from the node `s` hands no packet with the command byte `c` to
the transport, keeps a connected node connected and does not write `pulse`. -/
def QuietAt (c : Cmd) (s : P2OSNode) (r : Res) : Prop :=
  (connected s = true → connected r.2 = true) ∧ r.2.pulse = s.pulse ∧
    ∃ X, sentPackets r.2.trace = sentPackets s.trace ++ X ∧ countCmd c X = 0

/-- Two nodes agree on the trace, on `pulse` and on being connected. -/
def SameLink (a b : P2OSNode) : Prop :=
  a.trace = b.trace ∧ a.pulse = b.pulse ∧ a.psos_fd = b.psos_fd ∧
    (b.sippacket.isSome = true → a.sippacket.isSome = true)

/-- A connected node with a motor state pending and `pulse = 5`. -/
def motorNode : P2OSNode :=
  { idleNode with cmdmotor_state_ := 1, motor_dirty := true }

/-- A SIP decoder that leaves the arm description in place: the number of
joints, the calibration, the last sent targets, and the sizes of the joint
position and joint motion arrays. -/
def KeepsArm (D : SIP → List Nat → SIP) : Prop :=
  ∀ (sip : SIP) (pk : List Nat),
    (D sip pk).armNumJoints = sip.armNumJoints ∧ (D sip pk).armJoints = sip.armJoints ∧
    (D sip pk).armJointTargetPos = sip.armJointTargetPos ∧
    (D sip pk).armJointPos.length = sip.armJointPos.length ∧
    (D sip pk).armJointMoving.length = sip.armJointMoving.length

/-- The node has an open descriptor, the joint commands `C`, a SIP object with
the joints and calibration of `sip0` and the last sent targets `T`, and every
arm vector and SIP arm array read by `read_arm_state` holds all joints. -/
def ArmView (sip0 : SIP) (C : List ℚ) (T : List Nat) (s : P2OSNode) : Prop :=
  0 ≤ s.psos_fd ∧ s.arm_cmd = C ∧ sip0.armNumJoints ≤ s.arm_pos.length ∧
  sip0.armNumJoints ≤ s.arm_vel.length ∧ sip0.armNumJoints ≤ s.arm_eff.length ∧
  ∃ sip, s.sippacket = some sip ∧ sip.armNumJoints = sip0.armNumJoints ∧
    sip.armJoints = sip0.armJoints ∧ sip.armJointTargetPos = T ∧
    sip0.armNumJoints ≤ sip.armJointPos.length ∧ sip0.armNumJoints ≤ sip.armJointMoving.length

/-- The value `position` of `write_arm_state` for joint `i`:
`RadiansToTicks(i, arm_cmd[i])`. -/
def arm_tick (P : Platform) (sip : SIP) (C : List ℚ) (i : Nat) : Nat :=
  RadiansToTicks P sip (i : Int) (C.getD i 0)

/-- The decision of `write_arm_state` for joint `j` against the targets `T`:
the command to send, if any. -/
def arm_frame (P : Platform) (sip : SIP) (C : List ℚ) (T : List Nat) (j : Nat) :
    Option P2OSPacket :=
  if arm_tick P sip C j ≠ T.getD j 0 then some (arm_pos_command (arm_tick P sip C j) j) else none

/-- The arm dispatch as the specification words it: in increasing joint order,
for each joint `i < armNumJoints` whose tick `RadiansToTicks(i, arm_cmd[i])`
differs from `armJointTargetPos[i]`, the frame `[ARM_POS, ARGINT, tick, i+1]`. -/
def arm_diff_frames (P : Platform) (sip : SIP) (C : List ℚ) : List P2OSPacket :=
  (List.range sip.armNumJoints).filterMap fun i =>
    if arm_tick P sip C i ≠ sip.armJointTargetPos.getD i 0 then
      some (.cmd4 .ARM_POS .ARGINT (arm_tick P sip C i) (i + 1))
    else none

/-- A SIP object of a two-joint arm: calibration as in `calibratedSIP`, joint 0
last sent to tick 100, joint 1 to tick 0. -/
def armSIP : SIP :=
  { calibratedSIP 2 with
    armJointPos := List.replicate 6 0
    armJointMoving := List.replicate 6 false
    armJointTargetPos := [100, 0, 0, 0, 0, 0] }

/-- A connected node with an initialised two-joint arm and both joints
commanded to 0 rad. -/
def armNode : P2OSNode :=
  { idleNode with use_arm_ := true, arm_initialized_ := true, NumberOfJoints := 2,
                  arm_cmd := [0, 0], arm_pos := [0, 0], arm_vel := [0, 0], arm_eff := [0, 0],
                  sippacket := some armSIP }

/-! ## Diagnostics -/

/-- The levels of `diagnostic_msgs::DiagnosticStatus` that `check_voltage` hands
to `stat.summary`. -/
inductive DiagLevel
  | OK | WARN | ERROR
  deriving DecidableEq, Repr

/-- The severity of a level: `OK` 0, `WARN` 1, `ERROR` 2. -/
def DiagLevel.rank : DiagLevel → Nat
  | .OK => 0
  | .WARN => 1
  | .ERROR => 2

/-- `check_voltage`: the level handed to `stat.summary` and the value added
under "Voltage"; `none` when `sippacket` is null. -/
def check_voltage (s : P2OSNode) : Option (DiagLevel × ℚ) :=
  match s.sippacket with
  | none => none
  | some sip =>
    let voltage : ℚ := (sip.battery : ℚ) / 10
    if voltage < 11 then some (.ERROR, voltage)
    else if voltage < 47 / 4 then some (.WARN, voltage)
    else some (.OK, voltage)

/-! ## Handshake runs -/

/-- The loop state in which a pass through the loop body ends. -/
def IterResult.state : IterResult → SyncState
  | .next s => s
  | .brk s => s
  | .ret1 s => s

/-- The loop state in which the loop ends. -/
def LoopResult.state : LoopResult → SyncState
  | .outOfFuel s => s
  | .after s => s
  | .ret1 s => s

/-- Number of `CLOSE` frames sent so far. -/
def closesSent (s : SyncState) : Nat := countCmd .CLOSE (sentPackets s.trace)

/-- A transport that delivers one valid frame per `Receive`, with byte 3 taken
from `script` in order, and fails once the script is used up; every system call
succeeds. -/
def scriptEnv (script : List Nat) : Env :=
  { echoEnv with
    Receive := fun h =>
      if numRecv h < script.length then ⟨false, [0xFA, 0xFB, 3, script.getD (numRecv h) 0]⟩
      else ⟨true, []⟩ }

/-- The bound that the flag `sent_close` keeps on the `CLOSE` frames sent:
none while the flag is clear, at most one once it is set. -/
def CloseBound (s : SyncState) : Prop :=
  closesSent s ≤ (if s.sent_close then 1 else 0)

/-! ## Arm activation scenarios -/

/-- A transport that delivers the frames of a script in order, one per
`Receive`, and standard status frames afterwards; every system call succeeds. -/
def framesEnv (frames : List (List Nat)) : Env :=
  { echoEnv with
    Receive := fun h =>
      if numRecv h < frames.length then ⟨false, frames.getD (numRecv h) []⟩
      else ⟨false, [0xFA, 0xFB, 3, 0x32]⟩ }

/-- A connected node on which the arm was requested (`use_arm` set) and is not
yet initialised; the SIP object describes a two-joint arm. -/
def armRequestNode : P2OSNode :=
  { idleNode with use_arm_ := true, sippacket := some armSIP }

/-- A connected node on which the arm was not requested; the SIP object holds no
joint yet. -/
def noArmNode : P2OSNode :=
  { idleNode with sippacket := some { armSIP with armNumJoints := 0, armJoints := [] } }

/-- A sample platform whose arm-info decoder stores the joint count carried by
the frame (byte 4 of the packet); everything else as in `samplePlatform`. -/
def armInfoPlatform : Platform :=
  { samplePlatform with
    ParseArmInfo := fun sip pk => { sip with armNumJoints := byteAt pk 2 } }

/-! ## Theorems -/

/-- Fuel left over after the model ran out of it continues the same run. -/
theorem sync_loop_add (iter : SyncState → IterResult) (k n : Nat) :
    ∀ s s', sync_loop iter k s = .outOfFuel s' →
      sync_loop iter (k + n) s = sync_loop iter n s' := by
  induction k with
  | zero =>
    intro s s' h
    simp only [sync_loop, LoopResult.outOfFuel.injEq] at h
    simp [h]
  | succ k ih =>
    intro s s' h
    rw [Nat.add_right_comm]
    simp only [sync_loop] at h ⊢
    split at h
    · cases h
    · split at h
      · rename_i s1 heq
        simp only [heq, if_neg ‹_›]
        exact ih s1 s' h
      · cases h
      · cases h

/-- A run that left the loop is not changed by more fuel. -/
theorem sync_loop_mono (iter : SyncState → IterResult) (k n : Nat) :
    ∀ s r, sync_loop iter k s = r → (∀ s', r ≠ .outOfFuel s') →
      sync_loop iter (k + n) s = r := by
  induction k with
  | zero =>
    intro s r h hr
    simp only [sync_loop] at h
    exact absurd h.symm (hr s)
  | succ k ih =>
    intro s r h hr
    rw [Nat.add_right_comm]
    simp only [sync_loop] at h ⊢
    by_cases hs : s.psos_state = .READY
    · simpa [hs] using h
    · simp only [if_neg hs] at h ⊢
      cases hi : iter s with
      | next s1 => simp only [hi] at h ⊢; exact ih s1 r h hr
      | brk s1 => simp only [hi] at h ⊢; exact h
      | ret1 s1 => simp only [hi] at h ⊢; exact h

/-- C1. Handshake determinism: on a transport whose every receive returns a
valid frame echoing the sync command just sent, the loops of `Setup` and of
`SetupTCP` reach `READY` with exactly three packets sent, `SYNC0`, `SYNC1`,
`SYNC2` in that order (so no `CLOSE`), exactly three receives, and no baud
index used other than the initial one. -/
theorem handshake_determinism (K : Consts) (env : Env) (fd : Int) (buf : List Nat)
    (h01 : K.code .SYNC0 ≠ K.code .SYNC1) (h02 : K.code .SYNC0 ≠ K.code .SYNC2)
    (h12 : K.code .SYNC1 ≠ K.code .SYNC2)
    (hfcntl : ∀ h, env.fcntl_ok h = true)
    (hecho : ∀ h c, c = Cmd.SYNC0 ∨ c = Cmd.SYNC1 ∨ c = Cmd.SYNC2 →
      (env.Receive (.send (.cmd c) :: h)).err = false ∧
      byteAt (env.Receive (.send (.cmd c) :: h)).packet 3 = K.code c)
    (n : Nat) :
    (∃ s, Setup_sync K env (n + 4) fd buf = .ready s ∧ s.psos_state = .READY ∧
      sentPackets s.trace = [.cmd .SYNC0, .cmd .SYNC1, .cmd .SYNC2] ∧
      numRecv s.trace = 3 ∧ baudIndices s.trace = [0] ∧ s.psos_fd = fd) ∧
    (∃ s, SetupTCP_sync K env (n + 4) fd buf = .ready s ∧ s.psos_state = .READY ∧
      sentPackets s.trace = [.cmd .SYNC0, .cmd .SYNC1, .cmd .SYNC2] ∧
      numRecv s.trace = 3 ∧ baudIndices s.trace = [] ∧ s.psos_fd = fd) := by
  have e0 := fun h => hecho h .SYNC0 (Or.inl rfl)
  have e1 := fun h => hecho h .SYNC1 (Or.inr (Or.inl rfl))
  have e2 := fun h => hecho h .SYNC2 (Or.inr (Or.inr rfl))
  constructor
  · simp [Setup_sync, sync_finish, sync_loop, Setup_iter, Setup_init, sync_send, sync_receive,
      sync_switch, SyncState.send, e0, e1, e2, hfcntl, h01, h02, h12, h01.symm, h02.symm, h12.symm,
      sentPackets, numRecv, baudIndices]
  · simp [SetupTCP_sync, sync_finish, sync_loop, SetupTCP_iter, SetupTCP_init, sync_send,
      sync_receive, sync_switch, SyncState.send, e0, e1, e2, hfcntl, h01, h02, h12, h01.symm,
      h02.symm, h12.symm, sentPackets, numRecv, baudIndices]

/-- Witness of C1: the echoing transport with the real command bytes. -/
theorem handshake_determinism_witness :
    (∃ s, Setup_sync p2osConsts echoEnv 4 3 [] = .ready s ∧ s.psos_state = .READY ∧
      sentPackets s.trace = [.cmd .SYNC0, .cmd .SYNC1, .cmd .SYNC2] ∧
      numRecv s.trace = 3 ∧ baudIndices s.trace = [0] ∧ s.psos_fd = 3) ∧
    (∃ s, SetupTCP_sync p2osConsts echoEnv 4 3 [] = .ready s ∧ s.psos_state = .READY ∧
      sentPackets s.trace = [.cmd .SYNC0, .cmd .SYNC1, .cmd .SYNC2] ∧
      numRecv s.trace = 3 ∧ baudIndices s.trace = [] ∧ s.psos_fd = 3) :=
  handshake_determinism p2osConsts echoEnv 3 [] (by decide) (by decide) (by decide)
    (fun _ => rfl)
    (by intro h c hc; rcases hc with rfl | rfl | rfl <;> exact ⟨rfl, rfl⟩) 0

/-- C2. Handshake recovery: when the first receive returns a valid frame whose
command byte is none of `SYNC0`, `SYNC1`, `SYNC2` and every later receive
echoes the sync command just sent, the loop of `Setup` sends exactly one
`CLOSE` (after the first `SYNC0`) and reaches `READY`. -/
theorem handshake_recovery (K : Consts) (env : Env) (fd : Int) (buf : List Nat)
    (h01 : K.code .SYNC0 ≠ K.code .SYNC1) (h02 : K.code .SYNC0 ≠ K.code .SYNC2)
    (h12 : K.code .SYNC1 ≠ K.code .SYNC2)
    (hfcntl : ∀ h, env.fcntl_ok h = true)
    (hfirst : ∀ h, numRecv h = 0 → (env.Receive h).err = false ∧
      byteAt (env.Receive h).packet 3 ≠ K.code .SYNC0 ∧
      byteAt (env.Receive h).packet 3 ≠ K.code .SYNC1 ∧
      byteAt (env.Receive h).packet 3 ≠ K.code .SYNC2)
    (hecho : ∀ h c, numRecv h ≠ 0 → c = Cmd.SYNC0 ∨ c = Cmd.SYNC1 ∨ c = Cmd.SYNC2 →
      (env.Receive (.send (.cmd c) :: h)).err = false ∧
      byteAt (env.Receive (.send (.cmd c) :: h)).packet 3 = K.code c)
    (n : Nat) :
    ∃ s, Setup_sync K env (n + 5) fd buf = .ready s ∧ s.psos_state = .READY ∧
      countCmd .CLOSE (sentPackets s.trace) = 1 ∧
      sentPackets s.trace =
        [.cmd .SYNC0, .cmd .CLOSE, .cmd .SYNC0, .cmd .SYNC1, .cmd .SYNC2] := by
  have f0 := hfirst [.send (.cmd .SYNC0), .setBaud 0] (by simp [numRecv])
  have e0 := fun h hh => hecho h .SYNC0 hh (Or.inl rfl)
  have e1 := fun h hh => hecho h .SYNC1 hh (Or.inr (Or.inl rfl))
  have e2 := fun h hh => hecho h .SYNC2 hh (Or.inr (Or.inr rfl))
  simp [Setup_sync, sync_finish, sync_loop, Setup_iter, Setup_init, sync_send, sync_receive,
    sync_switch, SyncState.send, f0, e0, e1, e2, hfcntl, h01, h02, h12, h01.symm, h02.symm,
    h12.symm, sentPackets, numRecv]
  decide

/-- Witness of C2: a robot still running answers the first `SYNC0` with a
status frame, then echoes. -/
theorem handshake_recovery_witness :
    ∃ s, Setup_sync p2osConsts recoverEnv 5 3 [] = .ready s ∧ s.psos_state = .READY ∧
      countCmd .CLOSE (sentPackets s.trace) = 1 ∧
      sentPackets s.trace =
        [.cmd .SYNC0, .cmd .CLOSE, .cmd .SYNC0, .cmd .SYNC1, .cmd .SYNC2] :=
  handshake_recovery p2osConsts recoverEnv 3 [] (by decide) (by decide) (by decide)
    (fun _ => rfl)
    (by intro h hh; simp [recoverEnv, hh, byteAt, p2osConsts, p2osCode])
    (by
      intro h c hh hc
      have hh2 : numRecv (Event.send (P2OSPacket.cmd c) :: h) ≠ 0 := by
        simpa [numRecv] using hh
      rcases hc with rfl | rfl | rfl <;>
        (simp only [recoverEnv, if_neg hh2]; exact ⟨rfl, rfl⟩)) 0

set_option maxRecDepth 100000 in
/-- The loop of `Setup` on the transport where every receive fails, run to
its end: 100 passes, left through `break` with `currbaud = 20`. -/
theorem Setup_allFail_loop :
    ∃ s, sync_loop (Setup_iter p2osConsts allFailEnv) 100 (Setup_init 3 []) = .after s ∧
      s.psos_state = .NO_SYNC ∧ s.psos_fd = 3 ∧ s.currbaud = 20 ∧
      baudIndices s.trace = List.range 20 ∧ numRecv s.trace = 100 :=
  ⟨_, rfl, rfl, rfl, rfl, rfl, rfl⟩

/-- C3 (evaluation at the failing input). With every receive failing, `Setup`
does return 1 with `psos_fd = -1`, but only after 100 receives, having used
the indices `0 .. 19` into the five-element array `bauds`:
`numbauds = sizeof(bauds)` is 20, not 5. -/
theorem Setup_exhaustion_indexes_past_bauds (n : Nat) :
    ∃ s, Setup_sync p2osConsts allFailEnv (n + 100) 3 [] = .failed 1 s ∧
      s.psos_fd = -1 ∧ baudIndices s.trace = List.range 20 ∧
      numRecv s.trace = 100 ∧ bauds.length = 5 ∧ numbauds = 20 := by
  obtain ⟨s, hs, hst, -, -, hb, hr⟩ := Setup_allFail_loop
  have h := sync_loop_mono (Setup_iter p2osConsts allFailEnv) 100 n _ _ hs (by simp)
  refine ⟨s.closeFd, ?_, rfl, ?_, ?_, rfl, rfl⟩
  · rw [Nat.add_comm]
    simp [Setup_sync, h, sync_finish, hst]
  · simpa [SyncState.closeFd, baudIndices] using hb
  · simpa [SyncState.closeFd, numRecv] using hr

/-- Once the retry budget of `SetupTCP` is used up and `CLOSE` was sent, a
transport on which every receive fails keeps the loop in `NO_SYNC` for ever. -/
theorem SetupTCP_allFail_stuck (n : Nat) :
    ∀ s, s.psos_state = .NO_SYNC → s.num_sync_attempts < 0 → s.sent_close = true →
      ∃ s', sync_loop (SetupTCP_iter p2osConsts allFailEnv) n s = .outOfFuel s' ∧
        s'.psos_fd = s.psos_fd ∧ ∀ e ∈ s.trace, e ∈ s'.trace := by
  induction n with
  | zero => intro s _ _ _; exact ⟨s, rfl, rfl, fun _ h => h⟩
  | succ n ih =>
    intro s h1 h2 h3
    have hiter : ∃ s1, SetupTCP_iter p2osConsts allFailEnv s = .next s1 ∧
        s1.psos_state = .NO_SYNC ∧ s1.num_sync_attempts < 0 ∧ s1.sent_close = true ∧
        s1.psos_fd = s.psos_fd ∧ ∀ e ∈ s.trace, e ∈ s1.trace := by
      have h2' : ¬ (0 ≤ s.num_sync_attempts) := not_le.mpr h2
      refine ⟨sync_switch p2osConsts (sync_receive allFailEnv (s.send .SYNC0)).2, ?_, ?_⟩
      · simp [SetupTCP_iter, sync_send, h1, sync_receive, SyncState.send, h2']
      · simp +contextual [sync_switch, sync_receive, SyncState.send,
          allFailEnv, byteAt, p2osConsts, p2osCode, h1, h2, h3]
    obtain ⟨s1, e, a, b, c, d, f⟩ := hiter
    obtain ⟨s', hs', hfd, htr⟩ := ih s1 a b c
    refine ⟨s', ?_, hfd.trans d, fun e he => htr e (f e he)⟩
    simp only [sync_loop, h1, e]
    simpa using hs'

/-- C4 (evaluation at the failing input). With every receive failing, the
loop of `SetupTCP` never ends: whatever the fuel, the model is still inside the
loop with the socket open, so `SetupTCP` never returns failure; and from the
fifth pass on it has sent `CLOSE`, that is, it has run the `switch` on the
buffer of a failed receive. -/
theorem SetupTCP_never_returns_on_dead_link (fuel : Nat) :
    ∃ s, SetupTCP_sync p2osConsts allFailEnv fuel 3 [] = .outOfFuel s ∧ s.psos_fd = 3 ∧
      (5 ≤ fuel → Event.send (.cmd .CLOSE) ∈ s.trace) := by
  have h5 : ∃ s, sync_loop (SetupTCP_iter p2osConsts allFailEnv) 5 (SetupTCP_init 3 []) =
      .outOfFuel s ∧ s.psos_state = .NO_SYNC ∧ s.num_sync_attempts < 0 ∧
      s.sent_close = true ∧ s.psos_fd = 3 ∧ Event.send (.cmd .CLOSE) ∈ s.trace :=
    ⟨_, rfl, rfl, by decide, rfl, rfl, by decide⟩
  obtain ⟨s5, e5, a, b, c, d, hc⟩ := h5
  by_cases hf : 5 ≤ fuel
  · obtain ⟨n, rfl⟩ := Nat.exists_eq_add_of_le hf
    obtain ⟨s', hs', hfd, htr⟩ := SetupTCP_allFail_stuck n s5 a b c
    refine ⟨s', ?_, hfd.trans d, fun _ => htr _ hc⟩
    simp [SetupTCP_sync, sync_loop_add _ 5 n _ _ e5, hs', sync_finish]
  · have : fuel < 5 := not_le.mp hf
    interval_cases fuel <;> exact ⟨_, rfl, rfl, fun h => absurd h (by decide)⟩

/-- `strcasecmp` of two NUL-free strings is 0 exactly when they are equal
after lower-casing. -/
theorem strcasecmp_eq_zero_iff : ∀ a b : List Nat, (∀ c ∈ a, c ≠ 0) → (∀ c ∈ b, c ≠ 0) →
    (strcasecmp a b = 0 ↔ a.map tolower = b.map tolower)
  | [], [], _, _ => by simp [strcasecmp]
  | [], b :: bs, _, hb => by
    have : b ≠ 0 := hb b (by simp)
    have : tolower b ≠ 0 := by unfold tolower; split <;> omega
    simp [strcasecmp]; omega
  | a :: as, [], ha, _ => by
    have : a ≠ 0 := ha a (by simp)
    have : tolower a ≠ 0 := by unfold tolower; split <;> omega
    simp [strcasecmp]; omega
  | a :: as, b :: bs, ha, hb => by
    have ih := strcasecmp_eq_zero_iff as bs (fun c hc => ha c (by simp [hc]))
      (fun c hc => hb c (by simp [hc]))
    by_cases h : tolower a = tolower b
    · simp [strcasecmp, h, ih]
    · have h' : (tolower a : Int) - (tolower b : Int) ≠ 0 := by
        intro e; exact h (by omega)
      simp [strcasecmp, h, h']

/-- The bytes of a C string are not NUL. -/
theorem cstr_ne_zero (buf : List Nat) : ∀ c ∈ cstr buf, c ≠ 0 := by
  intro c hc
  have := List.mem_takeWhile_imp hc
  simpa using this

/-- The test of the lookup loop is the specification's match. -/
theorem params_match_iff (p : RobotParams_t) (type subtype : List Nat) :
    params_match p type subtype = true ↔ ProfileMatches p type subtype := by
  simp [params_match, ProfileMatches, eqIgnoreCase,
    strcasecmp_eq_zero_iff _ _ (cstr_ne_zero _) (cstr_ne_zero _)]

/-- What the lookup loop computes from index `k` on: the first matching entry,
or the end of the table with `param_idx` untouched. -/
theorem find_params_loop_spec (type subtype : List Nat) (old : Int) :
    ∀ (l : List RobotParams_t) (k : Nat),
      (∃ (i : Nat) (p : RobotParams_t), l[i]? = some p ∧ ProfileMatches p type subtype ∧
        (∀ (j : Nat) (q : RobotParams_t), j < i → l[j]? = some q → ¬ ProfileMatches q type subtype) ∧
        find_params_loop type subtype l k old = (k + i, ((k + i : Nat) : Int))) ∨
      ((∀ (j : Nat) (q : RobotParams_t), l[j]? = some q → ¬ ProfileMatches q type subtype) ∧
        find_params_loop type subtype l k old = (k + l.length, old))
  | [], k => by right; simp [find_params_loop]
  | p :: rest, k => by
    by_cases hp : params_match p type subtype = true
    · left
      refine ⟨0, p, by simp, (params_match_iff _ _ _).mp hp, ?_, ?_⟩
      · intro j q hj; omega
      · simp [find_params_loop, hp]
    · have hp' : ¬ ProfileMatches p type subtype := fun h => hp ((params_match_iff _ _ _).mpr h)
      rcases find_params_loop_spec type subtype old rest (k + 1) with
        ⟨i, q, hq, hm, hlt, he⟩ | ⟨hno, he⟩
      · left
        refine ⟨i + 1, q, by simpa using hq, hm, ?_, ?_⟩
        · intro j q' hj hq'
          cases j with
          | zero => simp at hq'; subst hq'; exact hp'
          | succ j => exact hlt j q' (by omega) (by simpa using hq')
        · simp only [find_params_loop, hp, he]
          simp [Nat.add_assoc, Nat.add_comm 1 i]
      · right
        refine ⟨?_, ?_⟩
        · intro j q' hq'
          cases j with
          | zero => simp at hq'; subst hq'; exact hp'
          | succ j => exact hno j q' (by simpa using hq')
        · simp only [find_params_loop, hp, he]
          simp [Nat.add_assoc, Nat.add_comm 1]

/-- C5. Profile resolution: `param_idx` after the lookup is the least index of
`PlayerRobotParams` whose `Class` equals the received class string and whose
`Subclass` equals the received subtype string, both ignoring ASCII case; when
no entry matches it is 0. -/
theorem profile_resolution (PlayerRobotParams : List RobotParams_t)
    (type subtype : List Nat) (old : Int) :
    (∃ (i : Nat) (p : RobotParams_t), PlayerRobotParams[i]? = some p ∧ ProfileMatches p type subtype ∧
      (∀ (j : Nat) (q : RobotParams_t), j < i → PlayerRobotParams[j]? = some q → ¬ ProfileMatches q type subtype) ∧
      find_params PlayerRobotParams type subtype old = (i : Int)) ∨
    ((∀ (j : Nat) (q : RobotParams_t), PlayerRobotParams[j]? = some q → ¬ ProfileMatches q type subtype) ∧
      find_params PlayerRobotParams type subtype old = 0) := by
  rcases find_params_loop_spec type subtype old PlayerRobotParams 0 with
    ⟨i, p, hp, hm, hlt, he⟩ | ⟨hno, he⟩
  · left
    refine ⟨i, p, hp, hm, hlt, ?_⟩
    have hi : i < PlayerRobotParams.length := by
      rcases Nat.lt_or_ge i PlayerRobotParams.length with h | h
      · exact h
      · simp [List.getElem?_eq_none h] at hp
    have hne : ¬ (i = PlayerRobotParams.length) := by omega
    simp [find_params, he, hne]
  · right
    exact ⟨hno, by simp [find_params, he]⟩

/-- The byte `x & 0x00FF` of a natural number. -/
theorem lowByte_natCast (n : Nat) : lowByte (n : Int) = n % 256 := by
  have h : Int.land (n : Int) 0x00FF = ((n &&& 255 : Nat) : Int) := rfl
  unfold lowByte
  rw [h]
  simpa using Nat.and_pow_two_sub_one_eq_mod n 8

/-- Masking with `0xFF00` and shifting right by 8 is the second byte. -/
theorem and_shiftRight_eq (n : Nat) : (n &&& 0xFF00) >>> 8 = n / 256 % 256 := by
  apply Nat.eq_of_testBit_eq
  intro i
  have e1 : n / 256 % 256 = (n >>> 8) % 2 ^ 8 := by simp [Nat.shiftRight_eq_div_pow]
  rw [e1, Nat.testBit_mod_two_pow, Nat.testBit_shiftRight, Nat.testBit_shiftRight, Nat.testBit_and]
  have e2 : (0xFF00 : Nat) = (2 ^ 8 - 1) <<< 8 := by decide
  rw [e2, Nat.testBit_shiftLeft, Nat.testBit_two_pow_sub_one]
  by_cases h : i < 8 <;> simp [h, Bool.and_comm]

/-- The byte `(x & 0xFF00) >> 8` of a natural number. -/
theorem highByte_natCast (n : Nat) : highByte (n : Int) = n / 256 % 256 := by
  have h : Int.land (n : Int) 0xFF00 = ((n &&& 0xFF00 : Nat) : Int) := rfl
  unfold highByte
  rw [h]
  have h2 : (((n &&& 0xFF00 : Nat) : Int) >>> 8) = (((n &&& 0xFF00) >>> 8 : Nat) : Int) := rfl
  rw [h2, Int.toNat_ofNat, and_shiftRight_eq]

/-- C7 (evaluation at the failing input). A demand of `vx = 66000` mm/s against
`motor_max_speed = 500` is not thresholded: `(unsigned short)abs(vx)` is
`66000 - 65536 = 464`, which passes the test against the limit, and the `VEL`
command carries 464 (bytes 208, 1), not 500 (bytes 244, 1).  Likewise
`va = 65600` against `motor_max_turnspeed = 100` gives an `RVEL` of 64. -/
theorem velocity_threshold_wraps :
    vel_vx { idleNode with cmdvel_ := ⟨66, 0, 0, 0, 0, 0⟩ } = 66000 ∧
    (500 : Int) < |66000| ∧
    vel_command .VEL 66000 500 = .cmd4 .VEL .ARGINT 208 1 ∧
    vel_command .VEL 66000 500 ≠ .cmd4 .VEL .ARGINT (500 % 256) (500 / 256) ∧
    vel_command .RVEL 65600 100 = .cmd4 .RVEL .ARGINT 64 0 := by
  refine ⟨?_, by decide, by decide, by decide, by decide⟩
  simp [vel_vx, idleNode, truncToInt]
  norm_num

/-- C8. Signed-magnitude velocity encoding: for `|vx| ≤ motor_max_speed ≤ 65535`
the `VEL` command is `[VEL, ARGINT if vx ≥ 0 else ARGNINT, |vx| mod 256,
|vx| div 256]`, and the `RVEL` command is built the same way from `va` and
`motor_max_turnspeed`. -/
theorem velocity_encoding (vx va motor_max_speed motor_max_turnspeed : Int)
    (hx : |vx| ≤ motor_max_speed) (hxm : motor_max_speed ≤ 65535)
    (ha : |va| ≤ motor_max_turnspeed) (ham : motor_max_turnspeed ≤ 65535) :
    vel_command .VEL vx motor_max_speed =
      .cmd4 .VEL (if vx ≥ 0 then .ARGINT else .ARGNINT) (vx.natAbs % 256) (vx.natAbs / 256) ∧
    vel_command .RVEL va motor_max_turnspeed =
      .cmd4 .RVEL (if va ≥ 0 then .ARGINT else .ARGNINT) (va.natAbs % 256) (va.natAbs / 256) := by
  have key : ∀ (op : Cmd) (v m : Int), |v| ≤ m → m ≤ 65535 →
      vel_command op v m =
        .cmd4 op (if v ≥ 0 then .ARGINT else .ARGNINT) (v.natAbs % 256) (v.natAbs / 256) := by
    intro op v m hv hm
    have hn : v.natAbs ≤ 65535 := by
      have : (v.natAbs : Int) = |v| := Int.natCast_natAbs v
      omega
    have hmod : v.natAbs % 65536 = v.natAbs := Nat.mod_eq_of_lt (by omega)
    have hle : ((v.natAbs : Nat) : Int) ≤ m := by
      have : (v.natAbs : Int) = |v| := Int.natCast_natAbs v
      omega
    have hdiv : v.natAbs / 256 % 256 = v.natAbs / 256 := Nat.mod_eq_of_lt (by omega)
    simp only [vel_command, hmod, hle, if_true, lowByte_natCast, highByte_natCast, hdiv]
  exact ⟨key _ _ _ hx hxm, key _ _ _ ha ham⟩

/-- Witness of C8: 300 mm/s backward and 45 deg/s, within limits of 500 and 100. -/
theorem velocity_encoding_witness :
    vel_command .VEL (-300) 500 =
      .cmd4 .VEL (if (-300 : Int) ≥ 0 then .ARGINT else .ARGNINT)
        ((-300 : Int).natAbs % 256) ((-300 : Int).natAbs / 256) ∧
    vel_command .RVEL 45 100 =
      .cmd4 .RVEL (if (45 : Int) ≥ 0 then .ARGINT else .ARGNINT)
        ((45 : Int).natAbs % 256) ((45 : Int).natAbs / 256) :=
  velocity_encoding (-300) 45 500 100 (by decide) (by decide) (by decide) (by decide)

/-! ### What `SendReceive` does to the trace and to the pending commands -/

@[simp] theorem sentPackets_nil : sentPackets [] = [] := rfl

@[simp] theorem sentPackets_send (p : P2OSPacket) (tr : List Event) :
    sentPackets (.send p :: tr) = sentPackets tr ++ [p] := by
  simp [sentPackets]

@[simp] theorem sentPackets_recv (r : RecvResult) (tr : List Event) :
    sentPackets (.recv r :: tr) = sentPackets tr := by
  simp [sentPackets]

@[simp] theorem sentPackets_publish (d : ros_p2os_data_t) (tr : List Event) :
    sentPackets (.publish d :: tr) = sentPackets tr := by
  simp [sentPackets]

/-- Sequencing: the second step runs exactly when the first returned. -/
theorem andThen_cases (r : Res) (f : P2OSNode → Res) :
    (r.1 = .returned ∧ r.andThen f = f r.2) ∨ (r.1 ≠ .returned ∧ r.andThen f = r) := by
  unfold Res.andThen
  cases h : r.1 <;> simp

/-- A member that `pending` keeps is equal in two nodes of equal `pending`. -/
theorem pending_congr {α : Type} (f : P2OSNode → α) (hf : ∀ s, f s.pending = f s)
    {a b : P2OSNode} (h : a.pending = b.pending) : f a = f b := by
  rw [← hf a, ← hf b, h]

/-- One pass of the second loop of `read_arm_state` writes the arm buffers only. -/
theorem read_arm_joint_frame (P : Platform) (sip : SIP) (s s3 : P2OSNode) (i : Nat)
    (h : read_arm_joint P sip s i = some s3) :
    s3.pending = s.pending ∧ s3.trace = s.trace ∧ s3.sippacket = s.sippacket := by
  unfold read_arm_joint at h
  by_cases hc : i < sip.armJointPos.length ∧ i < sip.armJointMoving.length ∧
      i < s.arm_pos.length ∧ i < s.arm_vel.length ∧ i < s.arm_eff.length
  · rw [if_pos hc] at h
    cases h
    exact ⟨rfl, rfl, rfl⟩
  · rw [if_neg hc] at h
    cases h

/-- The step of the second loop of `read_arm_state` writes the arm buffers only. -/
theorem read_arm_step_frame (P : Platform) (sip : SIP) (i : Nat) (r : Res) :
    (r.andThen fun s2 =>
        match read_arm_joint P sip s2 i with
        | some s3 => (.returned, s3)
        | none => (.fault, s2)).2.pending = r.2.pending ∧
    (r.andThen fun s2 =>
        match read_arm_joint P sip s2 i with
        | some s3 => (.returned, s3)
        | none => (.fault, s2)).2.trace = r.2.trace ∧
    (r.andThen fun s2 =>
        match read_arm_joint P sip s2 i with
        | some s3 => (.returned, s3)
        | none => (.fault, s2)).2.sippacket = r.2.sippacket := by
  rcases andThen_cases r (fun s2 =>
        match read_arm_joint P sip s2 i with
        | some s3 => (.returned, s3)
        | none => (.fault, s2)) with ⟨-, e⟩ | ⟨-, e⟩
  · rw [e]
    cases hj : read_arm_joint P sip r.2 i with
    | none => simp [hj]
    | some s3 => simp only [hj]; exact read_arm_joint_frame P sip r.2 s3 i hj
  · rw [e]
    exact ⟨rfl, rfl, rfl⟩

/-- The second loop of `read_arm_state` writes the arm buffers only. -/
theorem read_arm_fold_frame (P : Platform) (sip : SIP) (l : List Nat) :
    ∀ r : Res,
      (l.foldl (fun (r : Res) i => r.andThen fun s2 =>
        match read_arm_joint P sip s2 i with
        | some s3 => (.returned, s3)
        | none => (.fault, s2)) r).2.pending = r.2.pending ∧
      (l.foldl (fun (r : Res) i => r.andThen fun s2 =>
        match read_arm_joint P sip s2 i with
        | some s3 => (.returned, s3)
        | none => (.fault, s2)) r).2.trace = r.2.trace ∧
      (l.foldl (fun (r : Res) i => r.andThen fun s2 =>
        match read_arm_joint P sip s2 i with
        | some s3 => (.returned, s3)
        | none => (.fault, s2)) r).2.sippacket = r.2.sippacket := by
  induction l with
  | nil => intro r; simp
  | cons i l ih =>
    intro r
    simp only [List.foldl_cons]
    obtain ⟨h1, h2, h3⟩ := ih (r.andThen fun s2 =>
        match read_arm_joint P sip s2 i with
        | some s3 => (.returned, s3)
        | none => (.fault, s2))
    obtain ⟨k1, k2, k3⟩ := read_arm_step_frame P sip i r
    exact ⟨h1.trans k1, h2.trans k2, h3.trans k3⟩

/-- `read_arm_state` writes the arm buffers and `armJointPosRads` only. -/
theorem read_arm_state_frame (P : Platform) (s : P2OSNode) :
    (read_arm_state P s).2.pending = s.pending ∧
    (read_arm_state P s).2.trace = s.trace ∧
    (read_arm_state P s).2.psos_fd = s.psos_fd ∧
    (s.sippacket.isSome → (read_arm_state P s).2.sippacket.isSome) := by
  unfold read_arm_state
  split
  · simp
  · rename_i sip hs
    refine ⟨(read_arm_fold_frame P _ _ _).1, (read_arm_fold_frame P _ _ _).2.1, ?_, ?_⟩
    · exact pending_congr P2OSNode.psos_fd (fun _ => rfl) (read_arm_fold_frame P _ _ _).1
    · intro _
      rw [(read_arm_fold_frame P _ _ _).2.2]
      rfl

/-- `arm_initialize` hands to the transport only its two packets. -/
theorem arm_initialize_spec (nested : P2OSNode → Option P2OSPacket → Bool → Res)
    (hn : SendsOnly nested) (s : P2OSNode) :
    ( arm_initialize nested s).2.pending = s.pending ∧
    (connected s = true → connected ( arm_initialize nested s).2 = true) ∧
    ∃ extra, sentPackets ( arm_initialize nested s).2.trace = sentPackets s.trace ++ extra ∧
      ∀ p ∈ extra, isArmInit p := by
  have trivial_case : (((Status.returned, s) : Res).2.pending = s.pending ∧
      (connected s = true → connected ((Status.returned, s) : Res).2 = true) ∧
      ∃ extra, sentPackets ((Status.returned, s) : Res).2.trace = sentPackets s.trace ++ extra ∧
        ∀ p ∈ extra, isArmInit p) := ⟨rfl, id, [], by simp, by simp⟩
  unfold arm_initialize
  split
  · exact ⟨rfl, id, [], by simp, by simp⟩
  · split
    · split
      · obtain ⟨a1, c1, add1, t1, m1⟩ := hn s (some (.cmd4 .ARM_POWER .ARGINT 1 0)) false
        have m1' : ∀ p ∈ add1, isArmInit p := by
          intro p hp
          rcases m1 p hp with h | h
          · left; exact (Option.some.inj h)
          · exact h
        rcases andThen_cases (nested s (some (.cmd4 .ARM_POWER .ARGINT 1 0)) false) _ with
          ⟨-, e⟩ | ⟨-, e⟩
        · rw [e]
          obtain ⟨a2, c2, add2, t2, m2⟩ :=
            hn (nested s (some (.cmd4 .ARM_POWER .ARGINT 1 0)) false).2
              (some (.cmd4 .ARM_STATUS .ARGINT 2 0)) false
          have m2' : ∀ p ∈ add2, isArmInit p := by
            intro p hp
            rcases m2 p hp with h | h
            · right; exact (Option.some.inj h)
            · exact h
          have hall : ∀ p ∈ add1 ++ add2, isArmInit p := by
            intro p hp
            rcases List.mem_append.mp hp with h | h
            · exact m1' p h
            · exact m2' p h
          rcases andThen_cases (nested (nested s (some (.cmd4 .ARM_POWER .ARGINT 1 0)) false).2
              (some (.cmd4 .ARM_STATUS .ARGINT 2 0)) false) _ with ⟨-, e2⟩ | ⟨-, e2⟩
          · rw [e2]
            split
            · exact ⟨a2.trans a1, fun h => c2 (c1 h), add1 ++ add2,
                by rw [t2, t1, List.append_assoc], hall⟩
            · rename_i sip2 hsip2
              refine ⟨a2.trans a1, ?_, add1 ++ add2, ?_, hall⟩
              · intro h
                have := c2 (c1 h)
                simpa [connected] using this
              · show sentPackets _ = _
                rw [← List.append_assoc, ← t1, ← t2]
          · rw [e2]
            exact ⟨a2.trans a1, fun h => c2 (c1 h), add1 ++ add2,
              by rw [t2, t1, List.append_assoc], hall⟩
        · rw [e]
          exact ⟨a1, c1, add1, t1, m1'⟩
      · exact trivial_case
    · exact trivial_case

/-- The body of `SendReceive`: when the node is connected the packet is handed
to the transport first, whatever the receive then does; the pending command
state is not written. -/
theorem SendReceive_body_spec (P : Platform) (env : Env)
    (nested : P2OSNode → Option P2OSPacket → Bool → Res) (hn : SendsOnly nested)
    (s : P2OSNode) (pkt : Option P2OSPacket) (publish_data : Bool) :
    (SendReceive_body P env nested s pkt publish_data).2.pending = s.pending ∧
    (connected s = true →
      connected (SendReceive_body P env nested s pkt publish_data).2 = true) ∧
    ∃ extra, sentPackets (SendReceive_body P env nested s pkt publish_data).2.trace =
        sentPackets s.trace ++ (if connected s = true then pkt.toList else []) ++ extra ∧
      ∀ p ∈ extra, isArmInit p := by
  unfold SendReceive_body
  split
  · rename_i hs
    exact ⟨rfl, id, [], by simp [connected, hs], by simp⟩
  · rename_i sip hs
    by_cases hfd : s.psos_fd ≥ 0
    · have hc : connected s = true := by simp [connected, hs, hfd]
      simp only [hfd, if_true, hc]
      -- the node after the send and the receive
      generalize hs1 : (match pkt with
        | some p => { s with trace := Event.send p :: s.trace }
        | none => s) = s1
      have p1 : s1.pending = s.pending := by subst hs1; cases pkt <;> rfl
      have f1 : s1.psos_fd = s.psos_fd := pending_congr P2OSNode.psos_fd (fun _ => rfl) p1
      have t1 : sentPackets s1.trace = sentPackets s.trace ++ pkt.toList := by
        subst hs1; cases pkt <;> simp
      generalize hr : env.Receive s1.trace = r
      have base : ∀ s' : P2OSNode, s'.pending = s1.pending → s'.sippacket.isSome = true →
          sentPackets s'.trace = sentPackets s1.trace →
          s'.pending = s.pending ∧ (True → connected s' = true) ∧
          ∃ extra, sentPackets s'.trace = sentPackets s.trace ++ pkt.toList ++ extra ∧
            ∀ p ∈ extra, isArmInit p := by
        intro s' hp hsome htr
        refine ⟨hp.trans p1, fun _ => ?_, [], by rw [htr, t1]; simp, by simp⟩
        have : s'.psos_fd = s.psos_fd := (pending_congr P2OSNode.psos_fd (fun _ => rfl) hp).trans f1
        simp [connected, this, hfd, hsome]
      have hsome1 : s1.sippacket = some sip := by subst hs1; cases pkt <;> exact hs
      split
      · have := base { s1 with trace := Event.recv r :: s1.trace } rfl
          (by simp [hsome1]) (by simp)
        simpa using this
      · split
        · split
          · have := base (StandardSIPPutData { s1 with
                trace := Event.recv r :: s1.trace
                sippacket := some (P.ParseStandard sip (r.packet.drop 3))
                p2os_data := P.FillStandard (P.ParseStandard sip (r.packet.drop 3)) s1.p2os_data })
              rfl rfl (by simp [StandardSIPPutData])
            simpa using this
          · have := base { s1 with
                trace := Event.recv r :: s1.trace
                sippacket := some (P.ParseStandard sip (r.packet.drop 3))
                p2os_data := P.FillStandard (P.ParseStandard sip (r.packet.drop 3)) s1.p2os_data }
              rfl rfl (by simp)
            simpa using this
        · split
          · split
            · split
              · have := base { s1 with trace := Event.recv r :: s1.trace } rfl
                  (by simp [hsome1]) (by simp)
                simpa using this
              · have := base { s1 with
                    trace := Event.recv r :: s1.trace
                    ptz_ := { s1.ptz_ with cb_ := ((List.range ((byteAt r.packet 2 : Int) - 3).toNat).map
                      fun k => byteAt r.packet (4 + k)).foldl P.putOnBuf s1.ptz_.cb_ } }
                  rfl (by simp [hsome1]) (by simp)
                simpa using this
            · have := base { s1 with trace := Event.recv r :: s1.trace } rfl
                (by simp [hsome1]) (by simp)
              simpa using this
          · split
            · split
              · obtain ⟨q1, q2, q3, q4⟩ := read_arm_state_frame P { s1 with
                    trace := Event.recv r :: s1.trace
                    sippacket := some (P.ParseArm sip (r.packet.drop 2)) }
                have := base _ q1 (q4 rfl) (by rw [q2]; simp)
                simpa using this
              · have := base { s1 with
                    trace := Event.recv r :: s1.trace
                    sippacket := some (P.ParseArm sip (r.packet.drop 2)) }
                  rfl rfl (by simp)
                simpa using this
            · split
              · obtain ⟨a, c, extra, t, m⟩ := arm_initialize_spec nested hn { s1 with
                    trace := Event.recv r :: s1.trace
                    sippacket := some (P.ParseArmInfo sip (r.packet.drop 2)) }
                refine ⟨a.trans p1, fun _ => c ?_, extra, ?_, m⟩
                · simp [connected, f1, hfd]
                · rw [t]; simp [t1]
              · have := base { s1 with trace := Event.recv r :: s1.trace } rfl
                  (by simp [hsome1]) (by simp)
                simpa using this
    · have hc : connected s = false := by simp [connected, hfd]
      simp [hfd, hc]

/-- The body of `SendReceive` is `SendReceive`-like when the nested call is. -/
theorem SendReceive_body_sendsOnly (P : Platform) (env : Env)
    (nested : P2OSNode → Option P2OSPacket → Bool → Res) (hn : SendsOnly nested) :
    SendsOnly (SendReceive_body P env nested) := by
  intro s pkt publish_data
  obtain ⟨a, c, extra, t, m⟩ := SendReceive_body_spec P env nested hn s pkt publish_data
  refine ⟨a, c, (if connected s = true then pkt.toList else []) ++ extra, ?_, ?_⟩
  · rw [t, List.append_assoc]
  · intro p hp
    rcases List.mem_append.mp hp with h | h
    · left
      split at h
      · cases pkt with
        | none => simp at h
        | some q => simp at h; rw [h]
      · simp at h
    · right; exact m p h

/-- `SendReceive` leaves the pending command state alone and sends only its
packet and the packets of `arm_initialize`, for every fuel. -/
theorem SendReceive_sendsOnly (P : Platform) (env : Env) :
    ∀ fuel, SendsOnly (SendReceive P env fuel)
  | 0 => SendReceive_body_sendsOnly P env _
      (fun s _ _ => ⟨rfl, id, [], by simp, by simp⟩)
  | fuel + 1 => SendReceive_body_sendsOnly P env _ (SendReceive_sendsOnly P env fuel)

/-- `SendReceive`, for every fuel: a connected node hands the packet to the
transport, followed at most by packets of `arm_initialize`; a node that is not
connected sends nothing; the pending command state is not written. -/
theorem SendReceive_spec (P : Platform) (env : Env) (fuel : Nat)
    (s : P2OSNode) (pkt : Option P2OSPacket) (publish_data : Bool) :
    (SendReceive P env fuel s pkt publish_data).2.pending = s.pending ∧
    (connected s = true →
      connected (SendReceive P env fuel s pkt publish_data).2 = true) ∧
    ∃ extra, sentPackets (SendReceive P env fuel s pkt publish_data).2.trace =
        sentPackets s.trace ++ (if connected s = true then pkt.toList else []) ++ extra ∧
      ∀ p ∈ extra, isArmInit p := by
  cases fuel with
  | zero =>
    exact SendReceive_body_spec P env _ (fun s _ _ => ⟨rfl, id, [], by simp, by simp⟩) s pkt
      publish_data
  | succ fuel =>
    exact SendReceive_body_spec P env _ (SendReceive_sendsOnly P env fuel) s pkt publish_data

/-- The packets emitted between two traces, when the later one extends the
earlier one. -/
theorem emitted_of_append (before after : List Event) (X : List P2OSPacket)
    (h : sentPackets after = sentPackets before ++ X) : emitted before after = X := by
  simp [emitted, h]

/-- C9 (counterexample). On a node that is not connected (`psos_fd = -1`) each
of the three `check_and_set_*` calls clears its dirty flag although nothing is
handed to the transport. -/
theorem dirty_flag_cleared_without_send :
    offlineNode.vel_dirty = true ∧ offlineNode.motor_dirty = true ∧
    offlineNode.gripper_dirty_ = true ∧
    (check_and_set_vel samplePlatform statusEnv 0 offlineNode).2.vel_dirty = false ∧
    (check_and_set_vel samplePlatform statusEnv 0 offlineNode).2.trace = offlineNode.trace ∧
    (check_and_set_motor_state samplePlatform statusEnv 0 offlineNode).2.motor_dirty = false ∧
    (check_and_set_motor_state samplePlatform statusEnv 0 offlineNode).2.trace =
      offlineNode.trace ∧
    (check_and_set_gripper_state samplePlatform statusEnv 0 offlineNode).2.gripper_dirty_ =
      false ∧
    (check_and_set_gripper_state samplePlatform statusEnv 0 offlineNode).2.trace =
      offlineNode.trace := by
  refine ⟨rfl, rfl, rfl, rfl, rfl, rfl, rfl, rfl, rfl⟩

/-- Two `SendReceive` calls in a row on a connected node: the first packet is
handed to the transport in any case, the second when the first call returns. -/
theorem two_sends (P : Platform) (env : Env) (fuel : Nat) (s : P2OSNode)
    (p1 : P2OSPacket) (pub1 : Bool) (f2 : P2OSNode → P2OSPacket) (pub2 : Bool)
    (hc : connected s = true) :
    ((SendReceive P env fuel s (some p1) pub1).andThen fun s1 =>
        SendReceive P env fuel s1 (some (f2 s1)) pub2).2.pending = s.pending ∧
    connected ((SendReceive P env fuel s (some p1) pub1).andThen fun s1 =>
        SendReceive P env fuel s1 (some (f2 s1)) pub2).2 = true ∧
    ∃ rest, sentPackets ((SendReceive P env fuel s (some p1) pub1).andThen fun s1 =>
        SendReceive P env fuel s1 (some (f2 s1)) pub2).2.trace =
          sentPackets s.trace ++ p1 :: rest ∧
      (((SendReceive P env fuel s (some p1) pub1).andThen fun s1 =>
        SendReceive P env fuel s1 (some (f2 s1)) pub2).1 = .returned →
        ∃ s1, s1.pending = s.pending ∧ f2 s1 ∈ rest) := by
  obtain ⟨a1, c1, x1, t1, -⟩ := SendReceive_spec P env fuel s (some p1) pub1
  simp only [hc, if_true, Option.toList_some] at t1
  rcases andThen_cases (SendReceive P env fuel s (some p1) pub1)
      (fun s1 => SendReceive P env fuel s1 (some (f2 s1)) pub2) with ⟨-, e⟩ | ⟨hne, e⟩
  · rw [e]
    obtain ⟨a2, c2, x2, t2, -⟩ := SendReceive_spec P env fuel
      (SendReceive P env fuel s (some p1) pub1).2
      (some (f2 (SendReceive P env fuel s (some p1) pub1).2)) pub2
    simp only [c1 hc, if_true, Option.toList_some] at t2
    refine ⟨a2.trans a1, c2 (c1 hc),
      x1 ++ f2 (SendReceive P env fuel s (some p1) pub1).2 :: x2, ?_, ?_⟩
    · rw [t2, t1]; simp
    · intro _
      exact ⟨_, a1, by simp⟩
  · rw [e]
    exact ⟨a1, c1 hc, x1, by rw [t1]; simp, fun h => absurd h hne⟩

/-- C9 (amended). On a connected node (`psos_fd >= 0` and a SIP object), a
`check_and_set_*` call that finds its dirty flag set clears it and hands the
first command frame of the channel to the transport during that call (`VEL`,
`ENABLE`, the grip `GRIPPER`), before anything else; when the call returns, the
second frame of the channel (`RVEL`, the lift `GRIPPER`) was handed over too. -/
theorem dirty_flag_cleared_with_send (P : Platform) (env : Env) (fuel : Nat) (s : P2OSNode)
    (hc : connected s = true) :
    (s.vel_dirty = true →
      (check_and_set_vel P env fuel s).2.vel_dirty = false ∧
      (emitted s.trace (check_and_set_vel P env fuel s).2.trace).head? =
        some (vel_command .VEL (vel_vx s) s.motor_max_speed) ∧
      ((check_and_set_vel P env fuel s).1 = .returned →
        vel_command .RVEL (vel_va P s) s.motor_max_turnspeed ∈
          emitted s.trace (check_and_set_vel P env fuel s).2.trace)) ∧
    (s.motor_dirty = true →
      (check_and_set_motor_state P env fuel s).2.motor_dirty = false ∧
      (emitted s.trace (check_and_set_motor_state P env fuel s).2.trace).head? =
        some (.cmd4 .ENABLE .ARGINT (u8 s.cmdmotor_state_) 0)) ∧
    (s.gripper_dirty_ = true →
      (check_and_set_gripper_state P env fuel s).2.gripper_dirty_ = false ∧
      (emitted s.trace (check_and_set_gripper_state P env fuel s).2.trace).head? =
        some (.cmd4 .GRIPPER .ARGINT (u8 s.gripper_state_.grip_state) 0) ∧
      ((check_and_set_gripper_state P env fuel s).1 = .returned →
        .cmd4 .GRIPPER .ARGINT (u8 s.gripper_state_.lift_state) 0 ∈
          emitted s.trace (check_and_set_gripper_state P env fuel s).2.trace)) := by
  have hfd : s.psos_fd ≥ 0 ∧ s.sippacket.isSome = true := by
    simpa [connected] using hc
  refine ⟨?_, ?_, ?_⟩
  · intro hd
    have hc' : connected { s with vel_dirty := false } = true := by
      simpa [connected] using hfd
    obtain ⟨a, -, rest, t, hret⟩ := two_sends P env fuel { s with vel_dirty := false }
      (vel_command .VEL (vel_vx { s with vel_dirty := false }) s.motor_max_speed) true
      (fun s1 => vel_command .RVEL (vel_va P { s with vel_dirty := false })
        s1.motor_max_turnspeed) true hc'
    have hdef : check_and_set_vel P env fuel s =
        (SendReceive P env fuel { s with vel_dirty := false }
          (some (vel_command .VEL (vel_vx { s with vel_dirty := false }) s.motor_max_speed))
          true).andThen fun s1 =>
        SendReceive P env fuel s1 (some (vel_command .RVEL
          (vel_va P { s with vel_dirty := false }) s1.motor_max_turnspeed)) true := by
      simp [check_and_set_vel, hd]
    rw [hdef]
    have hem := emitted_of_append s.trace _ _ t
    refine ⟨pending_congr P2OSNode.vel_dirty (fun _ => rfl) a, ?_, ?_⟩
    · rw [hem]; rfl
    · intro h
      obtain ⟨s1, hs1, hmem⟩ := hret h
      rw [hem]
      have hm := pending_congr P2OSNode.motor_max_turnspeed (fun _ => rfl) hs1
      have : s1.motor_max_turnspeed = s.motor_max_turnspeed := hm
      simp only [this] at hmem
      exact List.mem_cons_of_mem _ hmem
  · intro hd
    have hc' : connected { s with motor_dirty := false, p2os_data :=
        { s.p2os_data with motors_state := s.cmdmotor_state_ } } = true := by
      simpa [connected] using hfd
    obtain ⟨a, -, x, t, -⟩ := SendReceive_spec P env fuel
      { s with motor_dirty := false, p2os_data :=
        { s.p2os_data with motors_state := s.cmdmotor_state_ } }
      (some (.cmd4 .ENABLE .ARGINT (u8 s.cmdmotor_state_) 0)) false
    simp only [hc', if_true, Option.toList_some] at t
    have hdef : check_and_set_motor_state P env fuel s =
        SendReceive P env fuel { s with motor_dirty := false, p2os_data :=
          { s.p2os_data with motors_state := s.cmdmotor_state_ } }
        (some (.cmd4 .ENABLE .ARGINT (u8 s.cmdmotor_state_) 0)) false := by
      simp [check_and_set_motor_state, hd]
    rw [hdef]
    refine ⟨pending_congr P2OSNode.motor_dirty (fun _ => rfl) a, ?_⟩
    rw [emitted_of_append s.trace _ _ (by rw [t, List.append_assoc])]
    rfl
  · intro hd
    have hc' : connected { s with gripper_dirty_ := false } = true := by
      simpa [connected] using hfd
    obtain ⟨a, -, rest, t, hret⟩ := two_sends P env fuel { s with gripper_dirty_ := false }
      (.cmd4 .GRIPPER .ARGINT (u8 s.gripper_state_.grip_state) 0) false
      (fun s1 => .cmd4 .GRIPPER .ARGINT (u8 s1.gripper_state_.lift_state) 0) false hc'
    have hdef : check_and_set_gripper_state P env fuel s =
        (SendReceive P env fuel { s with gripper_dirty_ := false }
          (some (.cmd4 .GRIPPER .ARGINT (u8 s.gripper_state_.grip_state) 0)) false).andThen
        fun s1 => SendReceive P env fuel s1
          (some (.cmd4 .GRIPPER .ARGINT (u8 s1.gripper_state_.lift_state) 0)) false := by
      simp [check_and_set_gripper_state, hd]
    rw [hdef]
    have hem := emitted_of_append s.trace _ _ t
    refine ⟨pending_congr P2OSNode.gripper_dirty_ (fun _ => rfl) a, ?_, ?_⟩
    · rw [hem]; rfl
    · intro h
      obtain ⟨s1, hs1, hmem⟩ := hret h
      rw [hem]
      have hm := pending_congr P2OSNode.gripper_state_ (fun _ => rfl) hs1
      have : s1.gripper_state_ = s.gripper_state_ := hm
      simp only [this] at hmem
      exact List.mem_cons_of_mem _ hmem

/-! ### The override blocks of `Setup` -/

theorem andThen_assoc (r : Res) (f g : P2OSNode → Res) :
    (r.andThen f).andThen g = r.andThen fun s => (f s).andThen g := by
  rcases andThen_cases r f with ⟨h, e⟩ | ⟨h, e⟩
  · rw [e]
    rcases andThen_cases r (fun s => (f s).andThen g) with ⟨_, e2⟩ | ⟨h2, _⟩
    · rw [e2]
    · exact absurd h h2
  · rw [e]
    rcases andThen_cases r (fun s => (f s).andThen g) with ⟨h2, _⟩ | ⟨_, e2⟩
    · exact absurd h2 h
    · rw [e2]
      rcases andThen_cases r g with ⟨h3, _⟩ | ⟨_, e3⟩
      · exact absurd h3 h
      · exact e3

theorem andThen_pure (r : Res) : (r.andThen fun s => (Status.returned, s)) = r := by
  rcases andThen_cases r (fun s => (Status.returned, s)) with ⟨h, e⟩ | ⟨_, e⟩
  · rw [e]
    exact Prod.ext h.symm rfl
  · exact e

theorem ofKind_append (op : Cmd) (t : ArgType) (a b : List P2OSPacket) :
    ofKind op t (a ++ b) = ofKind op t a ++ ofKind op t b := by
  simp [ofKind]

/-- The packets of `arm_initialize` are of no other kind. -/
theorem ofKind_armInit (op : Cmd) (t : ArgType) (extra : List P2OSPacket)
    (h : ∀ p ∈ extra, isArmInit p) (h1 : op ≠ .ARM_POWER) (h2 : op ≠ .ARM_STATUS) :
    ofKind op t extra = [] := by
  simp only [ofKind, List.filter_eq_nil_iff]
  intro p hp
  rcases h p hp with e | e <;> subst e <;> simp [P2OSPacket.cmd4, Ne.symm h1, Ne.symm h2]

/-- A block on a connected node: its packet is handed to the transport when
the condition holds, followed at most by packets of `arm_initialize`. -/
theorem sendWhen_spec (P : Platform) (env : Env) (fuel : Nat) (c : Bool) (pkt : P2OSPacket)
    (pub : Bool) (s : P2OSNode) (hc : connected s = true) :
    (sendWhen P env fuel c pkt pub s).2.pending = s.pending ∧
    connected (sendWhen P env fuel c pkt pub s).2 = true ∧
    ∃ extra, sentPackets (sendWhen P env fuel c pkt pub s).2.trace =
        sentPackets s.trace ++ frameWhen c pkt ++ extra ∧ ∀ p ∈ extra, isArmInit p := by
  unfold sendWhen frameWhen
  cases c with
  | false => exact ⟨rfl, hc, [], by simp, by simp⟩
  | true =>
    obtain ⟨a, k, extra, t, m⟩ := SendReceive_spec P env fuel s (some pkt) pub
    simp only [hc, if_true, Option.toList_some] at t
    exact ⟨a, k hc, extra, by simpa using t, m⟩

theorem stepFrames_congr (steps : List Step) (hst : ∀ st ∈ steps, st.Stable)
    (a b : P2OSNode) (h : a.pending = b.pending) : stepFrames steps a = stepFrames steps b := by
  induction steps with
  | nil => rfl
  | cons st rest ih =>
    have h1 := hst st (by simp) a b h
    simp only [stepFrames, h1.1, h1.2, ih (fun st hs => hst st (by simp [hs]))]

/-- A list of blocks on a connected node emits the packets of the blocks whose
condition holds, in order. -/
theorem runSteps_emits (P : Platform) (env : Env) (fuel : Nat) (steps : List Step)
    (hst : ∀ st ∈ steps, st.Stable) :
    ∀ s, connected s = true → Emits s (runSteps P env fuel steps s) (stepFrames steps s) := by
  induction steps with
  | nil =>
    intro s hc
    exact ⟨rfl, hc, [], by simp [runSteps], by simp [stepFrames], by simp [stepFrames]⟩
  | cons st rest ih =>
    intro s hc
    obtain ⟨a1, c1, extra, t1, m1⟩ :=
      sendWhen_spec P env fuel (st.cond s) (st.packet s) st.publish_data s hc
    have hrest : ∀ st ∈ rest, st.Stable := fun st hs => hst st (by simp [hs])
    simp only [runSteps, stepFrames]
    rcases andThen_cases (sendWhen P env fuel (st.cond s) (st.packet s) st.publish_data s)
        (runSteps P env fuel rest) with ⟨_, e⟩ | ⟨hne, e⟩
    · rw [e]
      obtain ⟨a2, c2, X, t2, pre, eq⟩ := ih hrest _ c1
      rw [stepFrames_congr rest hrest _ _ a1] at pre eq
      refine ⟨a2.trans a1, c2, frameWhen (st.cond s) (st.packet s) ++ extra ++ X, ?_, ?_, ?_⟩
      · rw [t2, t1]; simp
      · intro op t h1 h2
        simp only [ofKind_append, ofKind_armInit op t extra m1 h1 h2, List.append_nil]
        exact (List.prefix_append_right_inj _).mpr (pre op t h1 h2)
      · intro hr op t h1 h2
        simp only [ofKind_append, ofKind_armInit op t extra m1 h1 h2, List.append_nil,
          eq hr op t h1 h2]
    · rw [e]
      refine ⟨a1, c1, frameWhen (st.cond s) (st.packet s) ++ extra, ?_, ?_, ?_⟩
      · rw [t1, List.append_assoc]
      · intro op t h1 h2
        simp only [ofKind_append, ofKind_armInit op t extra m1 h1 h2, List.append_nil]
        exact List.prefix_append _ _
      · intro hr; exact absurd hr hne

theorem overrideSteps_stable : ∀ st ∈ overrideSteps, st.Stable := by
  intro st hs a b h
  have e1 := pending_congr P2OSNode.motor_max_trans_accel (fun _ => rfl) h
  have e2 := pending_congr P2OSNode.motor_max_trans_decel (fun _ => rfl) h
  have e3 := pending_congr P2OSNode.motor_max_rot_accel (fun _ => rfl) h
  have e4 := pending_congr P2OSNode.motor_max_rot_decel (fun _ => rfl) h
  have e5 := pending_congr P2OSNode.rot_kp (fun _ => rfl) h
  have e6 := pending_congr P2OSNode.rot_kv (fun _ => rfl) h
  have e7 := pending_congr P2OSNode.rot_ki (fun _ => rfl) h
  have e8 := pending_congr P2OSNode.trans_kp (fun _ => rfl) h
  have e9 := pending_congr P2OSNode.trans_kv (fun _ => rfl) h
  have e10 := pending_congr P2OSNode.trans_ki (fun _ => rfl) h
  simp only [overrideSteps, List.mem_cons, List.mem_singleton, List.not_mem_nil, or_false] at hs
  rcases hs with rfl | rfl | rfl | rfl | rfl | rfl | rfl | rfl | rfl | rfl <;>
    simp only [e1, e2, e3, e4, e5, e6, e7, e8, e9, e10, and_self]

/-- `Setup_overrides` is its ten blocks run one after the other. -/
theorem Setup_overrides_eq_runSteps (P : Platform) (env : Env) (fuel : Nat) (s : P2OSNode) :
    Setup_overrides P env fuel s = runSteps P env fuel overrideSteps s := by
  simp only [Setup_overrides, Setup_accel, Setup_pid, runSteps, overrideSteps, andThen_assoc,
    andThen_pure]

/-- Only the `OP`, `t` packet of a block is of the kind `OP`, `t`. -/
theorem ofKind_frameWhen (op op2 : Cmd) (t t2 : ArgType) (c : Bool) (a b : Nat) :
    ofKind op t (frameWhen c (.cmd4 op2 t2 a b)) =
      if c = true ∧ op2 = op ∧ t2 = t then [.cmd4 op2 t2 a b] else [] := by
  cases c
  · simp [ofKind, frameWhen]
  · by_cases h1 : op2 = op <;> by_cases h2 : t2 = t <;>
      simp [ofKind, frameWhen, P2OSPacket.cmd4, h1, h2]

/-- The two argument bytes of a value that fits 16 bits. -/
theorem bytes_of_nonneg (v : Int) (h0 : 0 ≤ v) (h1 : v ≤ 65535) :
    lowByte v = v.toNat % 256 ∧ highByte v = v.toNat / 256 := by
  obtain ⟨n, rfl⟩ := Int.eq_ofNat_of_zero_le h0
  have hn : n ≤ 65535 := by omega
  rw [lowByte_natCast, highByte_natCast, Int.toNat_ofNat]
  exact ⟨rfl, Nat.mod_eq_of_lt (by omega)⟩

/-- The two argument bytes of the magnitude of a negative `short`. -/
theorem bytes_of_abs (v : Int) (h0 : v < 0) (h1 : -32768 ≤ v) :
    lowByte |v| = v.natAbs % 256 ∧ highByte |v| = v.natAbs / 256 := by
  have e : |v| = ((v.natAbs : Nat) : Int) := (Int.natCast_natAbs v).symm
  have hn : v.natAbs ≤ 32768 := by omega
  rw [e, lowByte_natCast, highByte_natCast]
  exact ⟨rfl, Nat.mod_eq_of_lt (by omega)⟩

/-- C6 (amended). On a connected node the override blocks of `Setup` emit:
for the two acceleration overrides no frame when the value is negative (or
zero) and exactly one `ARGINT` frame carrying the value when it is positive;
for each of the six PID overrides no frame when the value is negative and
exactly one `ARGINT` frame carrying the value when it is in `0 .. 65535`; for
the two deceleration overrides, whose sign convention is the reverse, exactly
one `ARGNINT` frame carrying the magnitude when the value is negative and no
frame when it is positive (or zero).  "Exactly one" is for a run in which every
`SendReceive` returns. -/
theorem override_frames (P : Platform) (env : Env) (fuel : Nat) (s : P2OSNode)
    (hc : connected s = true) :
    (s.motor_max_trans_accel ≤ 0 → NoFrame .SETA .ARGINT (overrides_emitted P env fuel s)) ∧
    ((Setup_overrides P env fuel s).1 = .returned → 0 < s.motor_max_trans_accel →
      s.motor_max_trans_accel ≤ 32767 →
      OneFrame .SETA .ARGINT s.motor_max_trans_accel.toNat (overrides_emitted P env fuel s)) ∧
    (s.motor_max_rot_accel ≤ 0 → NoFrame .SETRA .ARGINT (overrides_emitted P env fuel s)) ∧
    ((Setup_overrides P env fuel s).1 = .returned → 0 < s.motor_max_rot_accel →
      s.motor_max_rot_accel ≤ 32767 →
      OneFrame .SETRA .ARGINT s.motor_max_rot_accel.toNat (overrides_emitted P env fuel s)) ∧
    (0 ≤ s.motor_max_trans_decel → NoFrame .SETA .ARGNINT (overrides_emitted P env fuel s)) ∧
    ((Setup_overrides P env fuel s).1 = .returned → s.motor_max_trans_decel < 0 →
      -32768 ≤ s.motor_max_trans_decel →
      OneFrame .SETA .ARGNINT s.motor_max_trans_decel.natAbs (overrides_emitted P env fuel s)) ∧
    (0 ≤ s.motor_max_rot_decel → NoFrame .SETRA .ARGNINT (overrides_emitted P env fuel s)) ∧
    ((Setup_overrides P env fuel s).1 = .returned → s.motor_max_rot_decel < 0 →
      -32768 ≤ s.motor_max_rot_decel →
      OneFrame .SETRA .ARGNINT s.motor_max_rot_decel.natAbs (overrides_emitted P env fuel s)) ∧
    (s.rot_kp < 0 → NoFrame .ROTKP .ARGINT (overrides_emitted P env fuel s)) ∧
    ((Setup_overrides P env fuel s).1 = .returned → 0 ≤ s.rot_kp → s.rot_kp ≤ 65535 →
      OneFrame .ROTKP .ARGINT s.rot_kp.toNat (overrides_emitted P env fuel s)) ∧
    (s.rot_kv < 0 → NoFrame .ROTKV .ARGINT (overrides_emitted P env fuel s)) ∧
    ((Setup_overrides P env fuel s).1 = .returned → 0 ≤ s.rot_kv → s.rot_kv ≤ 65535 →
      OneFrame .ROTKV .ARGINT s.rot_kv.toNat (overrides_emitted P env fuel s)) ∧
    (s.rot_ki < 0 → NoFrame .ROTKI .ARGINT (overrides_emitted P env fuel s)) ∧
    ((Setup_overrides P env fuel s).1 = .returned → 0 ≤ s.rot_ki → s.rot_ki ≤ 65535 →
      OneFrame .ROTKI .ARGINT s.rot_ki.toNat (overrides_emitted P env fuel s)) ∧
    (s.trans_kp < 0 → NoFrame .TRANSKP .ARGINT (overrides_emitted P env fuel s)) ∧
    ((Setup_overrides P env fuel s).1 = .returned → 0 ≤ s.trans_kp → s.trans_kp ≤ 65535 →
      OneFrame .TRANSKP .ARGINT s.trans_kp.toNat (overrides_emitted P env fuel s)) ∧
    (s.trans_kv < 0 → NoFrame .TRANSKV .ARGINT (overrides_emitted P env fuel s)) ∧
    ((Setup_overrides P env fuel s).1 = .returned → 0 ≤ s.trans_kv → s.trans_kv ≤ 65535 →
      OneFrame .TRANSKV .ARGINT s.trans_kv.toNat (overrides_emitted P env fuel s)) ∧
    (s.trans_ki < 0 → NoFrame .TRANSKI .ARGINT (overrides_emitted P env fuel s)) ∧
    ((Setup_overrides P env fuel s).1 = .returned → 0 ≤ s.trans_ki → s.trans_ki ≤ 65535 →
      OneFrame .TRANSKI .ARGINT s.trans_ki.toNat (overrides_emitted P env fuel s)) := by
  obtain ⟨-, -, X, tX, pre, eq⟩ :=
    runSteps_emits P env fuel overrideSteps overrideSteps_stable s hc
  rw [← Setup_overrides_eq_runSteps] at tX eq
  have hE : overrides_emitted P env fuel s = X := emitted_of_append _ _ _ tX
  have none_of : ∀ op t, op ≠ Cmd.ARM_POWER → op ≠ Cmd.ARM_STATUS →
      ofKind op t (stepFrames overrideSteps s) = [] → NoFrame op t (overrides_emitted P env fuel s) := by
    intro op t h1 h2 h
    have := pre op t h1 h2
    rw [h] at this
    rw [NoFrame, hE]
    exact List.prefix_nil.mp this
  have one_of : ∀ op t v, op ≠ Cmd.ARM_POWER → op ≠ Cmd.ARM_STATUS →
      (Setup_overrides P env fuel s).1 = .returned →
      ofKind op t (stepFrames overrideSteps s) = [.cmd4 op t (v % 256) (v / 256)] →
      OneFrame op t v (overrides_emitted P env fuel s) := by
    intro op t v h1 h2 hr h
    rw [OneFrame, hE, eq hr op t h1 h2, h]
  refine ⟨?_, ?_, ?_, ?_, ?_, ?_, ?_, ?_, ?_, ?_, ?_, ?_, ?_, ?_, ?_, ?_, ?_, ?_, ?_, ?_⟩
  · intro h
    refine none_of _ _ (by decide) (by decide) ?_
    have : ¬ (s.motor_max_trans_accel > 0) := by omega
    simp [stepFrames, overrideSteps, ofKind_append, ofKind_frameWhen, this]
  · intro hr h h1
    refine one_of _ _ _ (by decide) (by decide) hr ?_
    obtain ⟨b1, b2⟩ := bytes_of_nonneg _ (le_of_lt h) (by omega)
    simp [stepFrames, overrideSteps, ofKind_append, ofKind_frameWhen, h, b1, b2]
  · intro h
    refine none_of _ _ (by decide) (by decide) ?_
    have : ¬ (s.motor_max_rot_accel > 0) := by omega
    simp [stepFrames, overrideSteps, ofKind_append, ofKind_frameWhen, this]
  · intro hr h h1
    refine one_of _ _ _ (by decide) (by decide) hr ?_
    obtain ⟨b1, b2⟩ := bytes_of_nonneg _ (le_of_lt h) (by omega)
    simp [stepFrames, overrideSteps, ofKind_append, ofKind_frameWhen, h, b1, b2]
  · intro h
    refine none_of _ _ (by decide) (by decide) ?_
    have : ¬ (s.motor_max_trans_decel < 0) := by omega
    simp [stepFrames, overrideSteps, ofKind_append, ofKind_frameWhen, this]
  · intro hr h h1
    refine one_of _ _ _ (by decide) (by decide) hr ?_
    obtain ⟨b1, b2⟩ := bytes_of_abs _ h h1
    simp [stepFrames, overrideSteps, ofKind_append, ofKind_frameWhen, h, b1, b2]
  · intro h
    refine none_of _ _ (by decide) (by decide) ?_
    have : ¬ (s.motor_max_rot_decel < 0) := by omega
    simp [stepFrames, overrideSteps, ofKind_append, ofKind_frameWhen, this]
  · intro hr h h1
    refine one_of _ _ _ (by decide) (by decide) hr ?_
    obtain ⟨b1, b2⟩ := bytes_of_abs _ h h1
    simp [stepFrames, overrideSteps, ofKind_append, ofKind_frameWhen, h, b1, b2]
  · intro h
    refine none_of _ _ (by decide) (by decide) ?_
    have : ¬ (s.rot_kp ≥ 0) := by omega
    simp [stepFrames, overrideSteps, ofKind_append, ofKind_frameWhen, this]
  · intro hr h h1
    refine one_of _ _ _ (by decide) (by decide) hr ?_
    obtain ⟨b1, b2⟩ := bytes_of_nonneg _ h h1
    simp [stepFrames, overrideSteps, ofKind_append, ofKind_frameWhen, h, b1, b2]
  · intro h
    refine none_of _ _ (by decide) (by decide) ?_
    have : ¬ (s.rot_kv ≥ 0) := by omega
    simp [stepFrames, overrideSteps, ofKind_append, ofKind_frameWhen, this]
  · intro hr h h1
    refine one_of _ _ _ (by decide) (by decide) hr ?_
    obtain ⟨b1, b2⟩ := bytes_of_nonneg _ h h1
    simp [stepFrames, overrideSteps, ofKind_append, ofKind_frameWhen, h, b1, b2]
  · intro h
    refine none_of _ _ (by decide) (by decide) ?_
    have : ¬ (s.rot_ki ≥ 0) := by omega
    simp [stepFrames, overrideSteps, ofKind_append, ofKind_frameWhen, this]
  · intro hr h h1
    refine one_of _ _ _ (by decide) (by decide) hr ?_
    obtain ⟨b1, b2⟩ := bytes_of_nonneg _ h h1
    simp [stepFrames, overrideSteps, ofKind_append, ofKind_frameWhen, h, b1, b2]
  · intro h
    refine none_of _ _ (by decide) (by decide) ?_
    have : ¬ (s.trans_kp ≥ 0) := by omega
    simp [stepFrames, overrideSteps, ofKind_append, ofKind_frameWhen, this]
  · intro hr h h1
    refine one_of _ _ _ (by decide) (by decide) hr ?_
    obtain ⟨b1, b2⟩ := bytes_of_nonneg _ h h1
    simp [stepFrames, overrideSteps, ofKind_append, ofKind_frameWhen, h, b1, b2]
  · intro h
    refine none_of _ _ (by decide) (by decide) ?_
    have : ¬ (s.trans_kv ≥ 0) := by omega
    simp [stepFrames, overrideSteps, ofKind_append, ofKind_frameWhen, this]
  · intro hr h h1
    refine one_of _ _ _ (by decide) (by decide) hr ?_
    obtain ⟨b1, b2⟩ := bytes_of_nonneg _ h h1
    simp [stepFrames, overrideSteps, ofKind_append, ofKind_frameWhen, h, b1, b2]
  · intro h
    refine none_of _ _ (by decide) (by decide) ?_
    have : ¬ (s.trans_ki ≥ 0) := by omega
    simp [stepFrames, overrideSteps, ofKind_append, ofKind_frameWhen, this]
  · intro hr h h1
    refine one_of _ _ _ (by decide) (by decide) hr ?_
    obtain ⟨b1, b2⟩ := bytes_of_nonneg _ h h1
    simp [stepFrames, overrideSteps, ofKind_append, ofKind_frameWhen, h, b1, b2]

/-- Witness of C6: a node with `motor_max_trans_decel = -200` and `rot_kp = 40`
emits one `SETA`/`ARGNINT` frame carrying 200 and one `ROTKP` frame carrying 40. -/
theorem override_frames_witness :
    connected decelNode = true ∧
    OneFrame .SETA .ARGNINT decelNode.motor_max_trans_decel.natAbs
      (overrides_emitted samplePlatform statusEnv 0 decelNode) ∧
    OneFrame .ROTKP .ARGINT decelNode.rot_kp.toNat
      (overrides_emitted samplePlatform statusEnv 0 decelNode) ∧
    NoFrame .ROTKV .ARGINT (overrides_emitted samplePlatform statusEnv 0 decelNode) :=
  ⟨rfl,
   (override_frames samplePlatform statusEnv 0 decelNode rfl).2.2.2.2.2.1 rfl
     (by decide) (by decide),
   (override_frames samplePlatform statusEnv 0 decelNode rfl).2.2.2.2.2.2.2.2.2.1 rfl
     (by decide) (by decide),
   (override_frames samplePlatform statusEnv 0 decelNode rfl).2.2.2.2.2.2.2.2.2.2.1
     (by decide)⟩

/-- C6 (counterexample). With the negative value `motor_max_trans_decel = -200`
`Setup` does emit a configuration frame (`SETA`, `ARGNINT`, 200), and with the
positive values `motor_max_trans_decel = 200`, `motor_max_rot_decel = 50` it
emits no deceleration frame at all. -/
theorem decel_override_sign_reversed :
    decelNode.motor_max_trans_decel < 0 ∧
    overrides_emitted samplePlatform statusEnv 0 decelNode =
      [.cmd4 .SETA .ARGNINT 200 0, .cmd4 .ROTKP .ARGINT 40 0] ∧
    0 < positiveNode.motor_max_trans_decel ∧ 0 < positiveNode.motor_max_rot_decel ∧
    (Setup_overrides samplePlatform statusEnv 0 positiveNode).1 = .returned ∧
    overrides_emitted samplePlatform statusEnv 0 positiveNode =
      [.cmd4 .SETA .ARGINT 44 1, .cmd4 .SETRA .ARGINT 100 0] := by
  refine ⟨by decide, ?_, by decide, by decide, rfl, ?_⟩
  · rfl
  · rfl

/-- Witness of C9: the motor channel of a connected node with everything pending. -/
theorem dirty_flag_cleared_with_send_witness :
    connected busyNode = true ∧ busyNode.motor_dirty = true ∧
    (check_and_set_motor_state samplePlatform statusEnv 0 busyNode).2.motor_dirty = false ∧
    (emitted busyNode.trace
        (check_and_set_motor_state samplePlatform statusEnv 0 busyNode).2.trace).head? =
      some (.cmd4 .ENABLE .ARGINT (u8 busyNode.cmdmotor_state_) 0) :=
  ⟨rfl, rfl, (dirty_flag_cleared_with_send samplePlatform statusEnv 0 busyNode rfl).2.1 rfl⟩

/-! ### Velocity commands and the dirty flag -/

theorem countCmd_append (c : Cmd) (a b : List P2OSPacket) :
    countCmd c (a ++ b) = countCmd c a + countCmd c b := by
  simp [countCmd]

theorem countCmd_armInit (c : Cmd) (extra : List P2OSPacket)
    (h : ∀ p ∈ extra, isArmInit p) (h1 : c ≠ .ARM_POWER) (h2 : c ≠ .ARM_STATUS) :
    countCmd c extra = 0 := by
  simp only [countCmd, List.length_eq_zero, List.filter_eq_nil_iff]
  intro p hp
  rcases h p hp with e | e <;> subst e <;> simp [P2OSPacket.cmd4, Ne.symm h1, Ne.symm h2]

theorem vel_command_op (op : Cmd) (v m : Int) : (vel_command op v m).op = op := by
  simp only [vel_command]
  split <;> rfl

/-- One `SendReceive` of a packet hands over at most that packet, as far as
packets with the command byte `c` go. -/
theorem SendReceive_count (P : Platform) (env : Env) (fuel : Nat) (s : P2OSNode)
    (pkt : P2OSPacket) (pub : Bool) (c : Cmd) (h1 : c ≠ .ARM_POWER) (h2 : c ≠ .ARM_STATUS) :
    (SendReceive P env fuel s (some pkt) pub).2.pending = s.pending ∧
    ∃ X, sentPackets (SendReceive P env fuel s (some pkt) pub).2.trace =
        sentPackets s.trace ++ X ∧ countCmd c X ≤ countCmd c [pkt] := by
  obtain ⟨a, -, extra, t, m⟩ := SendReceive_spec P env fuel s (some pkt) pub
  refine ⟨a, (if connected s = true then [pkt] else []) ++ extra, ?_, ?_⟩
  · simpa [List.append_assoc] using t
  · rw [countCmd_append, countCmd_armInit c extra m h1 h2]
    split <;> simp [countCmd]

/-- One call of `check_and_set_vel`: the `VEL` (and `RVEL`) packets handed over
plus the flag still set afterwards are at most the flag set before; the stored
command and its time are not written. -/
theorem check_and_set_vel_budget (P : Platform) (env : Env) (fuel : Nat) (s : P2OSNode) :
    ∃ X, sentPackets (check_and_set_vel P env fuel s).2.trace = sentPackets s.trace ++ X ∧
      countCmd .VEL X + (if (check_and_set_vel P env fuel s).2.vel_dirty = true then 1 else 0) ≤
        (if s.vel_dirty = true then 1 else 0) ∧
      countCmd .RVEL X + (if (check_and_set_vel P env fuel s).2.vel_dirty = true then 1 else 0) ≤
        (if s.vel_dirty = true then 1 else 0) ∧
      (check_and_set_vel P env fuel s).2.cmdvel_ = s.cmdvel_ ∧
      (check_and_set_vel P env fuel s).2.veltime = s.veltime := by
  by_cases hd : s.vel_dirty = true
  · have hdef : check_and_set_vel P env fuel s =
        (SendReceive P env fuel { s with vel_dirty := false }
          (some (vel_command .VEL (vel_vx { s with vel_dirty := false }) s.motor_max_speed))
          true).andThen fun s1 =>
        SendReceive P env fuel s1 (some (vel_command .RVEL
          (vel_va P { s with vel_dirty := false }) s1.motor_max_turnspeed)) true := by
      simp [check_and_set_vel, hd]
    rw [hdef]
    obtain ⟨a1, X1, t1, cv1⟩ := SendReceive_count P env fuel { s with vel_dirty := false }
      (vel_command .VEL (vel_vx { s with vel_dirty := false }) s.motor_max_speed) true .VEL
      (by decide) (by decide)
    obtain ⟨-, X1r, t1r, cr1⟩ := SendReceive_count P env fuel { s with vel_dirty := false }
      (vel_command .VEL (vel_vx { s with vel_dirty := false }) s.motor_max_speed) true .RVEL
      (by decide) (by decide)
    have hX1 : X1r = X1 := List.append_cancel_left (t1r.symm.trans t1)
    subst hX1
    have cv1' : countCmd .VEL X1r ≤ 1 := by
      simpa [countCmd, vel_command_op] using cv1
    have cr1' : countCmd .RVEL X1r = 0 := by
      simpa [countCmd, vel_command_op] using cr1
    rcases andThen_cases (SendReceive P env fuel { s with vel_dirty := false }
          (some (vel_command .VEL (vel_vx { s with vel_dirty := false }) s.motor_max_speed))
          true) (fun s1 =>
        SendReceive P env fuel s1 (some (vel_command .RVEL
          (vel_va P { s with vel_dirty := false }) s1.motor_max_turnspeed)) true)
      with ⟨-, e⟩ | ⟨-, e⟩
    · rw [e]
      obtain ⟨a2, X2, t2, cv2⟩ := SendReceive_count P env fuel
        (SendReceive P env fuel { s with vel_dirty := false }
          (some (vel_command .VEL (vel_vx { s with vel_dirty := false }) s.motor_max_speed))
          true).2
        (vel_command .RVEL (vel_va P { s with vel_dirty := false })
          (SendReceive P env fuel { s with vel_dirty := false }
            (some (vel_command .VEL (vel_vx { s with vel_dirty := false }) s.motor_max_speed))
            true).2.motor_max_turnspeed) true .VEL (by decide) (by decide)
      obtain ⟨-, X2r, t2r, cr2⟩ := SendReceive_count P env fuel
        (SendReceive P env fuel { s with vel_dirty := false }
          (some (vel_command .VEL (vel_vx { s with vel_dirty := false }) s.motor_max_speed))
          true).2
        (vel_command .RVEL (vel_va P { s with vel_dirty := false })
          (SendReceive P env fuel { s with vel_dirty := false }
            (some (vel_command .VEL (vel_vx { s with vel_dirty := false }) s.motor_max_speed))
            true).2.motor_max_turnspeed) true .RVEL (by decide) (by decide)
      have hX2 : X2r = X2 := List.append_cancel_left (t2r.symm.trans t2)
      subst hX2
      have cv2' : countCmd .VEL X2r = 0 := by
        simpa [countCmd, vel_command_op] using cv2
      have cr2' : countCmd .RVEL X2r ≤ 1 := by
        simpa [countCmd, vel_command_op] using cr2
      have hp := a2.trans a1
      have hvd := pending_congr P2OSNode.vel_dirty (fun _ => rfl) hp
      have hcv := pending_congr P2OSNode.cmdvel_ (fun _ => rfl) hp
      have hvt := pending_congr P2OSNode.veltime (fun _ => rfl) hp
      refine ⟨X1r ++ X2r, ?_, ?_, ?_, hcv, hvt⟩
      · rw [t2, t1]; simp
      · rw [hvd, countCmd_append]; simp [hd]; omega
      · rw [hvd, countCmd_append]; simp [hd]; omega
    · rw [e]
      have hvd := pending_congr P2OSNode.vel_dirty (fun _ => rfl) a1
      have hcv := pending_congr P2OSNode.cmdvel_ (fun _ => rfl) a1
      have hvt := pending_congr P2OSNode.veltime (fun _ => rfl) a1
      refine ⟨X1r, t1, ?_, ?_, hcv, hvt⟩
      · rw [hvd]; simp [hd]; omega
      · rw [hvd]; simp [hd]; omega
  · have hdef : check_and_set_vel P env fuel s = (.returned, s) := by
      simp [check_and_set_vel, hd]
    rw [hdef]
    exact ⟨[], by simp, by simp [countCmd], by simp [countCmd], rfl, rfl⟩

/-- Any number of `check_and_set_vel` calls in a row: the budget of
`check_and_set_vel_budget` holds for the whole run. -/
theorem check_and_set_vel_times_budget (P : Platform) (env : Env) (fuel : Nat) (k : Nat) :
    ∀ s, ∃ X,
      sentPackets (check_and_set_vel_times P env fuel k s).2.trace = sentPackets s.trace ++ X ∧
      countCmd .VEL X +
          (if (check_and_set_vel_times P env fuel k s).2.vel_dirty = true then 1 else 0) ≤
        (if s.vel_dirty = true then 1 else 0) ∧
      countCmd .RVEL X +
          (if (check_and_set_vel_times P env fuel k s).2.vel_dirty = true then 1 else 0) ≤
        (if s.vel_dirty = true then 1 else 0) ∧
      (check_and_set_vel_times P env fuel k s).2.cmdvel_ = s.cmdvel_ ∧
      (check_and_set_vel_times P env fuel k s).2.veltime = s.veltime := by
  induction k with
  | zero =>
    intro s
    exact ⟨[], by simp [check_and_set_vel_times], by simp [check_and_set_vel_times, countCmd],
      by simp [check_and_set_vel_times, countCmd], rfl, rfl⟩
  | succ k ih =>
    intro s
    obtain ⟨X1, t1, v1, r1, c1, w1⟩ := check_and_set_vel_budget P env fuel s
    simp only [check_and_set_vel_times]
    rcases andThen_cases (check_and_set_vel P env fuel s)
        (check_and_set_vel_times P env fuel k) with ⟨-, e⟩ | ⟨-, e⟩
    · simp only [e]
      obtain ⟨X2, t2, v2, r2, c2, w2⟩ := ih (check_and_set_vel P env fuel s).2
      refine ⟨X1 ++ X2, ?_, ?_, ?_, c2.trans c1, w2.trans w1⟩
      · rw [t2, t1, List.append_assoc]
      · rw [countCmd_append]; omega
      · rw [countCmd_append]; omega
    · simp only [e]
      exact ⟨X1, t1, v1, r1, c1, w1⟩

/-- A message within 0.01 of the stored command on both components, arriving
within 5 seconds of `veltime`, leaves the node as it is. -/
theorem cmdvel_cb_unchanged (s : P2OSNode) (msg : Twist) (now : ℚ)
    (hx : |msg.linear_x - s.cmdvel_.linear_x| ≤ 1 / 100)
    (hz : |msg.angular_z - s.cmdvel_.angular_z| ≤ 1 / 100)
    (hw : now - s.veltime ≤ 5) : cmdvel_cb s msg now = s := by
  have h1 : ¬ (|msg.linear_x - s.cmdvel_.linear_x| > 1 / 100 ∨
      |msg.angular_z - s.cmdvel_.angular_z| > 1 / 100) := by
    rintro (h | h)
    · exact absurd hx (not_le.mpr h)
    · exact absurd hz (not_le.mpr h)
  have h2 : ¬ (now - s.veltime > 5 ∧
      (|s.cmdvel_.linear_x| > 1 / 100 ∨ |s.cmdvel_.angular_z| > 1 / 100)) := by
    rintro ⟨h, -⟩
    exact absurd hw (not_le.mpr h)
  simp only [cmdvel_cb, if_neg h1, if_neg h2]

/-- After `cmdvel_cb` the stored command is within 0.01 of the message, and
the trace is as before. -/
theorem cmdvel_cb_close (s : P2OSNode) (msg : Twist) (now : ℚ) :
    |msg.linear_x - (cmdvel_cb s msg now).cmdvel_.linear_x| ≤ 1 / 100 ∧
    |msg.angular_z - (cmdvel_cb s msg now).cmdvel_.angular_z| ≤ 1 / 100 ∧
    (cmdvel_cb s msg now).trace = s.trace := by
  unfold cmdvel_cb
  by_cases h1 : |msg.linear_x - s.cmdvel_.linear_x| > 1 / 100 ∨
      |msg.angular_z - s.cmdvel_.angular_z| > 1 / 100
  · rw [if_pos h1]
    simp
  · rw [if_neg h1]
    have hx : |msg.linear_x - s.cmdvel_.linear_x| ≤ 1 / 100 :=
      not_lt.mp fun h => h1 (Or.inl h)
    have hz : |msg.angular_z - s.cmdvel_.angular_z| ≤ 1 / 100 :=
      not_lt.mp fun h => h1 (Or.inr h)
    simp only
    split <;> exact ⟨hx, hz, rfl⟩

/-- C10. Dirty-flag suppression: when the same velocity message is delivered
to `cmdvel_cb` twice, the second time within 5 seconds of `veltime` as the
first delivery left it, then with any number of `check_and_set_vel` calls
after each delivery at most one `VEL` and at most one `RVEL` command are
handed to the transport; in particular a message within 0.01 of the stored
command on `linear.x` and `angular.z`, arriving within the window, leaves the
node (so `vel_dirty`, `cmdvel_` and `veltime`) unchanged. -/
theorem dirty_flag_suppression (P : Platform) (env : Env) (fuel : Nat) (s : P2OSNode)
    (msg : Twist) (t1 t2 : ℚ) (k1 k2 : Nat)
    (hwin : t2 - (cmdvel_cb s msg t1).veltime ≤ 5) :
    countCmd .VEL (emitted s.trace (deliver_twice P env fuel s msg t1 t2 k1 k2).2.trace) ≤ 1 ∧
    countCmd .RVEL (emitted s.trace (deliver_twice P env fuel s msg t1 t2 k1 k2).2.trace) ≤ 1 ∧
    (∀ (s0 : P2OSNode) (m : Twist) (now : ℚ),
      |m.linear_x - s0.cmdvel_.linear_x| ≤ 1 / 100 →
      |m.angular_z - s0.cmdvel_.angular_z| ≤ 1 / 100 →
      now - s0.veltime ≤ 5 →
      (cmdvel_cb s0 m now).vel_dirty = s0.vel_dirty ∧
      (cmdvel_cb s0 m now).cmdvel_ = s0.cmdvel_ ∧
      (cmdvel_cb s0 m now).veltime = s0.veltime) := by
  obtain ⟨hx, hz, htr⟩ := cmdvel_cb_close s msg t1
  obtain ⟨X1, e1, v1, r1, c1, w1⟩ :=
    check_and_set_vel_times_budget P env fuel k1 (cmdvel_cb s msg t1)
  have hbound : (if (cmdvel_cb s msg t1).vel_dirty = true then 1 else 0) ≤ 1 := by
    split <;> omega
  have key : ∃ X, sentPackets (deliver_twice P env fuel s msg t1 t2 k1 k2).2.trace =
      sentPackets s.trace ++ X ∧ countCmd .VEL X ≤ 1 ∧ countCmd .RVEL X ≤ 1 := by
    unfold deliver_twice
    rcases andThen_cases (check_and_set_vel_times P env fuel k1 (cmdvel_cb s msg t1))
        (fun s2 => check_and_set_vel_times P env fuel k2 (cmdvel_cb s2 msg t2))
      with ⟨-, e⟩ | ⟨-, e⟩
    · rw [e]
      have hsame : cmdvel_cb (check_and_set_vel_times P env fuel k1 (cmdvel_cb s msg t1)).2
          msg t2 = (check_and_set_vel_times P env fuel k1 (cmdvel_cb s msg t1)).2 := by
        apply cmdvel_cb_unchanged
        · rw [c1]; exact hx
        · rw [c1]; exact hz
        · rw [w1]; exact hwin
      simp only [hsame]
      obtain ⟨X2, e2, v2, r2, -, -⟩ := check_and_set_vel_times_budget P env fuel k2
        (check_and_set_vel_times P env fuel k1 (cmdvel_cb s msg t1)).2
      refine ⟨X1 ++ X2, ?_, ?_, ?_⟩
      · rw [e2, e1, htr, List.append_assoc]
      · rw [countCmd_append]; omega
      · rw [countCmd_append]; omega
    · rw [e]
      exact ⟨X1, by rw [e1, htr], by omega, by omega⟩
  obtain ⟨X, eX, vX, rX⟩ := key
  rw [emitted_of_append _ _ _ eX]
  refine ⟨vX, rX, ?_⟩
  intro s0 m now h1 h2 h3
  rw [cmdvel_cb_unchanged s0 m now h1 h2 h3]
  exact ⟨rfl, rfl, rfl⟩

/-- Witness of C10: 0.3 m/s delivered at 1 s and again at 2 s to an idle node,
with one `check_and_set_vel` after each delivery. -/
theorem dirty_flag_suppression_witness :
    (2 : ℚ) - (cmdvel_cb idleNode ⟨3 / 10, 0, 0, 0, 0, 0⟩ 1).veltime ≤ 5 ∧
    countCmd .VEL (emitted idleNode.trace
      (deliver_twice samplePlatform statusEnv 0 idleNode ⟨3 / 10, 0, 0, 0, 0, 0⟩
        1 2 1 1).2.trace) ≤ 1 ∧
    countCmd .RVEL (emitted idleNode.trace
      (deliver_twice samplePlatform statusEnv 0 idleNode ⟨3 / 10, 0, 0, 0, 0, 0⟩
        1 2 1 1).2.trace) ≤ 1 := by
  have h : (2 : ℚ) - (cmdvel_cb idleNode ⟨3 / 10, 0, 0, 0, 0, 0⟩ 1).veltime ≤ 5 := by
    have habs : |(3 : ℚ) / 10| = 3 / 10 := abs_of_pos (by norm_num)
    norm_num [cmdvel_cb, idleNode, habs]
  exact ⟨h,
    (dirty_flag_suppression samplePlatform statusEnv 0 idleNode ⟨3 / 10, 0, 0, 0, 0, 0⟩
      1 2 1 1 h).1,
    (dirty_flag_suppression samplePlatform statusEnv 0 idleNode ⟨3 / 10, 0, 0, 0, 0, 0⟩
      1 2 1 1 h).2.1⟩

/-- A `check_and_set_vel` call on a connected node with `vel_dirty` set clears
the flag, hands the `VEL` command over first, and the `RVEL` command when the
call returns. -/
theorem check_and_set_vel_sends (P : Platform) (env : Env) (fuel : Nat) (s : P2OSNode)
    (hc : connected s = true) (hd : s.vel_dirty = true) :
    (check_and_set_vel P env fuel s).2.vel_dirty = false ∧
    (emitted s.trace (check_and_set_vel P env fuel s).2.trace).head? =
      some (vel_command .VEL (vel_vx s) s.motor_max_speed) ∧
    ((check_and_set_vel P env fuel s).1 = .returned →
      vel_command .RVEL (vel_va P s) s.motor_max_turnspeed ∈
        emitted s.trace (check_and_set_vel P env fuel s).2.trace) := by
  have hfd : s.psos_fd ≥ 0 ∧ s.sippacket.isSome = true := by
    simpa [connected] using hc
  have hc2 : connected { s with vel_dirty := false } = true := by
    simpa [connected] using hfd
  obtain ⟨a, -, rest, t, hret⟩ := two_sends P env fuel { s with vel_dirty := false }
    (vel_command .VEL (vel_vx { s with vel_dirty := false }) s.motor_max_speed) true
    (fun s1 => vel_command .RVEL (vel_va P { s with vel_dirty := false })
      s1.motor_max_turnspeed) true hc2
  have hdef : check_and_set_vel P env fuel s =
      (SendReceive P env fuel { s with vel_dirty := false }
        (some (vel_command .VEL (vel_vx { s with vel_dirty := false }) s.motor_max_speed))
        true).andThen fun s1 =>
      SendReceive P env fuel s1 (some (vel_command .RVEL
        (vel_va P { s with vel_dirty := false }) s1.motor_max_turnspeed)) true := by
    simp [check_and_set_vel, hd]
  rw [hdef]
  have hem := emitted_of_append s.trace _ _ t
  refine ⟨pending_congr P2OSNode.vel_dirty (fun _ => rfl) a, ?_, ?_⟩
  · rw [hem]; rfl
  · intro h
    obtain ⟨s1, hs1, hmem⟩ := hret h
    rw [hem]
    have hm := pending_congr P2OSNode.motor_max_turnspeed (fun _ => rfl) hs1
    have : s1.motor_max_turnspeed = s.motor_max_turnspeed := hm
    simp only [this] at hmem
    exact List.mem_cons_of_mem _ hmem

/-- C11 (counterexample). A stored command of 0.005 m/s is nonzero, yet a
`cmdvel_cb` call with the unchanged value 6 seconds after `veltime` neither
sets `vel_dirty` nor resets `veltime`. -/
theorem small_velocity_not_reasserted :
    creepNode.cmdvel_.linear_x ≠ 0 ∧ (6 : ℚ) - creepNode.veltime > 5 ∧
    creepNode.vel_dirty = false ∧
    (cmdvel_cb creepNode creepNode.cmdvel_ 6).vel_dirty = false ∧
    (cmdvel_cb creepNode creepNode.cmdvel_ 6).veltime = 0 := by
  have h1 : ¬ (|creepNode.cmdvel_.linear_x - creepNode.cmdvel_.linear_x| > 1 / 100 ∨
      |creepNode.cmdvel_.angular_z - creepNode.cmdvel_.angular_z| > 1 / 100) := by
    norm_num
  have habs : |(1 : ℚ) / 200| = 1 / 200 := abs_of_pos (by norm_num)
  have h2 : ¬ ((6 : ℚ) - creepNode.veltime > 5 ∧
      (|creepNode.cmdvel_.linear_x| > 1 / 100 ∨ |creepNode.cmdvel_.angular_z| > 1 / 100)) := by
    norm_num [creepNode, idleNode, habs]
  refine ⟨by norm_num [creepNode], by norm_num [creepNode, idleNode], rfl, ?_, ?_⟩
  · simp only [cmdvel_cb, if_neg h1, if_neg h2]; rfl
  · simp only [cmdvel_cb, if_neg h1, if_neg h2]; rfl

/-- C11 (amended). Staleness re-assertion: when the stored velocity command is
outside the dead band (`|linear.x| > 0.01` or `|angular.z| > 0.01`), a
`cmdvel_cb` call with a value within 0.01 of it on both components, arriving
more than 5 seconds after `veltime`, sets `vel_dirty`, resets `veltime` to the
current time and keeps `cmdvel_`; the next `check_and_set_vel` on a connected
node then hands the `VEL` command of the stored velocity to the transport, and
the `RVEL` command when that call returns. -/
theorem stale_velocity_reasserted (s : P2OSNode) (msg : Twist) (now : ℚ)
    (hx : |msg.linear_x - s.cmdvel_.linear_x| ≤ 1 / 100)
    (hz : |msg.angular_z - s.cmdvel_.angular_z| ≤ 1 / 100)
    (hstale : now - s.veltime > 5)
    (hnz : |s.cmdvel_.linear_x| > 1 / 100 ∨ |s.cmdvel_.angular_z| > 1 / 100) :
    (cmdvel_cb s msg now).vel_dirty = true ∧
    (cmdvel_cb s msg now).veltime = now ∧
    (cmdvel_cb s msg now).cmdvel_ = s.cmdvel_ ∧
    ∀ (P : Platform) (env : Env) (fuel : Nat), connected s = true →
      (check_and_set_vel P env fuel (cmdvel_cb s msg now)).2.vel_dirty = false ∧
      (emitted s.trace (check_and_set_vel P env fuel (cmdvel_cb s msg now)).2.trace).head? =
        some (vel_command .VEL (vel_vx s) s.motor_max_speed) ∧
      ((check_and_set_vel P env fuel (cmdvel_cb s msg now)).1 = .returned →
        vel_command .RVEL (vel_va P s) s.motor_max_turnspeed ∈
          emitted s.trace (check_and_set_vel P env fuel (cmdvel_cb s msg now)).2.trace) := by
  have h1 : ¬ (|msg.linear_x - s.cmdvel_.linear_x| > 1 / 100 ∨
      |msg.angular_z - s.cmdvel_.angular_z| > 1 / 100) := by
    rintro (h | h)
    · exact absurd hx (not_le.mpr h)
    · exact absurd hz (not_le.mpr h)
  have hdef : cmdvel_cb s msg now = { s with vel_dirty := true, veltime := now } := by
    simp only [cmdvel_cb, if_neg h1, if_pos (And.intro hstale hnz)]
  rw [hdef]
  refine ⟨rfl, rfl, rfl, ?_⟩
  intro P env fuel hc
  have hc2 : connected { s with vel_dirty := true, veltime := now } = true := by
    simpa [connected] using hc
  exact check_and_set_vel_sends P env fuel { s with vel_dirty := true, veltime := now } hc2 rfl

/-- Witness of C11: 0.3 m/s stored at time 0 and delivered again at 6 s. -/
theorem stale_velocity_reasserted_witness :
    (cmdvel_cb cruiseNode cruiseNode.cmdvel_ 6).vel_dirty = true ∧
    (cmdvel_cb cruiseNode cruiseNode.cmdvel_ 6).veltime = 6 ∧
    (cmdvel_cb cruiseNode cruiseNode.cmdvel_ 6).cmdvel_ = cruiseNode.cmdvel_ := by
  have habs : |(3 : ℚ) / 10| = 3 / 10 := abs_of_pos (by norm_num)
  have h := stale_velocity_reasserted cruiseNode cruiseNode.cmdvel_ 6
    (by norm_num) (by norm_num) (by norm_num [cruiseNode, idleNode])
    (Or.inl (by norm_num [cruiseNode, habs]))
  exact ⟨h.1, h.2.1, h.2.2.1⟩

/-! ### Ticks and degrees -/

/-- `round` of a whole number is that number. -/
theorem cround_intCast (z : Int) : cround (z : ℚ) = z := by
  unfold cround
  split
  · rw [Int.floor_eq_iff]
    constructor <;> linarith
  · rw [Int.ceil_eq_iff]
    constructor <;> linarith

/-- The value compared with `min` and `max` in `DegreesToTicks` is a whole number. -/
theorem unclampedTicks_int (sip : SIP) (joint : Int) (degrees : ℚ) :
    ∃ z : Int, unclampedTicks sip joint degrees = (z : ℚ) := by
  unfold unclampedTicks
  by_cases h : joint ≥ 0 ∧ joint ≤ 2
  · refine ⟨-cround (((armJoint sip joint).ticksPer90 : ℚ) * degrees / 90) +
      ((armJoint sip joint).centre : Int), ?_⟩
    simp [h]
  · refine ⟨cround (((armJoint sip joint).ticksPer90 : ℚ) * degrees / 90) +
      ((armJoint sip joint).centre : Int), ?_⟩
    simp [h]

/-- `DegreesToTicks` on a joint of the arm: the unclamped value when it lies in
`[min, max]`, else the bound it passed. -/
theorem DegreesToTicks_cases (sip : SIP) (joint : Int) (degrees : ℚ)
    (h0 : 0 ≤ joint) (h1 : joint < sip.armNumJoints)
    (hmax : (armJoint sip joint).max ≤ 255) :
    (unclampedTicks sip joint degrees < ((armJoint sip joint).min : ℚ) →
      DegreesToTicks sip joint degrees = (armJoint sip joint).min) ∧
    (¬ unclampedTicks sip joint degrees < ((armJoint sip joint).min : ℚ) →
      unclampedTicks sip joint degrees > ((armJoint sip joint).max : ℚ) →
      DegreesToTicks sip joint degrees = (armJoint sip joint).max) ∧
    (¬ unclampedTicks sip joint degrees < ((armJoint sip joint).min : ℚ) →
      ¬ unclampedTicks sip joint degrees > ((armJoint sip joint).max : ℚ) →
      ((DegreesToTicks sip joint degrees : Nat) : ℚ) = unclampedTicks sip joint degrees) := by
  have hj : ¬ (joint < 0 ∨ joint ≥ sip.armNumJoints) := by omega
  refine ⟨?_, ?_, ?_⟩
  · intro h
    simp only [DegreesToTicks, if_neg hj, if_pos h]
  · intro h h2
    simp only [DegreesToTicks, if_neg hj, if_neg h, if_pos h2]
  · intro h h2
    simp only [DegreesToTicks, if_neg hj, if_neg h, if_neg h2]
    obtain ⟨z, hz⟩ := unclampedTicks_int sip joint degrees
    rw [hz, cround_intCast]
    rw [hz] at h h2
    have hz0 : (0 : ℚ) ≤ (z : ℚ) := by
      have : (0 : ℚ) ≤ ((armJoint sip joint).min : ℚ) := Nat.cast_nonneg _
      linarith [not_lt.mp h]
    have hz0' : 0 ≤ z := by exact_mod_cast hz0
    have hz1 : (z : ℚ) ≤ (255 : ℚ) := by
      have : ((armJoint sip joint).max : ℚ) ≤ 255 := by exact_mod_cast hmax
      linarith [not_lt.mp h2]
    have hz1' : z ≤ 255 := by exact_mod_cast hz1
    obtain ⟨n, rfl⟩ := Int.eq_ofNat_of_zero_le hz0'
    have hn : n ≤ 255 := by omega
    have : u8 (n : Int) = n := by
      unfold u8
      omega
    rw [this]
    simp

/-- `DegreesToTicks` on a joint of the arm lies in `[min, max]`. -/
theorem DegreesToTicks_mem (sip : SIP) (joint : Int) (degrees : ℚ)
    (h0 : 0 ≤ joint) (h1 : joint < sip.armNumJoints)
    (hmm : (armJoint sip joint).min ≤ (armJoint sip joint).max)
    (hmax : (armJoint sip joint).max ≤ 255) :
    (armJoint sip joint).min ≤ DegreesToTicks sip joint degrees ∧
    DegreesToTicks sip joint degrees ≤ (armJoint sip joint).max := by
  obtain ⟨c1, c2, c3⟩ := DegreesToTicks_cases sip joint degrees h0 h1 hmax
  by_cases h : unclampedTicks sip joint degrees < ((armJoint sip joint).min : ℚ)
  · rw [c1 h]; exact ⟨le_refl _, hmm⟩
  · by_cases h2 : unclampedTicks sip joint degrees > ((armJoint sip joint).max : ℚ)
    · rw [c2 h h2]; exact ⟨hmm, le_refl _⟩
    · have e := c3 h h2
      have a : ((armJoint sip joint).min : ℚ) ≤ (DegreesToTicks sip joint degrees : ℚ) := by
        rw [e]; exact not_lt.mp h
      have b : (DegreesToTicks sip joint degrees : ℚ) ≤ ((armJoint sip joint).max : ℚ) := by
        rw [e]; exact not_lt.mp h2
      exact ⟨by exact_mod_cast a, by exact_mod_cast b⟩

/-- C13. Tick clamping: on a joint of the arm whose calibration has
`min <= max` (bytes, so `max <= 255`), `DegreesToTicks` lies in `[min, max]`
for every degrees value; a value below `min` gives `min`, a value above `max`
gives `max`, and a value in between is returned as it is. -/
theorem tick_clamping (sip : SIP) (joint : Int) (degrees : ℚ)
    (h0 : 0 ≤ joint) (h1 : joint < sip.armNumJoints)
    (hmm : (armJoint sip joint).min ≤ (armJoint sip joint).max)
    (hmax : (armJoint sip joint).max ≤ 255) :
    (armJoint sip joint).min ≤ DegreesToTicks sip joint degrees ∧
    DegreesToTicks sip joint degrees ≤ (armJoint sip joint).max ∧
    (unclampedTicks sip joint degrees < ((armJoint sip joint).min : ℚ) →
      DegreesToTicks sip joint degrees = (armJoint sip joint).min) ∧
    (unclampedTicks sip joint degrees > ((armJoint sip joint).max : ℚ) →
      DegreesToTicks sip joint degrees = (armJoint sip joint).max) ∧
    (((armJoint sip joint).min : ℚ) ≤ unclampedTicks sip joint degrees →
      unclampedTicks sip joint degrees ≤ ((armJoint sip joint).max : ℚ) →
      ((DegreesToTicks sip joint degrees : Nat) : ℚ) = unclampedTicks sip joint degrees) := by
  obtain ⟨m1, m2⟩ := DegreesToTicks_mem sip joint degrees h0 h1 hmm hmax
  obtain ⟨c1, c2, c3⟩ := DegreesToTicks_cases sip joint degrees h0 h1 hmax
  refine ⟨m1, m2, c1, ?_, ?_⟩
  · intro h
    have hmq : ((armJoint sip joint).min : ℚ) ≤ ((armJoint sip joint).max : ℚ) := by
      exact_mod_cast hmm
    exact c2 (not_lt.mpr (by linarith)) h
  · intro a b
    exact c3 (not_lt.mpr a) (not_lt.mpr b)

/-- Witness of C13: 180 degrees on joint 0 of the sample calibration. -/
theorem tick_clamping_witness :
    (armJoint (calibratedSIP 3) 0).min ≤ DegreesToTicks (calibratedSIP 3) 0 180 ∧
    DegreesToTicks (calibratedSIP 3) 0 180 ≤ (armJoint (calibratedSIP 3) 0).max :=
  ⟨(tick_clamping (calibratedSIP 3) 0 180 (by decide) (by decide) (by decide)
      (by decide)).1,
   (tick_clamping (calibratedSIP 3) 0 180 (by decide) (by decide) (by decide)
      (by decide)).2.1⟩

/-- C14. Tick-to-degree formula: on a joint of the arm with `ticksPer90 != 0`,
`TicksToDegrees` is `(90 / ticksPer90) * (ticks - centre)` for joints with
index 3 or more, and the negation of that for joints 0, 1 and 2. -/
theorem ticks_to_degrees_formula (sip : SIP) (joint : Int) (ticks : Nat)
    (h0 : 0 ≤ joint) (h1 : joint < sip.armNumJoints)
    (_htp : (armJoint sip joint).ticksPer90 ≠ 0) :
    (3 ≤ joint → TicksToDegrees sip joint ticks =
      (90 / ((armJoint sip joint).ticksPer90 : ℚ)) *
        (((ticks : Int) - ((armJoint sip joint).centre : Int) : Int) : ℚ)) ∧
    (joint ≤ 2 → TicksToDegrees sip joint ticks =
      -((90 / ((armJoint sip joint).ticksPer90 : ℚ)) *
        (((ticks : Int) - ((armJoint sip joint).centre : Int) : Int) : ℚ))) := by
  have hj : ¬ (joint < 0 ∨ joint ≥ sip.armNumJoints) := by omega
  constructor
  · intro h
    have h2 : ¬ (joint ≥ 0 ∧ joint ≤ 2) := by omega
    simp only [TicksToDegrees, armJoint, if_neg hj, if_neg h2]
  · intro h
    have h2 : joint ≥ 0 ∧ joint ≤ 2 := by omega
    simp only [TicksToDegrees, armJoint, if_neg hj, if_pos h2]

/-- Witness of C14: tick 130 on joints 0 and 3 of the sample calibration. -/
theorem ticks_to_degrees_formula_witness :
    TicksToDegrees (calibratedSIP 4) 3 130 =
      (90 / ((armJoint (calibratedSIP 4) 3).ticksPer90 : ℚ)) *
        (((130 : Int) - ((armJoint (calibratedSIP 4) 3).centre : Int) : Int) : ℚ) ∧
    TicksToDegrees (calibratedSIP 4) 0 130 =
      -((90 / ((armJoint (calibratedSIP 4) 0).ticksPer90 : ℚ)) *
        (((130 : Int) - ((armJoint (calibratedSIP 4) 0).centre : Int) : Int) : ℚ)) :=
  ⟨(ticks_to_degrees_formula (calibratedSIP 4) 3 130 (by decide) (by decide) (by decide)).1
      (by decide),
   (ticks_to_degrees_formula (calibratedSIP 4) 0 130 (by decide) (by decide) (by decide)).2
      (by decide)⟩

/-- With `centre = 100` and `ticksPer90 = 90`, +90 degrees on a sign-inverted
joint is tick 10 before clamping. -/
theorem unclampedTicks_example (sip : SIP) (joint : Int) (h0 : 0 ≤ joint) (h2 : joint ≤ 2)
    (hcal : armJoint sip joint = ⟨(armJoint sip joint).speed, (armJoint sip joint).home,
      0, 100, 200, 90⟩) :
    unclampedTicks sip joint 90 = 10 := by
  have hc : (armJoint sip joint).centre = 100 := by rw [hcal]
  have ht : (armJoint sip joint).ticksPer90 = 90 := by rw [hcal]
  have e : ((90 : ℕ) : ℚ) * 90 / 90 = ((90 : Int) : ℚ) := by norm_num
  simp only [unclampedTicks, hc, ht, e, cround_intCast, if_pos (And.intro h0 h2)]
  norm_num

/-- C15 (amended). For a sign-inverted joint (index 0, 1 or 2) with calibration
`centre = 100, ticksPer90 = 90, min = 0, max = 200`, `DegreesToTicks(joint, +90)`
is 10, that is `centre - 90`: a tick inside the range, reached without
clamping. -/
theorem arm_tick_example (sip : SIP) (joint : Int) (h0 : 0 ≤ joint) (h2 : joint ≤ 2)
    (h1 : joint < sip.armNumJoints)
    (hcal : armJoint sip joint = ⟨(armJoint sip joint).speed, (armJoint sip joint).home,
      0, 100, 200, 90⟩) :
    DegreesToTicks sip joint 90 = 10 ∧
    (armJoint sip joint).min < DegreesToTicks sip joint 90 ∧
    DegreesToTicks sip joint 90 < (armJoint sip joint).max := by
  have hmin : (armJoint sip joint).min = 0 := by rw [hcal]
  have hmax : (armJoint sip joint).max = 200 := by rw [hcal]
  have hu := unclampedTicks_example sip joint h0 h2 hcal
  obtain ⟨-, -, c3⟩ := DegreesToTicks_cases sip joint 90 h0 h1 (by omega)
  have e := c3 (by rw [hu, hmin]; norm_num) (by rw [hu, hmax]; norm_num)
  rw [hu] at e
  have e2 : DegreesToTicks sip joint 90 = 10 := by exact_mod_cast e
  rw [e2, hmin, hmax]
  exact ⟨rfl, by decide, by decide⟩

/-- Witness of C15: joint 1 of the sample calibration. -/
theorem arm_tick_example_witness :
    DegreesToTicks (calibratedSIP 3) 1 90 = 10 ∧
    (armJoint (calibratedSIP 3) 1).min < DegreesToTicks (calibratedSIP 3) 1 90 ∧
    DegreesToTicks (calibratedSIP 3) 1 90 < (armJoint (calibratedSIP 3) 1).max :=
  arm_tick_example (calibratedSIP 3) 1 (by decide) (by decide) (by decide) rfl

/-- C15 (counterexample). On joint 0 with calibration
`centre = 100, ticksPer90 = 90, min = 0, max = 200`, `DegreesToTicks(0, +90)`
is neither 0 nor 200. -/
theorem arm_tick_example_not_at_bound :
    armJoint (calibratedSIP 3) 0 = ⟨0, 0, 0, 100, 200, 90⟩ ∧
    DegreesToTicks (calibratedSIP 3) 0 90 ≠ 0 ∧
    DegreesToTicks (calibratedSIP 3) 0 90 ≠ 200 := by
  have hu := unclampedTicks_example (calibratedSIP 3) 0 (by decide) (by decide) rfl
  obtain ⟨-, -, c3⟩ := DegreesToTicks_cases (calibratedSIP 3) 0 90 (by decide) (by decide)
    (by decide)
  have hmin : (armJoint (calibratedSIP 3) 0).min = 0 := rfl
  have hmax : (armJoint (calibratedSIP 3) 0).max = 200 := rfl
  have e := c3 (by rw [hu, hmin]; norm_num) (by rw [hu, hmax]; norm_num)
  rw [hu] at e
  have e2 : DegreesToTicks (calibratedSIP 3) 0 90 = 10 := by exact_mod_cast e
  rw [e2]
  exact ⟨rfl, by decide, by decide⟩

/-- Converting a tick to degrees and back gives the tick, before clamping. -/
theorem unclampedTicks_of_ticks (sip : SIP) (joint : Int) (t : Nat)
    (h0 : 0 ≤ joint) (h1 : joint < sip.armNumJoints)
    (htp : 0 < (armJoint sip joint).ticksPer90) :
    unclampedTicks sip joint (TicksToDegrees sip joint t) = (t : ℚ) := by
  have hj : ¬ (joint < 0 ∨ joint ≥ sip.armNumJoints) := by omega
  have hq : ((armJoint sip joint).ticksPer90 : ℚ) ≠ 0 := by
    have : (0 : ℚ) < ((armJoint sip joint).ticksPer90 : ℚ) := by exact_mod_cast htp
    exact ne_of_gt this
  by_cases h2 : joint ≥ 0 ∧ joint ≤ 2
  · have e : ((armJoint sip joint).ticksPer90 : ℚ) *
        (-(90 / ((armJoint sip joint).ticksPer90 : ℚ) *
          (((t : Int) - ((armJoint sip joint).centre : Int) : Int) : ℚ))) / 90 =
        ((-((t : Int) - ((armJoint sip joint).centre : Int)) : Int) : ℚ) := by
      push_cast
      field_simp
      ring
    have hT : TicksToDegrees sip joint t =
        -(90 / ((armJoint sip joint).ticksPer90 : ℚ) *
          (((t : Int) - ((armJoint sip joint).centre : Int) : Int) : ℚ)) := by
      simp only [TicksToDegrees, armJoint, if_neg hj, if_pos h2]
    simp only [unclampedTicks, hT, e, cround_intCast, if_pos h2]
    push_cast
    ring
  · have e : ((armJoint sip joint).ticksPer90 : ℚ) *
        (90 / ((armJoint sip joint).ticksPer90 : ℚ) *
          (((t : Int) - ((armJoint sip joint).centre : Int) : Int) : ℚ)) / 90 =
        ((((t : Int) - ((armJoint sip joint).centre : Int)) : Int) : ℚ) := by
      push_cast
      field_simp
    have hT : TicksToDegrees sip joint t =
        90 / ((armJoint sip joint).ticksPer90 : ℚ) *
          (((t : Int) - ((armJoint sip joint).centre : Int) : Int) : ℚ) := by
      simp only [TicksToDegrees, armJoint, if_neg hj, if_neg h2]
    simp only [unclampedTicks, hT, e, cround_intCast, if_neg h2]
    push_cast
    ring

/-- A tick inside `[min, max]` survives the conversion to degrees and back. -/
theorem DegreesToTicks_of_ticks (sip : SIP) (joint : Int) (t : Nat)
    (h0 : 0 ≤ joint) (h1 : joint < sip.armNumJoints)
    (htp : 0 < (armJoint sip joint).ticksPer90)
    (hmax : (armJoint sip joint).max ≤ 255)
    (ht0 : (armJoint sip joint).min ≤ t) (ht1 : t ≤ (armJoint sip joint).max) :
    DegreesToTicks sip joint (TicksToDegrees sip joint t) = t := by
  have hu := unclampedTicks_of_ticks sip joint t h0 h1 htp
  obtain ⟨-, -, c3⟩ := DegreesToTicks_cases sip joint (TicksToDegrees sip joint t) h0 h1 hmax
  have a : ((armJoint sip joint).min : ℚ) ≤ (t : ℚ) := by exact_mod_cast ht0
  have b : (t : ℚ) ≤ ((armJoint sip joint).max : ℚ) := by exact_mod_cast ht1
  have e := c3 (by rw [hu]; exact not_lt.mpr a) (by rw [hu]; exact not_lt.mpr b)
  rw [hu] at e
  exact_mod_cast e

/-- C16. The tick/degree round trip is idempotent: on a joint of the arm with
`ticksPer90 > 0` and `min <= max` (bytes), for every degrees value `d`, with
`t = DegreesToTicks(joint, d)` and `d1 = TicksToDegrees(joint, t)`,
`DegreesToTicks(joint, d1) = t` and so
`TicksToDegrees(joint, DegreesToTicks(joint, d1)) = d1`. -/
theorem tick_round_trip (sip : SIP) (joint : Int) (d : ℚ)
    (h0 : 0 ≤ joint) (h1 : joint < sip.armNumJoints)
    (htp : 0 < (armJoint sip joint).ticksPer90)
    (hmm : (armJoint sip joint).min ≤ (armJoint sip joint).max)
    (hmax : (armJoint sip joint).max ≤ 255) :
    DegreesToTicks sip joint (TicksToDegrees sip joint (DegreesToTicks sip joint d)) =
      DegreesToTicks sip joint d ∧
    TicksToDegrees sip joint
        (DegreesToTicks sip joint (TicksToDegrees sip joint (DegreesToTicks sip joint d))) =
      TicksToDegrees sip joint (DegreesToTicks sip joint d) := by
  obtain ⟨m1, m2⟩ := DegreesToTicks_mem sip joint d h0 h1 hmm hmax
  have e := DegreesToTicks_of_ticks sip joint (DegreesToTicks sip joint d) h0 h1 htp hmax m1 m2
  exact ⟨e, by rw [e]⟩

/-- Witness of C16: 1000 degrees (clamped) on joint 4 of the sample calibration. -/
theorem tick_round_trip_witness :
    DegreesToTicks (calibratedSIP 5) 4
        (TicksToDegrees (calibratedSIP 5) 4 (DegreesToTicks (calibratedSIP 5) 4 1000)) =
      DegreesToTicks (calibratedSIP 5) 4 1000 :=
  (tick_round_trip (calibratedSIP 5) 4 1000 (by decide) (by decide) (by decide) (by decide)
    (by decide)).1

/-! ### Single frames through `SendReceive` -/

/-- `SendReceive` does not depend on the fuel outside `arm_initialize`. -/
theorem SendReceive_eq_body (P : Platform) (env : Env) (fuel : Nat) :
    ∃ nested, SendReceive P env fuel = SendReceive_body P env nested := by
  cases fuel with
  | zero => exact ⟨_, rfl⟩
  | succ n => exact ⟨_, rfl⟩

/-- C17. An unexpected frame is dropped and is not fatal: on a connected node,
when the received frame is not a standard SIP, not `SERAUX`, not `ARMPAC` and
not `ARMINFOPAC`, `SendReceive` returns, and the node afterwards is the node
before with only the send of `pkt` (if any) and the receive added to the
trace: nothing is sent after it, nothing is published, and `p2os_data`, the SIP
object, the arm buffers and the dirty flags are as before. -/
theorem unexpected_frame_dropped (P : Platform) (env : Env) (fuel : Nat) (s : P2OSNode)
    (pkt : Option P2OSPacket) (publish_data : Bool) (hc : connected s = true)
    (hok : (env.Receive (traceAfterSend s pkt)).err = false)
    (hstd : ¬ isStandardSIP (env.Receive (traceAfterSend s pkt)).packet)
    (haux : ¬ isPacketOfType P.SERAUX (env.Receive (traceAfterSend s pkt)).packet)
    (harm : ¬ isPacketOfType P.ARMPAC (env.Receive (traceAfterSend s pkt)).packet)
    (hinfo : ¬ isPacketOfType P.ARMINFOPAC (env.Receive (traceAfterSend s pkt)).packet) :
    SendReceive P env fuel s pkt publish_data =
      (.returned, { s with
        trace := Event.recv (env.Receive (traceAfterSend s pkt)) :: traceAfterSend s pkt }) ∧
    (SendReceive P env fuel s pkt publish_data).2.p2os_data = s.p2os_data ∧
    (SendReceive P env fuel s pkt publish_data).2.sippacket = s.sippacket ∧
    (SendReceive P env fuel s pkt publish_data).2.arm_pos = s.arm_pos ∧
    (SendReceive P env fuel s pkt publish_data).2.vel_dirty = s.vel_dirty ∧
    (SendReceive P env fuel s pkt publish_data).2.motor_dirty = s.motor_dirty ∧
    (SendReceive P env fuel s pkt publish_data).2.gripper_dirty_ = s.gripper_dirty_ := by
  have hfd : s.psos_fd ≥ 0 ∧ s.sippacket.isSome = true := by
    simpa [connected] using hc
  obtain ⟨sip, hsip⟩ := Option.isSome_iff_exists.mp hfd.2
  obtain ⟨nested, hb⟩ := SendReceive_eq_body P env fuel
  have key : SendReceive P env fuel s pkt publish_data =
      (.returned, { s with
        trace := Event.recv (env.Receive (traceAfterSend s pkt)) :: traceAfterSend s pkt }) := by
    rw [hb]
    unfold isStandardSIP at hstd
    unfold isPacketOfType at haux harm hinfo
    cases pkt with
    | none =>
      simp only [traceAfterSend] at hok hstd haux harm hinfo ⊢
      simp only [SendReceive_body, hsip, hfd.1, if_true, hok, hstd, haux, harm, hinfo,
        if_false, Bool.false_eq_true]
    | some p =>
      simp only [traceAfterSend] at hok hstd haux harm hinfo ⊢
      simp only [SendReceive_body, hsip, hfd.1, if_true, hok, hstd, haux, harm, hinfo,
        if_false, Bool.false_eq_true]
  rw [key]
  exact ⟨rfl, rfl, rfl, rfl, rfl, rfl, rfl⟩

/-- Witness of C17: a frame of type `0x99` received after a `PULSE`. -/
theorem unexpected_frame_dropped_witness :
    SendReceive samplePlatform strangeEnv 0 idleNode (some (.cmd .PULSE)) true =
      (.returned, { idleNode with trace :=
        [.recv ⟨false, [0xFA, 0xFB, 3, 0x99]⟩, .send (.cmd .PULSE)] }) :=
  (unexpected_frame_dropped samplePlatform strangeEnv 0 idleNode (some (.cmd .PULSE)) true
    rfl rfl (by unfold isStandardSIP; decide) (by unfold isPacketOfType; decide)
    (by unfold isPacketOfType; decide) (by unfold isPacketOfType; decide)).1

/-- C19. Fatal link failure: on a connected node, when the receive of
`SendReceive(NULL, true)` fails, the call does not return: the thread ends in
`pthread_exit` right after that one receive, with nothing decoded, `p2os_data`
and the SIP object as before, nothing published and nothing sent. -/
theorem receive_failure_is_fatal (P : Platform) (env : Env) (fuel : Nat) (s : P2OSNode)
    (hc : connected s = true) (herr : (env.Receive s.trace).err = true) :
    SendReceive P env fuel s none true =
      (.exited, { s with trace := Event.recv (env.Receive s.trace) :: s.trace }) ∧
    (SendReceive P env fuel s none true).1 ≠ .returned ∧
    (SendReceive P env fuel s none true).2.p2os_data = s.p2os_data ∧
    (SendReceive P env fuel s none true).2.sippacket = s.sippacket ∧
    numRecv (SendReceive P env fuel s none true).2.trace = numRecv s.trace + 1 := by
  have hfd : s.psos_fd ≥ 0 ∧ s.sippacket.isSome = true := by
    simpa [connected] using hc
  obtain ⟨sip, hsip⟩ := Option.isSome_iff_exists.mp hfd.2
  obtain ⟨nested, hb⟩ := SendReceive_eq_body P env fuel
  have key : SendReceive P env fuel s none true =
      (.exited, { s with trace := Event.recv (env.Receive s.trace) :: s.trace }) := by
    rw [hb]
    simp only [SendReceive_body, hsip, hfd.1, if_true, herr]
  rw [key]
  refine ⟨rfl, by simp, rfl, rfl, ?_⟩
  simp [numRecv]

/-- Witness of C19: the dead transport. -/
theorem receive_failure_is_fatal_witness :
    SendReceive samplePlatform allFailEnv 0 idleNode none true =
      (.exited, { idleNode with trace := [.recv ⟨true, [0xFF, 0xFF, 0xFF, 0xFF]⟩] }) :=
  (receive_failure_is_fatal samplePlatform allFailEnv 0 idleNode rfl rfl).1

/-! ### Shutdown -/

/-- C20 (counterexample). On a node with `psos_fd = -1` that still has a SIP
object, `Shutdown` returns -1 having sent neither `STOP` nor `CLOSE`, and the
SIP object is not cleared. -/
theorem shutdown_without_link_sends_nothing :
    offlineNode.psos_fd = -1 ∧ offlineNode.sippacket.isSome = true ∧
    Shutdown (fun s => (.returned, s)) offlineNode = (.returned, -1, offlineNode) ∧
    sentPackets (Shutdown (fun s => (.returned, s)) offlineNode).2.2.trace = [] ∧
    (Shutdown (fun s => (.returned, s)) offlineNode).2.2.sippacket.isSome = true :=
  ⟨rfl, rfl, rfl, rfl, rfl⟩

/-- C20 (amended). `Shutdown` is decided by `psos_fd`: with `psos_fd != -1` it
hands exactly `STOP` and then `CLOSE` to the transport, closes it, sets
`psos_fd = -1`, clears the SIP object and returns 0; with `psos_fd = -1` it
returns -1 and leaves the node as it is.  (With the PTZ unit on, this applies
to the node as `ptz_.shutdown()` leaves it.) -/
theorem shutdown_sequence (ptz_shutdown : P2OSNode → Res) (s : P2OSNode) :
    (s.psos_fd ≠ -1 →
      (Shutdown_link s).1 = 0 ∧
      (Shutdown_link s).2.trace =
        Event.close :: Event.send (.cmd .CLOSE) :: Event.send (.cmd .STOP) :: s.trace ∧
      emitted s.trace (Shutdown_link s).2.trace = [.cmd .STOP, .cmd .CLOSE] ∧
      (Shutdown_link s).2.psos_fd = -1 ∧
      (Shutdown_link s).2.sippacket = none) ∧
    (s.psos_fd = -1 → Shutdown_link s = (-1, s)) ∧
    (s.ptz_.is_on = false → Shutdown ptz_shutdown s = (.returned, Shutdown_link s)) ∧
    (s.ptz_.is_on = true → (ptz_shutdown s).1 = .returned →
      Shutdown ptz_shutdown s = (.returned, Shutdown_link (ptz_shutdown s).2)) := by
  refine ⟨?_, ?_, ?_, ?_⟩
  · intro h
    have e : Shutdown_link s = (0, { s with
        trace := Event.close :: Event.send (.cmd .CLOSE) :: Event.send (.cmd .STOP) :: s.trace
        psos_fd := -1
        sippacket := none }) := by
      simp only [Shutdown_link, if_neg h]
      split <;> rfl
    rw [e]
    refine ⟨rfl, rfl, ?_, rfl, rfl⟩
    apply emitted_of_append
    simp [sentPackets]
  · intro h
    simp only [Shutdown_link, if_pos h]
  · intro h
    simp [Shutdown, h]
  · intro h hr
    simp [Shutdown, h, hr]

/-- Witness of C20: shutting down the idle connected node. -/
theorem shutdown_sequence_witness :
    (Shutdown_link idleNode).1 = 0 ∧
    emitted idleNode.trace (Shutdown_link idleNode).2.trace = [.cmd .STOP, .cmd .CLOSE] ∧
    (Shutdown_link idleNode).2.psos_fd = -1 ∧
    (Shutdown_link idleNode).2.sippacket = none ∧
    Shutdown (fun s => (.returned, s)) idleNode = (.returned, Shutdown_link idleNode) :=
  ⟨((shutdown_sequence (fun s => (.returned, s)) idleNode).1 (by decide)).1,
   ((shutdown_sequence (fun s => (.returned, s)) idleNode).1 (by decide)).2.2.1,
   ((shutdown_sequence (fun s => (.returned, s)) idleNode).1 (by decide)).2.2.2.1,
   ((shutdown_sequence (fun s => (.returned, s)) idleNode).1 (by decide)).2.2.2.2,
   (shutdown_sequence (fun s => (.returned, s)) idleNode).2.2.1 rfl⟩

/-! ### The keep-alive pulse -/

theorem QuietAt_refl (c : Cmd) (s : P2OSNode) (st : Status) : QuietAt c s (st, s) :=
  ⟨id, rfl, [], by simp, rfl⟩

theorem connected_of_sameLink (a b : P2OSNode) (h : SameLink a b) (hc : connected b = true) :
    connected a = true := by
  obtain ⟨-, -, h3, h4⟩ := h
  have hfd : b.psos_fd ≥ 0 ∧ b.sippacket.isSome = true := by simpa [connected] using hc
  simp [connected, h3, hfd.1, h4 hfd.2]

/-- A run from a node that differs from `s` in members other than the trace,
`pulse` and the link. -/
theorem QuietAt_of_sameLink (c : Cmd) (s a : P2OSNode) (r : Res) (h : SameLink a s)
    (hr : QuietAt c a r) : QuietAt c s r := by
  obtain ⟨c1, p1, X, t, n⟩ := hr
  exact ⟨fun hc => c1 (connected_of_sameLink a s h hc), p1.trans h.2.1, X, by rw [t, h.1], n⟩

/-- A node that differs from the result of a run in members other than the
trace, `pulse` and the link. -/
theorem QuietAt_to_sameLink (c : Cmd) (s a : P2OSNode) (r : Res) (st : Status)
    (h : SameLink a r.2) (hr : QuietAt c s r) : QuietAt c s (st, a) := by
  obtain ⟨c1, p1, X, t, n⟩ := hr
  exact ⟨fun hc => connected_of_sameLink a r.2 h (c1 hc), h.2.1.trans p1, X,
    by rw [← t]; exact congrArg sentPackets h.1, n⟩

theorem QuietAt_andThen (c : Cmd) (s : P2OSNode) (r : Res) (g : P2OSNode → Res)
    (hr : QuietAt c s r) (hg : ∀ a, QuietAt c a (g a)) : QuietAt c s (r.andThen g) := by
  obtain ⟨c1, p1, X1, t1, n1⟩ := hr
  rcases andThen_cases r g with ⟨-, e⟩ | ⟨-, e⟩
  · simp only [e]
    obtain ⟨c2, p2, X2, t2, n2⟩ := hg r.2
    refine ⟨fun h => c2 (c1 h), p2.trans p1, X1 ++ X2, ?_, ?_⟩
    · rw [t2, t1, List.append_assoc]
    · rw [countCmd_append, n1, n2]
  · simp only [e]
    exact ⟨c1, p1, X1, t1, n1⟩

theorem QuietAt_SendReceive (P : Platform) (env : Env) (fuel : Nat) (c : Cmd)
    (h1 : c ≠ .ARM_POWER) (h2 : c ≠ .ARM_STATUS) (s : P2OSNode) (pkt : Option P2OSPacket)
    (hp : ∀ p, pkt = some p → p.op ≠ c) (pub : Bool) :
    QuietAt c s (SendReceive P env fuel s pkt pub) := by
  obtain ⟨a, k, extra, t, m⟩ := SendReceive_spec P env fuel s pkt pub
  refine ⟨k, pending_congr P2OSNode.pulse (fun _ => rfl) a,
    (if connected s = true then pkt.toList else []) ++ extra, ?_, ?_⟩
  · rw [t, List.append_assoc]
  · rw [countCmd_append, countCmd_armInit c extra m h1 h2]
    split
    · cases pkt with
      | none => simp [countCmd]
      | some p => simp [countCmd, hp p rfl]
    · simp [countCmd]

theorem QuietAt_check_and_set_vel (P : Platform) (env : Env) (fuel : Nat) (c : Cmd)
    (h1 : c ≠ .ARM_POWER) (h2 : c ≠ .ARM_STATUS) (h3 : c ≠ .VEL) (h4 : c ≠ .RVEL)
    (s : P2OSNode) : QuietAt c s (check_and_set_vel P env fuel s) := by
  unfold check_and_set_vel
  split
  · exact QuietAt_refl c s _
  · apply QuietAt_of_sameLink c s { s with vel_dirty := false } _ ⟨rfl, rfl, rfl, id⟩
    apply QuietAt_andThen
    · exact QuietAt_SendReceive P env fuel c h1 h2 _ _
        (fun p hp => by cases hp; rw [vel_command_op]; exact Ne.symm h3) true
    · intro a
      exact QuietAt_SendReceive P env fuel c h1 h2 _ _
        (fun p hp => by cases hp; rw [vel_command_op]; exact Ne.symm h4) true

theorem QuietAt_check_and_set_motor_state (P : Platform) (env : Env) (fuel : Nat) (c : Cmd)
    (h1 : c ≠ .ARM_POWER) (h2 : c ≠ .ARM_STATUS) (h3 : c ≠ .ENABLE)
    (s : P2OSNode) : QuietAt c s (check_and_set_motor_state P env fuel s) := by
  unfold check_and_set_motor_state
  split
  · exact QuietAt_refl c s _
  · apply QuietAt_of_sameLink c s { s with motor_dirty := false, p2os_data :=
      { s.p2os_data with motors_state := s.cmdmotor_state_ } } _ ⟨rfl, rfl, rfl, id⟩
    exact QuietAt_SendReceive P env fuel c h1 h2 _ _
      (fun p hp => by cases hp; exact Ne.symm h3) false

theorem QuietAt_check_and_set_gripper_state (P : Platform) (env : Env) (fuel : Nat) (c : Cmd)
    (h1 : c ≠ .ARM_POWER) (h2 : c ≠ .ARM_STATUS) (h3 : c ≠ .GRIPPER)
    (s : P2OSNode) : QuietAt c s (check_and_set_gripper_state P env fuel s) := by
  unfold check_and_set_gripper_state
  split
  · exact QuietAt_refl c s _
  · apply QuietAt_of_sameLink c s { s with gripper_dirty_ := false } _ ⟨rfl, rfl, rfl, id⟩
    apply QuietAt_andThen
    · exact QuietAt_SendReceive P env fuel c h1 h2 _ _
        (fun p hp => by cases hp; exact Ne.symm h3) false
    · intro a
      exact QuietAt_SendReceive P env fuel c h1 h2 _ _
        (fun p hp => by cases hp; exact Ne.symm h3) false

theorem QuietAt_write_arm_joint (P : Platform) (env : Env) (fuel : Nat) (c : Cmd)
    (h1 : c ≠ .ARM_POWER) (h2 : c ≠ .ARM_STATUS) (h3 : c ≠ .ARM_POS)
    (s : P2OSNode) (i : Nat) : QuietAt c s (write_arm_joint P env fuel s i) := by
  unfold write_arm_joint
  split
  · exact QuietAt_refl c s _
  · split
    · dsimp only
      split
      · apply QuietAt_andThen
        · exact QuietAt_SendReceive P env fuel c h1 h2 _ _
            (fun p hp => by cases hp; exact Ne.symm h3) true
        · intro a
          split
          · exact QuietAt_refl c a _
          · split
            · exact QuietAt_to_sameLink c a _ (.returned, a) _ ⟨rfl, rfl, rfl, fun _ => rfl⟩
                (QuietAt_refl c a .returned)
            · exact QuietAt_refl c a _
      · exact QuietAt_refl c s _
    · exact QuietAt_refl c s _

theorem QuietAt_write_arm_loop (P : Platform) (env : Env) (fuel : Nat) (c : Cmd)
    (h1 : c ≠ .ARM_POWER) (h2 : c ≠ .ARM_STATUS) (h3 : c ≠ .ARM_POS) (n : Nat) :
    ∀ (i : Nat) (s : P2OSNode), QuietAt c s (write_arm_loop P env fuel n i s) := by
  induction n with
  | zero => intro i s; exact QuietAt_refl c s _
  | succ n ih =>
    intro i s
    unfold write_arm_loop
    split
    · exact QuietAt_refl c s _
    · split
      · exact QuietAt_andThen c s _ _ (QuietAt_write_arm_joint P env fuel c h1 h2 h3 s i)
          (fun a => ih (i + 1) a)
      · exact QuietAt_refl c s _

theorem QuietAt_check_and_set_arm_state (P : Platform) (env : Env) (fuel : Nat) (c : Cmd)
    (h1 : c ≠ .ARM_POWER) (h2 : c ≠ .ARM_STATUS) (h3 : c ≠ .ARM_POS)
    (cm_update : P2OSNode → List ℚ) (s : P2OSNode) :
    QuietAt c s (check_and_set_arm_state P env fuel cm_update s) := by
  unfold check_and_set_arm_state
  split
  · apply QuietAt_andThen
    · obtain ⟨q1, q2, q3, q4⟩ := read_arm_state_frame P s
      refine ⟨?_, pending_congr P2OSNode.pulse (fun _ => rfl) q1, [], by rw [q2]; simp, rfl⟩
      intro hc
      have hfd : s.psos_fd ≥ 0 ∧ s.sippacket.isSome = true := by simpa [connected] using hc
      have := q4 hfd.2
      simp [connected, q3, hfd.1, this]
    · intro a
      exact QuietAt_of_sameLink c a { a with arm_cmd := cm_update a } _ ⟨rfl, rfl, rfl, id⟩
        (QuietAt_write_arm_loop P env fuel c h1 h2 h3 256 0 _)
  · exact QuietAt_refl c s _

/-- The four `check_and_set_*` calls of a pass of the main loop hand no `PULSE`
to the transport. -/
theorem QuietAt_main_dispatch (P : Platform) (env : Env) (fuel : Nat)
    (cm_update : P2OSNode → List ℚ) (s : P2OSNode) :
    QuietAt .PULSE s (main_dispatch P env fuel cm_update s) := by
  unfold main_dispatch
  apply QuietAt_andThen
  · exact QuietAt_check_and_set_vel P env fuel .PULSE (by decide) (by decide) (by decide)
      (by decide) s
  · intro a
    apply QuietAt_andThen
    · exact QuietAt_check_and_set_motor_state P env fuel .PULSE (by decide) (by decide)
        (by decide) a
    · intro b
      apply QuietAt_andThen
      · exact QuietAt_check_and_set_gripper_state P env fuel .PULSE (by decide) (by decide)
          (by decide) b
      · intro d
        exact QuietAt_check_and_set_arm_state P env fuel .PULSE (by decide) (by decide)
          (by decide) cm_update d

/-- `SendPulse` followed by the `SendReceive(NULL, true)` of the main loop, on a
connected node: exactly one `PULSE` is handed to the transport. -/
theorem pulse_then_listen (P : Platform) (env : Env) (fuel : Nat) (a : P2OSNode)
    (hc : connected a = true) :
    ∃ Y, sentPackets ((SendPulse P env fuel a).andThen fun s =>
        SendReceive P env fuel s none true).2.trace = sentPackets a.trace ++ Y ∧
      countCmd .PULSE Y = 1 := by
  obtain ⟨-, -, extra, t, m⟩ := SendReceive_spec P env fuel a (some (.cmd .PULSE)) true
  simp only [hc, if_true, Option.toList_some] at t
  have hx : countCmd .PULSE extra = 0 := countCmd_armInit .PULSE extra m (by decide) (by decide)
  rcases andThen_cases (SendPulse P env fuel a) (fun s => SendReceive P env fuel s none true)
    with ⟨-, e⟩ | ⟨-, e⟩
  · rw [e]
    obtain ⟨-, -, Z, t2, n2⟩ := QuietAt_SendReceive P env fuel .PULSE (by decide) (by decide)
      (SendPulse P env fuel a).2 none (fun p hp => by cases hp) true
    refine ⟨[.cmd .PULSE] ++ extra ++ Z, ?_, ?_⟩
    · rw [t2]; unfold SendPulse; rw [t]; simp
    · rw [countCmd_append, countCmd_append, hx, n2]; rfl
  · rw [e]
    refine ⟨[.cmd .PULSE] ++ extra, ?_, ?_⟩
    · unfold SendPulse; rw [t]; simp
    · rw [countCmd_append, hx]; rfl

/-- C18 (counterexample). With `pulse = 5` and `pulseCounter = 5`, a pass of the
main loop in which a motor command is sent also sends `PULSE`, right after it:
the command does not postpone the keep-alive. -/
theorem pulse_sent_right_after_command :
    motorNode.pulse = 5 ∧
    sentPackets (main_tick samplePlatform statusEnv 0 (fun s => s.arm_cmd) motorNode 5).1.2.trace =
      [.cmd4 .ENABLE .ARGINT 1 0, .cmd .PULSE] ∧
    (main_tick samplePlatform statusEnv 0 (fun s => s.arm_cmd) motorNode 5).2 = 0 := by
  have hp : (main_dispatch samplePlatform statusEnv 0 (fun s => s.arm_cmd) motorNode).2.pulse = 5 :=
    rfl
  have h : ((5 + 1 : Int) : ℚ) > (5 : ℚ) := by norm_num
  refine ⟨rfl, ?_, ?_⟩
  · simp only [main_tick, hp]
    rw [if_pos h]
    rfl
  · simp only [main_tick, hp]
    rw [if_pos h]

/-- C18 (amended). Keep-alive cadence: in a pass of the main loop on a
connected node whose four `check_and_set_*` calls return, a `PULSE` frame is
handed to the transport exactly when the pass counter `pulseCounter`, after its
increment, exceeds the configured `pulse`; the counter is then reset to 0, else
kept incremented.  Packets sent by the `check_and_set_*` calls do not enter the
test. -/
theorem keepalive_cadence (P : Platform) (env : Env) (fuel : Nat)
    (cm_update : P2OSNode → List ℚ) (s : P2OSNode) (pulseCounter : Int)
    (hc : connected s = true)
    (hret : (main_dispatch P env fuel cm_update s).1 = .returned) :
    countCmd .PULSE (emitted s.trace (main_tick P env fuel cm_update s pulseCounter).1.2.trace) =
      (if ((pulseCounter + 1 : Int) : ℚ) > s.pulse then 1 else 0) ∧
    (main_tick P env fuel cm_update s pulseCounter).2 =
      (if ((pulseCounter + 1 : Int) : ℚ) > s.pulse then 0 else pulseCounter + 1) := by
  obtain ⟨c1, p1, X, t, n⟩ := QuietAt_main_dispatch P env fuel cm_update s
  have hr : ∀ g : P2OSNode → Res, (main_dispatch P env fuel cm_update s).andThen g =
      g (main_dispatch P env fuel cm_update s).2 := by
    intro g
    rcases andThen_cases (main_dispatch P env fuel cm_update s) g with ⟨-, e⟩ | ⟨h, -⟩
    · exact e
    · exact absurd hret h
  unfold main_tick
  simp only [p1, hr]
  by_cases h : ((pulseCounter + 1 : Int) : ℚ) > s.pulse
  · simp only [if_pos h]
    obtain ⟨Y, tY, nY⟩ := pulse_then_listen P env fuel _ (c1 hc)
    refine ⟨?_, trivial⟩
    rw [emitted_of_append s.trace _ (X ++ Y) (by rw [tY, t, List.append_assoc]),
      countCmd_append, n, nY]
  · simp only [if_neg h]
    obtain ⟨-, -, Z, t2, n2⟩ := QuietAt_SendReceive P env fuel .PULSE (by decide) (by decide)
      (main_dispatch P env fuel cm_update s).2 none (fun p hp => by cases hp) true
    refine ⟨?_, trivial⟩
    rw [emitted_of_append s.trace _ (X ++ Z) (by rw [t2, t, List.append_assoc]),
      countCmd_append, n, n2]

/-- Witness of C18: the idle node in its sixth pass since the last `PULSE`. -/
theorem keepalive_cadence_witness :
    countCmd .PULSE (emitted idleNode.trace
      (main_tick samplePlatform statusEnv 0 (fun s => s.arm_cmd) idleNode 5).1.2.trace) =
      (if ((5 + 1 : Int) : ℚ) > idleNode.pulse then 1 else 0) ∧
    (main_tick samplePlatform statusEnv 0 (fun s => s.arm_cmd) idleNode 5).2 =
      (if ((5 + 1 : Int) : ℚ) > idleNode.pulse then 0 else 5 + 1) :=
  keepalive_cadence samplePlatform statusEnv 0 (fun s => s.arm_cmd) idleNode 5 rfl rfl

/-- `RadiansToTicks` reads only the number of joints and the calibration. -/
theorem RadiansToTicks_congr (P : Platform) (a b : SIP)
    (h1 : a.armNumJoints = b.armNumJoints) (h2 : a.armJoints = b.armJoints)
    (joint : Int) (rads : ℚ) : RadiansToTicks P a joint rads = RadiansToTicks P b joint rads := by
  simp only [RadiansToTicks, DegreesToTicks, unclampedTicks, armJoint, h1, h2]

theorem getD_set_ne (T : List Nat) (i j v : Nat) (h : i ≠ j) :
    (T.set i v).getD j 0 = T.getD j 0 := by
  simp [List.getD_eq_getElem?_getD, List.getElem?_set, h]

theorem getD_set_self (T : List Nat) (i v : Nat) (h : i < T.length) :
    (T.set i v).getD i 0 = v := by
  simp [List.getD_eq_getElem?_getD, List.getElem?_set, h]

theorem set_getD_self (T : List Nat) (i : Nat) (h : i < T.length) :
    T.set i (T.getD i 0) = T := by
  apply List.ext_getElem?
  intro j
  by_cases hj : i = j
  · subst hj
    simp [List.getElem?_set, h, List.getD_eq_getElem?_getD]
  · simp [List.getElem?_set, hj]

/-- One pass of the second loop of `read_arm_state` on a node whose vectors hold
all joints: it stays inside them. -/
theorem read_arm_joint_view (P : Platform) (sip0 : SIP) (C : List ℚ) (T : List Nat)
    (sip : SIP) (s : P2OSNode) (i : Nat) (hv : ArmView sip0 C T s)
    (hs : s.sippacket = some sip) (hi : i < sip0.armNumJoints) :
    ∃ s3, read_arm_joint P sip s i = some s3 ∧ ArmView sip0 C T s3 ∧
      s3.sippacket = some sip := by
  obtain ⟨hfd, hc, l1, l2, l3, sip1, hs1, n1, j1, t1, p1, m1⟩ := hv
  have e : sip1 = sip := by rw [hs] at hs1; exact (Option.some.inj hs1).symm
  subst e
  have hcond : i < sip1.armJointPos.length ∧ i < sip1.armJointMoving.length ∧
      i < s.arm_pos.length ∧ i < s.arm_vel.length ∧ i < s.arm_eff.length := by
    refine ⟨?_, ?_, ?_, ?_, ?_⟩ <;> omega
  unfold read_arm_joint
  rw [if_pos hcond]
  refine ⟨_, rfl, ?_, hs⟩
  refine ⟨hfd, hc, ?_, ?_, ?_, sip1, hs, n1, j1, t1, p1, m1⟩
  · simpa using l1
  · simpa using l2
  · simpa using l3

/-- The second loop of `read_arm_state` on a node whose vectors hold all joints. -/
theorem read_arm_fold_view (P : Platform) (sip0 : SIP) (C : List ℚ) (T : List Nat)
    (sip : SIP) (l : List Nat) (hl : ∀ i ∈ l, i < sip0.armNumJoints) :
    ∀ r : Res, r.1 = .returned → ArmView sip0 C T r.2 → r.2.sippacket = some sip →
      (l.foldl (fun (r : Res) i => r.andThen fun s2 =>
        match read_arm_joint P sip s2 i with
        | some s3 => (.returned, s3)
        | none => (.fault, s2)) r).1 = .returned ∧
      ArmView sip0 C T (l.foldl (fun (r : Res) i => r.andThen fun s2 =>
        match read_arm_joint P sip s2 i with
        | some s3 => (.returned, s3)
        | none => (.fault, s2)) r).2 := by
  induction l with
  | nil => intro r h1 h2 _; exact ⟨h1, h2⟩
  | cons i l ih =>
    intro r h1 h2 h3
    simp only [List.foldl_cons]
    obtain ⟨s3, e3, v3, k3⟩ := read_arm_joint_view P sip0 C T sip r.2 i h2 h3
      (hl i (List.mem_cons_self i l))
    have hstep : (r.andThen fun s2 =>
        match read_arm_joint P sip s2 i with
        | some s3 => (.returned, s3)
        | none => (.fault, s2)) = (.returned, s3) := by
      rcases andThen_cases r (fun s2 =>
        match read_arm_joint P sip s2 i with
        | some s3 => (.returned, s3)
        | none => (.fault, s2)) with ⟨-, e⟩ | ⟨h, -⟩
      · rw [e]; simp only [e3]
      · exact absurd h1 h
    rw [hstep]
    exact ih (fun j hj => hl j (List.mem_cons_of_mem i hj)) (.returned, s3) rfl v3 k3

/-- `read_arm_state` on a node whose vectors hold all joints returns, and keeps
the joint commands, the calibration and the last sent targets. -/
theorem read_arm_state_view (P : Platform) (sip0 : SIP) (C : List ℚ) (T : List Nat)
    (s : P2OSNode) (hv : ArmView sip0 C T s) :
    (read_arm_state P s).1 = .returned ∧ ArmView sip0 C T (read_arm_state P s).2 := by
  obtain ⟨hfd, hc, l1, l2, l3, sip1, hs1, n1, j1, t1, p1, m1⟩ := hv
  unfold read_arm_state
  rw [hs1]
  dsimp only
  apply read_arm_fold_view P sip0 C T _ _ _ _ rfl _ rfl
  · intro i hi
    have := List.mem_range.mp hi
    omega
  · exact ⟨hfd, hc, l1, l2, l3, _, rfl, n1, j1, t1, p1, m1⟩

/-- The body of `SendReceive` on a node with an arm view, when no receive fails,
no `ARMINFOPAC` frame arrives and the decoders keep the arm description: the call
returns, the view is kept, and the packet alone is handed to the transport. -/
theorem SendReceive_body_view (P : Platform) (env : Env)
    (nested : P2OSNode → Option P2OSPacket → Bool → Res)
    (hE : ∀ h, (env.Receive h).err = false)
    (hA : ∀ h, ¬ isPacketOfType P.ARMINFOPAC (env.Receive h).packet)
    (hS : KeepsArm P.ParseStandard) (hP : KeepsArm P.ParseArm)
    (sip0 : SIP) (C : List ℚ) (T : List Nat)
    (s : P2OSNode) (pkt : Option P2OSPacket) (publish_data : Bool)
    (hv : ArmView sip0 C T s) :
    (SendReceive_body P env nested s pkt publish_data).1 = .returned ∧
    ArmView sip0 C T (SendReceive_body P env nested s pkt publish_data).2 ∧
    sentPackets (SendReceive_body P env nested s pkt publish_data).2.trace =
      sentPackets s.trace ++ pkt.toList := by
  obtain ⟨hfd, hc, l1, l2, l3, sip, hs, n1, j1, t1, p1, m1⟩ := hv
  unfold SendReceive_body
  split
  · rename_i h
    rw [hs] at h
    cases h
  rename_i sip9 hs9
  have e9 : sip = sip9 := by rw [hs] at hs9; exact Option.some.inj hs9
  subst e9
  have hfd2 : s.psos_fd ≥ 0 := hfd
  simp only [hfd2, if_true]
  generalize hs1 : (match pkt with
    | some p => { s with trace := Event.send p :: s.trace }
    | none => s) = s1
  have q1 : s1.pending = s.pending := by subst hs1; cases pkt <;> rfl
  have f1 : s1.psos_fd = s.psos_fd := pending_congr P2OSNode.psos_fd (fun _ => rfl) q1
  have c1 : s1.arm_cmd = s.arm_cmd := by subst hs1; cases pkt <;> rfl
  have a1 : s1.arm_pos = s.arm_pos := by subst hs1; cases pkt <;> rfl
  have a2 : s1.arm_vel = s.arm_vel := by subst hs1; cases pkt <;> rfl
  have a3 : s1.arm_eff = s.arm_eff := by subst hs1; cases pkt <;> rfl
  have tr1 : sentPackets s1.trace = sentPackets s.trace ++ pkt.toList := by
    subst hs1; cases pkt <;> simp
  generalize hr : env.Receive s1.trace = r
  have he : r.err = false := by rw [← hr]; exact hE _
  have ha : ¬ isPacketOfType P.ARMINFOPAC r.packet := by rw [← hr]; exact hA _
  have base : ∀ (s2 : P2OSNode) (sip2 : SIP), s2.psos_fd = s1.psos_fd →
      s2.arm_cmd = s1.arm_cmd → s2.arm_pos = s1.arm_pos → s2.arm_vel = s1.arm_vel →
      s2.arm_eff = s1.arm_eff → s2.sippacket = some sip2 →
      (sip2.armNumJoints = sip.armNumJoints ∧ sip2.armJoints = sip.armJoints ∧
        sip2.armJointTargetPos = sip.armJointTargetPos ∧
        sip2.armJointPos.length = sip.armJointPos.length ∧
        sip2.armJointMoving.length = sip.armJointMoving.length) →
      sentPackets s2.trace = sentPackets s1.trace →
      ArmView sip0 C T s2 ∧ sentPackets s2.trace = sentPackets s.trace ++ pkt.toList := by
    intro s2 sip2 b1 b2 b3 b4 b5 b6 ⟨k1, k2, k3, k4, k5⟩ b7
    refine ⟨⟨?_, ?_, ?_, ?_, ?_, sip2, b6, ?_, ?_, ?_, ?_, ?_⟩, ?_⟩
    · rw [b1, f1]; exact hfd
    · rw [b2, c1]; exact hc
    · rw [b3, a1]; exact l1
    · rw [b4, a2]; exact l2
    · rw [b5, a3]; exact l3
    · rw [k1]; exact n1
    · rw [k2]; exact j1
    · rw [k3]; exact t1
    · rw [k4]; exact p1
    · rw [k5]; exact m1
    · rw [b7]; exact tr1
  have same : sip.armNumJoints = sip.armNumJoints ∧ sip.armJoints = sip.armJoints ∧
        sip.armJointTargetPos = sip.armJointTargetPos ∧
        sip.armJointPos.length = sip.armJointPos.length ∧
        sip.armJointMoving.length = sip.armJointMoving.length := ⟨rfl, rfl, rfl, rfl, rfl⟩
  have hsome1 : s1.sippacket = some sip := by subst hs1; cases pkt <;> exact hs
  split
  · rename_i h
    rw [he] at h
    cases h
  · split
    · split
      · exact ⟨rfl, base (StandardSIPPutData { s1 with
            trace := Event.recv r :: s1.trace
            sippacket := some (P.ParseStandard sip (r.packet.drop 3))
            p2os_data := P.FillStandard (P.ParseStandard sip (r.packet.drop 3)) s1.p2os_data })
          _ rfl rfl rfl rfl rfl rfl (hS sip _) (by simp [StandardSIPPutData])⟩
      · exact ⟨rfl, base { s1 with
            trace := Event.recv r :: s1.trace
            sippacket := some (P.ParseStandard sip (r.packet.drop 3))
            p2os_data := P.FillStandard (P.ParseStandard sip (r.packet.drop 3)) s1.p2os_data }
          _ rfl rfl rfl rfl rfl rfl (hS sip _) (by simp)⟩
    · split
      · split
        · split
          · exact ⟨rfl, base { s1 with trace := Event.recv r :: s1.trace } sip
              rfl rfl rfl rfl rfl hsome1 same (by simp)⟩
          · exact ⟨rfl, base { s1 with
                trace := Event.recv r :: s1.trace
                ptz_ := { s1.ptz_ with cb_ := ((List.range ((byteAt r.packet 2 : Int) - 3).toNat).map
                  fun k => byteAt r.packet (4 + k)).foldl P.putOnBuf s1.ptz_.cb_ } } sip
              rfl rfl rfl rfl rfl hsome1 same (by simp)⟩
        · exact ⟨rfl, base { s1 with trace := Event.recv r :: s1.trace } sip
            rfl rfl rfl rfl rfl hsome1 same (by simp)⟩
      · split
        · have v3 := (base { s1 with
              trace := Event.recv r :: s1.trace
              sippacket := some (P.ParseArm sip (r.packet.drop 2)) }
            _ rfl rfl rfl rfl rfl rfl (hP sip _) (by simp))
          split
          · obtain ⟨w1, w2⟩ := read_arm_state_view P sip0 C T _ v3.1
            refine ⟨w1, w2, ?_⟩
            rw [(read_arm_state_frame P _).2.1]
            exact v3.2
          · exact ⟨rfl, v3⟩
        · split
          · rename_i h
            exact absurd h ha
          · exact ⟨rfl, base { s1 with trace := Event.recv r :: s1.trace } sip
              rfl rfl rfl rfl rfl hsome1 same (by simp)⟩

/-- `SendReceive` on a node with an arm view, for every fuel. -/
theorem SendReceive_view (P : Platform) (env : Env) (fuel : Nat)
    (hE : ∀ h, (env.Receive h).err = false)
    (hA : ∀ h, ¬ isPacketOfType P.ARMINFOPAC (env.Receive h).packet)
    (hS : KeepsArm P.ParseStandard) (hP : KeepsArm P.ParseArm)
    (sip0 : SIP) (C : List ℚ) (T : List Nat)
    (s : P2OSNode) (pkt : Option P2OSPacket) (publish_data : Bool)
    (hv : ArmView sip0 C T s) :
    (SendReceive P env fuel s pkt publish_data).1 = .returned ∧
    ArmView sip0 C T (SendReceive P env fuel s pkt publish_data).2 ∧
    sentPackets (SendReceive P env fuel s pkt publish_data).2.trace =
      sentPackets s.trace ++ pkt.toList := by
  cases fuel with
  | zero => exact SendReceive_body_view P env _ hE hA hS hP sip0 C T s pkt publish_data hv
  | succ fuel => exact SendReceive_body_view P env _ hE hA hS hP sip0 C T s pkt publish_data hv

/-- One pass through the loop of `write_arm_state`: the joint's command is sent
exactly when its tick differs from the last sent target, and the target then
holds the tick. -/
theorem write_arm_joint_view (P : Platform) (env : Env) (fuel : Nat)
    (hE : ∀ h, (env.Receive h).err = false)
    (hA : ∀ h, ¬ isPacketOfType P.ARMINFOPAC (env.Receive h).packet)
    (hS : KeepsArm P.ParseStandard) (hP : KeepsArm P.ParseArm)
    (sip0 : SIP) (C : List ℚ) (T : List Nat) (s : P2OSNode) (i : Nat)
    (hv : ArmView sip0 C T s) (hi : i < sip0.armNumJoints)
    (hC : sip0.armNumJoints ≤ C.length) (hT : sip0.armNumJoints ≤ T.length) :
    (write_arm_joint P env fuel s i).1 = .returned ∧
    ArmView sip0 C (T.set i (arm_tick P sip0 C i)) (write_arm_joint P env fuel s i).2 ∧
    sentPackets (write_arm_joint P env fuel s i).2.trace =
      sentPackets s.trace ++ (arm_frame P sip0 C T i).toList := by
  have hv0 := hv
  obtain ⟨hfd, hc, l1, l2, l3, sip, hs, n1, j1, t1, p1, m1⟩ := hv
  have hpos : RadiansToTicks P sip (i : Int) (s.arm_cmd.getD i 0) = arm_tick P sip0 C i := by
    unfold arm_tick
    rw [hc]
    exact RadiansToTicks_congr P sip sip0 n1 j1 _ _
  have hiT : i < T.length := by omega
  have hcond : i < s.arm_cmd.length ∧ i < sip.armJointTargetPos.length := by
    rw [hc, t1]
    exact ⟨by omega, hiT⟩
  unfold write_arm_joint
  rw [hs]
  dsimp only
  rw [if_pos hcond, hpos, t1]
  unfold arm_frame
  by_cases hd : arm_tick P sip0 C i ≠ T.getD i 0
  · rw [if_pos hd, if_pos hd]
    obtain ⟨r1, ⟨g1, g2, g3, g4, g5, sip1, k0, k1, k2, k3, k4, k5⟩, r3⟩ :=
      SendReceive_view P env fuel hE hA hS hP sip0 C T s
        (some (arm_pos_command (arm_tick P sip0 C i) i)) true hv0
    rcases andThen_cases
      (SendReceive P env fuel s (some (arm_pos_command (arm_tick P sip0 C i) i)) true)
      (fun s1 =>
        match s1.sippacket with
        | none => (.fault, s1)
        | some sip1 =>
          if i < sip1.armJointTargetPos.length then
            (.returned, { s1 with sippacket := some { sip1 with
              armJointTargetPos := sip1.armJointTargetPos.set i (arm_tick P sip0 C i) } })
          else (.fault, s1)) with ⟨-, e⟩ | ⟨h, -⟩
    · rw [e]
      simp only [k0]
      have hi1 : i < sip1.armJointTargetPos.length := by rw [k3]; exact hiT
      rw [if_pos hi1]
      refine ⟨rfl, ⟨g1, g2, g3, g4, g5, _, rfl, k1, k2, ?_, k4, k5⟩, ?_⟩
      · show sip1.armJointTargetPos.set i _ = _
        rw [k3]
      · exact r3
    · exact absurd r1 h
  · rw [if_neg hd, if_neg hd]
    have hd2 : arm_tick P sip0 C i = T.getD i 0 := not_not.mp hd
    refine ⟨rfl, ?_, by simp⟩
    rw [hd2, set_getD_self T i hiT]
    exact hv0

/-- The loop of `write_arm_state` from joint `i` on, with enough passes left. -/
theorem write_arm_loop_view (P : Platform) (env : Env) (fuel : Nat)
    (hE : ∀ h, (env.Receive h).err = false)
    (hA : ∀ h, ¬ isPacketOfType P.ARMINFOPAC (env.Receive h).packet)
    (hS : KeepsArm P.ParseStandard) (hP : KeepsArm P.ParseArm)
    (sip0 : SIP) (C : List ℚ) (hC : sip0.armNumJoints ≤ C.length) (k : Nat) :
    ∀ (i : Nat) (T : List Nat) (s : P2OSNode), ArmView sip0 C T s →
      sip0.armNumJoints ≤ T.length → i ≤ sip0.armNumJoints → sip0.armNumJoints - i < k →
      ∃ T1, (write_arm_loop P env fuel k i s).1 = .returned ∧
        ArmView sip0 C T1 (write_arm_loop P env fuel k i s).2 ∧
        T1.length = T.length ∧
        (∀ j, i ≤ j → j < sip0.armNumJoints → T1.getD j 0 = arm_tick P sip0 C j) ∧
        (∀ j, j < i → T1.getD j 0 = T.getD j 0) ∧
        sentPackets (write_arm_loop P env fuel k i s).2.trace =
          sentPackets s.trace ++
            (List.range' i (sip0.armNumJoints - i)).filterMap (arm_frame P sip0 C T) := by
  induction k with
  | zero => intro i T s _ _ _ h; omega
  | succ k ih =>
    intro i T s hv hT hi hk
    have hv0 := hv
    obtain ⟨hfd, hc, l1, l2, l3, sip, hs, n1, j1, t1, p1, m1⟩ := hv
    unfold write_arm_loop
    rw [hs]
    dsimp only
    rw [n1]
    by_cases hlt : i < sip0.armNumJoints
    · rw [if_pos hlt]
      obtain ⟨w1, w2, w3⟩ := write_arm_joint_view P env fuel hE hA hS hP sip0 C T s i hv0 hlt hC hT
      rcases andThen_cases (write_arm_joint P env fuel s i)
        (write_arm_loop P env fuel k (i + 1)) with ⟨-, e⟩ | ⟨h, -⟩
      · rw [e]
        obtain ⟨T1, u1, u2, u3, u4, u5, u6⟩ := ih (i + 1) (T.set i (arm_tick P sip0 C i))
          (write_arm_joint P env fuel s i).2 w2 (by simpa using hT) (by omega) (by omega)
        refine ⟨T1, u1, u2, by simpa using u3, ?_, ?_, ?_⟩
        · intro j hj1 hj2
          by_cases hji : j = i
          · subst hji
            rw [u5 j (by omega)]
            exact getD_set_self T j _ (by omega)
          · exact u4 j (by omega) hj2
        · intro j hj
          rw [u5 j (by omega)]
          exact getD_set_ne T i j _ (by omega)
        · rw [u6, w3, List.append_assoc]
          congr 1
          have hsplit : sip0.armNumJoints - i = (sip0.armNumJoints - (i + 1)) + 1 := by omega
          rw [hsplit, List.range'_succ, List.filterMap_cons]
          have htail : (List.range' (i + 1) (sip0.armNumJoints - (i + 1))).filterMap
              (arm_frame P sip0 C (T.set i (arm_tick P sip0 C i))) =
              (List.range' (i + 1) (sip0.armNumJoints - (i + 1))).filterMap
              (arm_frame P sip0 C T) := by
            apply List.filterMap_congr
            intro j hj
            have hj1 : i + 1 ≤ j := (List.mem_range'_1.mp hj).1
            unfold arm_frame
            rw [getD_set_ne T i j _ (by omega)]
          rw [htail]
          cases arm_frame P sip0 C T i <;> rfl
      · exact absurd w1 h
    · rw [if_neg hlt]
      have hz : sip0.armNumJoints - i = 0 := by omega
      refine ⟨T, rfl, hv0, rfl, ?_, fun _ _ => rfl, ?_⟩
      · intro j hj1 hj2
        omega
      · rw [hz]
        simp

/-- The cast `(unsigned char)(i + 1)` of `command[3] = i + 1` is `i + 1` for a
joint index below 255. -/
theorem u8_succ (i : Nat) (h : i < 255) : u8 ((i : Int) + 1) = i + 1 := by
  unfold u8
  omega

/-- The frames of the loop of `write_arm_state`, started at joint 0, are the
frames of the specification. -/
theorem arm_frames_eq_diff (P : Platform) (sip : SIP) (C : List ℚ)
    (hn : sip.armNumJoints ≤ 255) :
    (List.range' 0 (sip.armNumJoints - 0)).filterMap (arm_frame P sip C sip.armJointTargetPos) =
      arm_diff_frames P sip C := by
  unfold arm_diff_frames
  rw [Nat.sub_zero, ← List.range_eq_range']
  apply List.filterMap_congr
  intro i hi
  have hi1 : i < sip.armNumJoints := List.mem_range.mp hi
  unfold arm_frame arm_pos_command
  rw [u8_succ i (by omega)]

/-- C12. Arm dispatch diff.  On a node with an open link whose arm vectors and
SIP arm arrays hold all `armNumJoints ≤ 255` joints, with a transport on which
no receive fails and no `ARMINFOPAC` frame arrives during the call, and with SIP
decoders that keep the arm description: `write_arm_state` returns, and the
frames it hands to the transport are exactly, in increasing joint order, the
frame `[ARM_POS, ARGINT, tick, i+1]` for each joint `i < armNumJoints` whose
`tick = RadiansToTicks(i, arm_cmd[i])` differs from `armJointTargetPos[i]`.
Afterwards the joint commands and the calibration are unchanged and
`armJointTargetPos[i] = tick` for every joint, and a repeated call returns and
hands no frame to the transport. -/
theorem arm_dispatch_diff (P : Platform) (env : Env) (fuel : Nat) (s : P2OSNode) (sip : SIP)
    (hE : ∀ h, (env.Receive h).err = false)
    (hA : ∀ h, ¬ isPacketOfType P.ARMINFOPAC (env.Receive h).packet)
    (hS : KeepsArm P.ParseStandard) (hP : KeepsArm P.ParseArm)
    (hfd : 0 ≤ s.psos_fd) (hs : s.sippacket = some sip)
    (hn : sip.armNumJoints ≤ 255)
    (hC : sip.armNumJoints ≤ s.arm_cmd.length)
    (hT : sip.armNumJoints ≤ sip.armJointTargetPos.length)
    (h1 : sip.armNumJoints ≤ s.arm_pos.length)
    (h2 : sip.armNumJoints ≤ s.arm_vel.length)
    (h3 : sip.armNumJoints ≤ s.arm_eff.length)
    (h4 : sip.armNumJoints ≤ sip.armJointPos.length)
    (h5 : sip.armNumJoints ≤ sip.armJointMoving.length) :
    (write_arm_state P env fuel s).1 = .returned ∧
    emitted s.trace (write_arm_state P env fuel s).2.trace = arm_diff_frames P sip s.arm_cmd ∧
    (write_arm_state P env fuel s).2.arm_cmd = s.arm_cmd ∧
    (∃ sip1, (write_arm_state P env fuel s).2.sippacket = some sip1 ∧
      sip1.armNumJoints = sip.armNumJoints ∧ sip1.armJoints = sip.armJoints ∧
      ∀ i, i < sip.armNumJoints →
        sip1.armJointTargetPos.getD i 0 = RadiansToTicks P sip (i : Int) (s.arm_cmd.getD i 0)) ∧
    (write_arm_state P env fuel (write_arm_state P env fuel s).2).1 = .returned ∧
    emitted (write_arm_state P env fuel s).2.trace
      (write_arm_state P env fuel (write_arm_state P env fuel s).2).2.trace = [] := by
  have hv : ArmView sip s.arm_cmd sip.armJointTargetPos s :=
    ⟨hfd, rfl, h1, h2, h3, sip, hs, rfl, rfl, rfl, h4, h5⟩
  unfold write_arm_state
  obtain ⟨T1, u1, u2, u3, u4, u5, u6⟩ := write_arm_loop_view P env fuel hE hA hS hP sip s.arm_cmd
    hC 256 0 sip.armJointTargetPos s hv hT (Nat.zero_le _) (by omega)
  obtain ⟨T2, v1, v2, v3, v4, v5, v6⟩ := write_arm_loop_view P env fuel hE hA hS hP sip s.arm_cmd
    hC 256 0 T1 (write_arm_loop P env fuel 256 0 s).2 u2 (by omega) (Nat.zero_le _) (by omega)
  have hquiet : (List.range' 0 (sip.armNumJoints - 0)).filterMap
      (arm_frame P sip s.arm_cmd T1) = [] := by
    rw [List.filterMap_eq_nil_iff]
    intro j hj
    have hj1 : j < sip.armNumJoints := by
      have := (List.mem_range'_1.mp hj).2
      omega
    unfold arm_frame
    rw [if_neg (not_not.mpr (u4 j (Nat.zero_le _) hj1).symm)]
  refine ⟨u1, ?_, ?_, ?_, v1, ?_⟩
  · rw [emitted_of_append _ _ _ u6]
    exact arm_frames_eq_diff P sip s.arm_cmd hn
  · exact u2.2.1
  · obtain ⟨-, -, -, -, -, sip1, k0, k1, k2, k3, -, -⟩ := u2
    refine ⟨sip1, k0, k1, k2, ?_⟩
    intro i hi
    rw [k3]
    exact u4 i (Nat.zero_le _) hi
  · rw [hquiet] at v6
    exact emitted_of_append _ _ _ v6

/-- The tick of a joint of `armSIP` commanded to 0 rad is its centre, 100. -/
theorem arm_tick_centre (i : Nat) (hi : i < 2) : arm_tick samplePlatform armSIP [0, 0] i = 100 := by
  have hz : ([0, 0] : List ℚ).getD i 0 = 0 := by
    interval_cases i <;> rfl
  have hcal : armJoint armSIP (i : Int) = ⟨0, 0, 0, 100, 200, 90⟩ := by
    interval_cases i <;> rfl
  have hr : RTOD samplePlatform 0 = 0 := by simp [RTOD]
  have hu : unclampedTicks armSIP (i : Int) 0 = 100 := by
    have e : ((90 : ℕ) : ℚ) * 0 / 90 = ((0 : Int) : ℚ) := by norm_num
    simp only [unclampedTicks, hcal, e, cround_intCast]
    split <;> norm_num
  obtain ⟨-, -, c3⟩ := DegreesToTicks_cases armSIP (i : Int) 0 (by omega)
    (by show (i : Int) < (2 : Nat); omega) (by rw [hcal]; decide)
  have e := c3 (by rw [hu, hcal]; norm_num) (by rw [hu, hcal]; norm_num)
  rw [hu] at e
  have e2 : DegreesToTicks armSIP (i : Int) 0 = 100 := by exact_mod_cast e
  unfold arm_tick RadiansToTicks
  rw [hz, hr, e2]

/-- The frames of the specification for `armNode`: joint 1 alone, with tick 100. -/
theorem arm_diff_frames_example :
    arm_diff_frames samplePlatform armSIP armNode.arm_cmd = [.cmd4 .ARM_POS .ARGINT 100 2] := by
  have e : armNode.arm_cmd = [0, 0] := rfl
  have n : armSIP.armNumJoints = 2 := rfl
  have r : List.range 2 = [0, 1] := rfl
  unfold arm_diff_frames
  rw [e, n, r]
  simp only [List.filterMap_cons, List.filterMap_nil, arm_tick_centre 0 (by decide),
    arm_tick_centre 1 (by decide)]
  rfl

/-- Witness of C12: the two-joint arm of `armNode`; joint 0 is at its target,
joint 1 is not, and one frame `[ARM_POS, ARGINT, 100, 2]` is sent. -/
theorem arm_dispatch_diff_witness :
    (write_arm_state samplePlatform statusEnv 0 armNode).1 = .returned ∧
    emitted armNode.trace (write_arm_state samplePlatform statusEnv 0 armNode).2.trace =
      [.cmd4 .ARM_POS .ARGINT 100 2] ∧
    emitted (write_arm_state samplePlatform statusEnv 0 armNode).2.trace
      (write_arm_state samplePlatform statusEnv 0
        (write_arm_state samplePlatform statusEnv 0 armNode).2).2.trace = [] :=
  have h := arm_dispatch_diff samplePlatform statusEnv 0 armNode armSIP (fun _ => rfl)
    (fun _ h => absurd (show byteAt [0xFA, 0xFB, 3, 0x32] 3 = 0xA1 from h.2.2) (by decide))
    (fun _ _ => ⟨rfl, rfl, rfl, rfl, rfl⟩) (fun _ _ => ⟨rfl, rfl, rfl, rfl, rfl⟩)
    (by decide) rfl (by decide) (by decide) (by decide) (by decide) (by decide) (by decide)
    (by decide) (by decide)
  ⟨h.1, h.2.1.trans arm_diff_frames_example, h.2.2.2.2.2⟩

/-- C21. Battery health thresholds: for a raw reading `b` (tenths of a volt)
`check_voltage` reports one level with the voltage `b / 10`: `ERROR` exactly
when the voltage is below 11.0, `WARN` exactly when it is at least 11.0 and
below 11.75, `OK` exactly when it is at least 11.75; and for a second reading
that is not smaller the level is not more severe. -/
theorem battery_thresholds (s1 s2 : P2OSNode) (sip1 sip2 : SIP)
    (h1 : s1.sippacket = some sip1) (h2 : s2.sippacket = some sip2) :
    ∃ l1 l2, check_voltage s1 = some (l1, (sip1.battery : ℚ) / 10) ∧
      check_voltage s2 = some (l2, (sip2.battery : ℚ) / 10) ∧
      (l1 = .ERROR ↔ (sip1.battery : ℚ) / 10 < 11) ∧
      (l1 = .WARN ↔ 11 ≤ (sip1.battery : ℚ) / 10 ∧ (sip1.battery : ℚ) / 10 < 47 / 4) ∧
      (l1 = .OK ↔ 47 / 4 ≤ (sip1.battery : ℚ) / 10) ∧
      (sip1.battery ≤ sip2.battery → l2.rank ≤ l1.rank) := by
  have key : ∀ (s : P2OSNode) (sip : SIP), s.sippacket = some sip →
      ∃ l, check_voltage s = some (l, (sip.battery : ℚ) / 10) ∧
        (l = .ERROR ↔ (sip.battery : ℚ) / 10 < 11) ∧
        (l = .WARN ↔ 11 ≤ (sip.battery : ℚ) / 10 ∧ (sip.battery : ℚ) / 10 < 47 / 4) ∧
        (l = .OK ↔ 47 / 4 ≤ (sip.battery : ℚ) / 10) := by
    intro s sip hs
    unfold check_voltage
    rw [hs]
    dsimp only
    by_cases ha : (sip.battery : ℚ) / 10 < 11
    · refine ⟨.ERROR, by rw [if_pos ha], by simp [ha], ?_, ?_⟩
      · constructor
        · intro h; cases h
        · intro h; exact absurd ha (not_lt.mpr h.1)
      · constructor
        · intro h; cases h
        · intro h; linarith
    · by_cases hb : (sip.battery : ℚ) / 10 < 47 / 4
      · refine ⟨.WARN, by rw [if_neg ha, if_pos hb], ?_, ?_, ?_⟩
        · constructor
          · intro h; cases h
          · intro h; exact absurd h ha
        · simp [not_lt.mp ha, hb]
        · constructor
          · intro h; cases h
          · intro h; exact absurd hb (not_lt.mpr h)
      · refine ⟨.OK, by rw [if_neg ha, if_neg hb], ?_, ?_, ?_⟩
        · constructor
          · intro h; cases h
          · intro h; exact absurd h ha
        · constructor
          · intro h; cases h
          · intro h; exact absurd h.2 hb
        · simp [not_lt.mp hb]
  obtain ⟨l1, e1, a1, b1, c1⟩ := key s1 sip1 h1
  obtain ⟨l2, e2, a2, b2, c2⟩ := key s2 sip2 h2
  refine ⟨l1, l2, e1, e2, a1, b1, c1, ?_⟩
  intro hle
  have hq : (sip1.battery : ℚ) / 10 ≤ (sip2.battery : ℚ) / 10 := by
    have : (sip1.battery : ℚ) ≤ (sip2.battery : ℚ) := by exact_mod_cast hle
    linarith
  cases l1 with
  | ERROR => cases l2 <;> simp [DiagLevel.rank]
  | WARN =>
    cases l2 with
    | ERROR =>
      have := a2.mp rfl
      have := (b1.mp rfl).1
      linarith
    | WARN => simp [DiagLevel.rank]
    | OK => simp [DiagLevel.rank]
  | OK =>
    have h3 := c1.mp rfl
    cases l2 with
    | ERROR =>
      have := a2.mp rfl
      linarith
    | WARN =>
      have := (b2.mp rfl).2
      linarith
    | OK => simp [DiagLevel.rank]

/-- Witness of C21: readings 117 (11.7 V) and 118 (11.8 V) on either side of the
`OK` threshold. -/
theorem battery_thresholds_witness :
    ∃ l1 l2,
      check_voltage { idleNode with sippacket := some { calibratedSIP 0 with battery := 117 } } =
        some (l1, ((117 : Nat) : ℚ) / 10) ∧
      check_voltage { idleNode with sippacket := some { calibratedSIP 0 with battery := 118 } } =
        some (l2, ((118 : Nat) : ℚ) / 10) ∧
      (l1 = .ERROR ↔ ((117 : Nat) : ℚ) / 10 < 11) ∧
      (l1 = .WARN ↔ 11 ≤ ((117 : Nat) : ℚ) / 10 ∧ ((117 : Nat) : ℚ) / 10 < 47 / 4) ∧
      (l1 = .OK ↔ 47 / 4 ≤ ((117 : Nat) : ℚ) / 10) ∧
      (117 ≤ 118 → l2.rank ≤ l1.rank) :=
  battery_thresholds { idleNode with sippacket := some { calibratedSIP 0 with battery := 117 } }
    { idleNode with sippacket := some { calibratedSIP 0 with battery := 118 } }
    { calibratedSIP 0 with battery := 117 } { calibratedSIP 0 with battery := 118 } rfl rfl

/-- Events other than `send` add nothing to the packets sent. -/
theorem sentPackets_other (e : Event) (tr : List Event) (h : ∀ p, e ≠ .send p) :
    sentPackets (e :: tr) = sentPackets tr := by
  cases e with
  | send p => exact absurd rfl (h p)
  | recv r => simp [sentPackets]
  | setBaud i => simp [sentPackets]
  | fcntl => simp [sentPackets]
  | tcflush => simp [sentPackets]
  | close => simp [sentPackets]
  | publish d => simp [sentPackets]

/-- Sending a sync command and receiving keep the `CLOSE` bound. -/
theorem sync_send_closeBound (env : Env) (s s1 : SyncState) (h : sync_send env s = some s1)
    (hb : CloseBound s) :
    CloseBound s1 ∧ CloseBound (sync_receive env s1).2 ∧ CloseBound s.closeFd := by
  have hclose : CloseBound s.closeFd := by
    unfold CloseBound closesSent SyncState.closeFd at *
    simpa [sentPackets_other] using hb
  have h1 : CloseBound s1 := by
    unfold sync_send at h
    unfold CloseBound closesSent at *
    split at h
    · cases h
      simpa [SyncState.send, countCmd, P2OSPacket.cmd] using hb
    · split at h
      · cases h
        simpa [SyncState.send, countCmd, P2OSPacket.cmd, sentPackets_other] using hb
      · cases h
    · cases h
      simpa [SyncState.send, countCmd, P2OSPacket.cmd] using hb
    · cases h
      exact hb
  refine ⟨h1, ?_, hclose⟩
  unfold CloseBound closesSent sync_receive at *
  simpa using h1

/-- The switch on the received opcode keeps the `CLOSE` bound. -/
theorem sync_switch_closeBound (K : Consts) (s : SyncState) (hb : CloseBound s) :
    CloseBound (sync_switch K s) := by
  unfold sync_switch
  dsimp only
  split
  · exact hb
  · split
    · exact hb
    · split
      · exact hb
      · split
        · rename_i hsc
          have hf : s.sent_close = false := by simpa using hsc
          unfold CloseBound closesSent at *
          rw [hf] at hb
          simp only [Bool.false_eq_true, if_false, Nat.le_zero] at hb
          simp [SyncState.send, sentPackets_other, countCmd, P2OSPacket.cmd] at hb ⊢
          exact hb
        · exact hb

/-- A pass through the loop body of `Setup` keeps the `CLOSE` bound. -/
theorem Setup_iter_closeBound (K : Consts) (env : Env) (s : SyncState) (hb : CloseBound s) :
    CloseBound (Setup_iter K env s).state := by
  unfold Setup_iter
  split
  · rename_i hn
    unfold CloseBound closesSent SyncState.closeFd IterResult.state at *
    simpa [sentPackets_other] using hb
  · rename_i s1 hs1
    obtain ⟨-, h2, -⟩ := sync_send_closeBound env s s1 hs1 hb
    have h3 := sync_switch_closeBound K _ h2
    have hbaud : CloseBound
        { (sync_receive env s1).2 with
          currbaud := (sync_receive env s1).2.currbaud + 1
          trace := Event.setBaud ((sync_receive env s1).2.currbaud + 1) ::
            (sync_receive env s1).2.trace } := by
      unfold CloseBound closesSent at *
      simpa [sentPackets_other] using h2
    dsimp only
    split
    · split
      · exact h2
      · split
        · split
          · unfold CloseBound closesSent SyncState.closeFd IterResult.state at *
            simpa [sentPackets_other] using hbaud
          · split
            · unfold CloseBound closesSent SyncState.closeFd IterResult.state at *
              simpa [sentPackets_other] using hbaud
            · unfold CloseBound closesSent IterResult.state at *
              simpa [sentPackets_other] using hbaud
        · exact h2
    · exact h3

/-- A pass through the loop body of `SetupTCP` keeps the `CLOSE` bound. -/
theorem SetupTCP_iter_closeBound (K : Consts) (env : Env) (s : SyncState) (hb : CloseBound s) :
    CloseBound (SetupTCP_iter K env s).state := by
  unfold SetupTCP_iter
  split
  · unfold CloseBound closesSent SyncState.closeFd IterResult.state at *
    simpa [sentPackets_other] using hb
  · rename_i s1 hs1
    obtain ⟨-, h2, -⟩ := sync_send_closeBound env s s1 hs1 hb
    have h3 := sync_switch_closeBound K _ h2
    dsimp only
    split
    · exact h2
    · exact h3

/-- The loop keeps whatever its body keeps. -/
theorem sync_loop_invariant (iter : SyncState → IterResult) (I : SyncState → Prop)
    (hI : ∀ s, I s → I (iter s).state) (n : Nat) :
    ∀ s, I s → I (sync_loop iter n s).state := by
  induction n with
  | zero => intro s hs; exact hs
  | succ n ih =>
    intro s hs
    unfold sync_loop
    split
    · exact hs
    · have h := hI s hs
      split
      · rename_i s1 e
        rw [e] at h
        exact ih s1 h
      · rename_i s1 e
        rw [e] at h
        exact h
      · rename_i s1 e
        rw [e] at h
        exact h

/-- C24. `CLOSE` is issued at most once per connection attempt: whatever the
transport does and however long the handshake loop of `Setup` or of `SetupTCP`
runs, it has sent at most one `CLOSE` frame. -/
theorem close_sent_at_most_once (K : Consts) (env : Env) (fuel : Nat) (fd : Int)
    (buf : List Nat) :
    countCmd .CLOSE
      (sentPackets (sync_loop (Setup_iter K env) fuel (Setup_init fd buf)).state.trace) ≤ 1 ∧
    countCmd .CLOSE
      (sentPackets (sync_loop (SetupTCP_iter K env) fuel (SetupTCP_init fd buf)).state.trace)
        ≤ 1 := by
  have b1 : CloseBound (Setup_init fd buf) := by
    simp [CloseBound, closesSent, Setup_init, sentPackets_other, countCmd]
  have b2 : CloseBound (SetupTCP_init fd buf) := by
    simp [CloseBound, closesSent, SetupTCP_init, countCmd]
  have r1 := sync_loop_invariant (Setup_iter K env) CloseBound
    (Setup_iter_closeBound K env) fuel _ b1
  have r2 := sync_loop_invariant (SetupTCP_iter K env) CloseBound
    (SetupTCP_iter_closeBound K env) fuel _ b2
  unfold CloseBound closesSent at r1 r2
  constructor
  · refine le_trans r1 ?_
    split <;> omega
  · refine le_trans r2 ?_
    split <;> omega

/-- Sending the sync command of the current state changes neither the state nor
the `sent_close` flag. -/
theorem sync_send_state (env : Env) (s s1 : SyncState) (h : sync_send env s = some s1) :
    s1.psos_state = s.psos_state ∧ s1.sent_close = s.sent_close ∧
      closesSent s1 = closesSent s := by
  unfold sync_send at h
  split at h
  · cases h
    exact ⟨rfl, rfl, by simp [closesSent, SyncState.send, countCmd, P2OSPacket.cmd]⟩
  · split at h
    · cases h
      exact ⟨rfl, rfl, by
        simp [closesSent, SyncState.send, countCmd, P2OSPacket.cmd, sentPackets_other]⟩
    · cases h
  · cases h
    exact ⟨rfl, rfl, by simp [closesSent, SyncState.send, countCmd, P2OSPacket.cmd]⟩
  · cases h
    exact ⟨rfl, rfl, rfl⟩

/-- The switch on the received opcode: the state it leaves, by the opcode. -/
theorem sync_switch_cases (K : Consts) (s : SyncState) :
    (sync_switch K s).receivedpacket = s.receivedpacket ∧
    (((sync_switch K s).psos_state = .AFTER_FIRST_SYNC ∧
        byteAt s.receivedpacket 3 = K.code .SYNC0) ∨
     ((sync_switch K s).psos_state = .AFTER_SECOND_SYNC ∧
        byteAt s.receivedpacket 3 = K.code .SYNC1) ∨
     ((sync_switch K s).psos_state = .READY ∧ byteAt s.receivedpacket 3 = K.code .SYNC2) ∨
     (byteAt s.receivedpacket 3 ≠ K.code .SYNC0 ∧ byteAt s.receivedpacket 3 ≠ K.code .SYNC1 ∧
        byteAt s.receivedpacket 3 ≠ K.code .SYNC2 ∧
        (sync_switch K s).psos_state = (if s.sent_close then s.psos_state else .NO_SYNC) ∧
        (sync_switch K s).sent_close = true ∧
        closesSent (sync_switch K s) = closesSent s + (if s.sent_close then 0 else 1))) := by
  unfold sync_switch
  dsimp only
  split
  · rename_i h
    exact ⟨rfl, Or.inl ⟨rfl, h⟩⟩
  · split
    · rename_i h
      exact ⟨rfl, Or.inr (Or.inl ⟨rfl, h⟩)⟩
    · split
      · rename_i h
        exact ⟨rfl, Or.inr (Or.inr (Or.inl ⟨rfl, h⟩))⟩
      · rename_i g0 g1 g2
        split
        · rename_i hsc
          have hf : s.sent_close = false := by simpa using hsc
          refine ⟨rfl, Or.inr (Or.inr (Or.inr ⟨g0, g1, g2, ?_, rfl, ?_⟩))⟩
          · simp [hf]
          · simp [hf, closesSent, SyncState.send, sentPackets_other, countCmd, P2OSPacket.cmd]
        · rename_i hsc
          have ht : s.sent_close = true := by simpa using hsc
          refine ⟨rfl, Or.inr (Or.inr (Or.inr ⟨g0, g1, g2, ?_, ht, ?_⟩))⟩
          · simp [ht]
          · simp [ht]

/-- A pass through the loop body of `Setup` or `SetupTCP` that goes on to the
next pass either leaves the state as it was or went through the switch on the
received opcode. -/
theorem iter_next_cases (K : Consts) (env : Env) (s s1 : SyncState)
    (h : Setup_iter K env s = .next s1 ∨ SetupTCP_iter K env s = .next s1) :
    s1.psos_state = s.psos_state ∨
      ∃ s0, s0.psos_state = s.psos_state ∧ s1 = sync_switch K s0 := by
  rcases h with h | h
  · unfold Setup_iter at h
    split at h
    · cases h
    · rename_i s9 hs9
      obtain ⟨q1, -, -⟩ := sync_send_state env s s9 hs9
      dsimp only at h
      split at h
      · split at h
        · cases h
          left
          exact q1
        · split at h
          · split at h
            · cases h
            · split at h
              · cases h
              · cases h
                left
                exact q1
          · cases h
      · cases h
        right
        exact ⟨(sync_receive env s9).2, q1, rfl⟩
  · unfold SetupTCP_iter at h
    split at h
    · cases h
    · rename_i s9 hs9
      obtain ⟨q1, -, -⟩ := sync_send_state env s s9 hs9
      dsimp only at h
      split at h
      · cases h
        left
        exact q1
      · cases h
        right
        exact ⟨(sync_receive env s9).2, q1, rfl⟩

/-- A pass through the loop body that starts outside `READY` ends in `READY`
only with `SYNC2` in the opcode byte of the receive buffer. -/
theorem iter_ready_only_on_sync2 (K : Consts) (env : Env)
    (iter : SyncState → IterResult) (hiter : iter = Setup_iter K env ∨ iter = SetupTCP_iter K env)
    (s : SyncState) (hs : s.psos_state ≠ .READY) :
    (iter s).state.psos_state = .READY →
      byteAt (iter s).state.receivedpacket 3 = K.code .SYNC2 := by
  intro hr
  have hstay : ∀ t : SyncState, t.psos_state = s.psos_state → t.psos_state ≠ .READY :=
    fun t ht => by rw [ht]; exact hs
  have hsw : ∀ t : SyncState, t.psos_state = s.psos_state →
      (sync_switch K t).psos_state = .READY →
      byteAt (sync_switch K t).receivedpacket 3 = K.code .SYNC2 := by
    intro t ht hrt
    obtain ⟨e, c⟩ := sync_switch_cases K t
    rw [e]
    rcases c with ⟨c1, -⟩ | ⟨c1, -⟩ | ⟨-, c2⟩ | ⟨-, -, -, c1, -, -⟩
    · rw [hrt] at c1; cases c1
    · rw [hrt] at c1; cases c1
    · exact c2
    · rw [hrt] at c1
      split at c1
      · exact absurd c1.symm (hstay t ht)
      · cases c1
  cases hn : iter s with
  | next s1 =>
    rw [hn] at hr
    have hc := iter_next_cases K env s s1 (by
      rcases hiter with e | e
      · left; rw [← e]; exact hn
      · right; rw [← e]; exact hn)
    rcases hc with hc | ⟨s0, h0, e0⟩
    · exact absurd hr (hstay s1 hc)
    · show byteAt s1.receivedpacket 3 = _
      rw [e0]
      exact hsw s0 h0 (by rw [← e0]; exact hr)
  | brk s1 =>
    rw [hn] at hr
    exfalso
    rcases hiter with e | e
    · rw [e] at hn
      unfold Setup_iter at hn
      split at hn
      · cases hn
      · rename_i s9 hs9
        obtain ⟨q1, -, -⟩ := sync_send_state env s s9 hs9
        dsimp only at hn
        split at hn
        · split at hn
          · cases hn
          · split at hn
            · split at hn
              · cases hn
              · split at hn
                · cases hn
                · cases hn
            · cases hn
              exact hstay _ q1 hr
        · cases hn
    · rw [e] at hn
      unfold SetupTCP_iter at hn
      split at hn
      · cases hn
      · dsimp only at hn
        split at hn
        · cases hn
        · cases hn
  | ret1 s1 =>
    rw [hn] at hr
    exfalso
    rcases hiter with e | e
    · rw [e] at hn
      unfold Setup_iter at hn
      split at hn
      · cases hn
        exact hs hr
      · rename_i s9 hs9
        obtain ⟨q1, -, -⟩ := sync_send_state env s s9 hs9
        dsimp only at hn
        split at hn
        · split at hn
          · cases hn
          · split at hn
            · split at hn
              · cases hn
                exact hstay _ q1 hr
              · split at hn
                · cases hn
                  exact hstay _ q1 hr
                · cases hn
            · cases hn
        · cases hn
    · rw [e] at hn
      unfold SetupTCP_iter at hn
      split at hn
      · cases hn
        exact hs hr
      · dsimp only at hn
        split at hn
        · cases hn
        · cases hn

/-- The loop keeps what its body establishes on every pass started outside
`READY`. -/
theorem sync_loop_guarded (iter : SyncState → IterResult) (I : SyncState → Prop)
    (hI : ∀ s, s.psos_state ≠ .READY → I (iter s).state) (n : Nat) :
    ∀ s, I s → I (sync_loop iter n s).state := by
  induction n with
  | zero => intro s hs; exact hs
  | succ n ih =>
    intro s hs
    unfold sync_loop
    split
    · exact hs
    · rename_i hne
      have h := hI s hne
      split
      · rename_i s1 e
        rw [e] at h
        exact ih s1 h
      · rename_i s1 e
        rw [e] at h
        exact h
      · rename_i s1 e
        rw [e] at h
        exact h

/-- The check after the loop reports `ready` only for a loop that ended in
`READY`. -/
theorem sync_finish_ready (r : LoopResult) (s : SyncState) (h : sync_finish r = .ready s) :
    r.state = s ∧ s.psos_state = .READY := by
  unfold sync_finish at h
  split at h
  · cases h
  · cases h
  · rename_i s1
    split at h
    · cases h
    · rename_i hne
      cases h
      exact ⟨rfl, not_not.mp hne⟩

/-- C22 (counterexample). A robot whose first frame carries `SYNC2` takes `Setup`
and `SetupTCP` from `NO_SYNC` straight to `READY`: one frame received, `SYNC0`
alone sent, neither `SYNC0` nor `SYNC1` ever received. -/
theorem ready_entered_from_no_sync :
    Setup_sync p2osConsts (scriptEnv [2]) 2 3 [] =
      .ready { psos_state := .READY, num_sync_attempts := 3, currbaud := 0,
               sent_close := false, receivedpacket := [0xFA, 0xFB, 3, 2], psos_fd := 3,
               trace := [.recv ⟨false, [0xFA, 0xFB, 3, 2]⟩, .send (.cmd .SYNC0),
                         .setBaud 0] } ∧
    SetupTCP_sync p2osConsts (scriptEnv [2]) 2 3 [] =
      .ready { psos_state := .READY, num_sync_attempts := 3, currbaud := 0,
               sent_close := false, receivedpacket := [0xFA, 0xFB, 3, 2], psos_fd := 3,
               trace := [.recv ⟨false, [0xFA, 0xFB, 3, 2]⟩, .send (.cmd .SYNC0)] } := by
  decide

/-- C22 (amended). The link state follows the received opcode alone.  A pass
through the loop body of `Setup` or `SetupTCP` that changes the state leaves
`AFTER_FIRST_SYNC` only with `SYNC0` in the receive buffer, `AFTER_SECOND_SYNC`
only with `SYNC1`, `READY` only with `SYNC2`, and `NO_SYNC` only with none of the
three, whatever the state before; and every run that reaches `READY` has `SYNC2`
as the opcode of the last frame received. -/
theorem sync_state_follows_opcode (K : Consts) (env : Env) (fd : Int) (buf : List Nat) :
    (∀ s s1, (Setup_iter K env s = .next s1 ∨ SetupTCP_iter K env s = .next s1) →
      s1.psos_state ≠ s.psos_state →
      (s1.psos_state = .AFTER_FIRST_SYNC ∧ byteAt s1.receivedpacket 3 = K.code .SYNC0) ∨
      (s1.psos_state = .AFTER_SECOND_SYNC ∧ byteAt s1.receivedpacket 3 = K.code .SYNC1) ∨
      (s1.psos_state = .READY ∧ byteAt s1.receivedpacket 3 = K.code .SYNC2) ∨
      (s1.psos_state = .NO_SYNC ∧ byteAt s1.receivedpacket 3 ≠ K.code .SYNC0 ∧
        byteAt s1.receivedpacket 3 ≠ K.code .SYNC1 ∧
        byteAt s1.receivedpacket 3 ≠ K.code .SYNC2)) ∧
    (∀ fuel s, (Setup_sync K env fuel fd buf = .ready s ∨
        SetupTCP_sync K env fuel fd buf = .ready s) →
      s.psos_state = .READY ∧ byteAt s.receivedpacket 3 = K.code .SYNC2) := by
  constructor
  · intro s s1 h hne
    rcases iter_next_cases K env s s1 h with hc | ⟨s0, h0, e0⟩
    · exact absurd hc hne
    · obtain ⟨e, c⟩ := sync_switch_cases K s0
      rw [e0, e]
      rw [e0] at hne
      rcases c with c | c | c | ⟨g0, g1, g2, c1, -, -⟩
      · exact Or.inl c
      · exact Or.inr (Or.inl c)
      · exact Or.inr (Or.inr (Or.inl c))
      · refine Or.inr (Or.inr (Or.inr ⟨?_, g0, g1, g2⟩))
        rw [c1]
        split
        · rename_i hsc
          rw [c1, if_pos hsc, h0] at hne
          exact absurd rfl hne
        · rfl
  · intro fuel s h
    have inv : ∀ (iter : SyncState → IterResult),
        (iter = Setup_iter K env ∨ iter = SetupTCP_iter K env) → ∀ s0 : SyncState,
        s0.psos_state = .NO_SYNC →
        ((sync_loop iter fuel s0).state.psos_state = .READY →
          byteAt (sync_loop iter fuel s0).state.receivedpacket 3 = K.code .SYNC2) := by
      intro iter hiter s0 h0
      apply sync_loop_guarded iter
        (fun t => t.psos_state = .READY → byteAt t.receivedpacket 3 = K.code .SYNC2)
      · intro t ht
        exact iter_ready_only_on_sync2 K env iter hiter t ht
      · intro hr
        rw [h0] at hr
        cases hr
    rcases h with h | h
    · obtain ⟨e, hr⟩ := sync_finish_ready _ s h
      refine ⟨hr, ?_⟩
      have := inv (Setup_iter K env) (Or.inl rfl) (Setup_init fd buf) rfl
      rw [e] at this
      exact this hr
    · obtain ⟨e, hr⟩ := sync_finish_ready _ s h
      refine ⟨hr, ?_⟩
      have := inv (SetupTCP_iter K env) (Or.inr rfl) (SetupTCP_init fd buf) rfl
      rw [e] at this
      exact this hr

/-- Witness of C22: the run of `Setup` on a robot whose first frame carries
`SYNC2`. -/
theorem sync_state_follows_opcode_witness :
    ∃ s, Setup_sync p2osConsts (scriptEnv [2]) 2 3 [] = .ready s ∧
      s.psos_state = .READY ∧ byteAt s.receivedpacket 3 = p2osConsts.code .SYNC2 :=
  ⟨{ psos_state := .READY, num_sync_attempts := 3, currbaud := 0,
     sent_close := false, receivedpacket := [0xFA, 0xFB, 3, 2], psos_fd := 3,
     trace := [.recv ⟨false, [0xFA, 0xFB, 3, 2]⟩, .send (.cmd .SYNC0), .setBaud 0] },
   by decide,
   (sync_state_follows_opcode p2osConsts (scriptEnv [2]) 3 []).2 2 _ (Or.inl (by decide))⟩

/-- C23 (counterexample). `Setup` on a robot that answers with an unknown opcode
(`0x99`), then `SYNC0`, then the unknown opcode again: the first unknown frame
sends `CLOSE`; the third pass receives a valid frame with an opcode that is none
of `SYNC0`, `SYNC1`, `SYNC2`, and the state after it is `AFTER_FIRST_SYNC`, not
`NO_SYNC`. -/
theorem unexpected_opcode_keeps_state :
    (sync_loop (Setup_iter p2osConsts (scriptEnv [0x99, 0, 0x99])) 2
      (Setup_init 3 [])).state.psos_state = .AFTER_FIRST_SYNC ∧
    (sync_loop (Setup_iter p2osConsts (scriptEnv [0x99, 0, 0x99])) 2
      (Setup_init 3 [])).state.sent_close = true ∧
    (sync_loop (Setup_iter p2osConsts (scriptEnv [0x99, 0, 0x99])) 3
      (Setup_init 3 [])).state.receivedpacket = [0xFA, 0xFB, 3, 0x99] ∧
    (sync_loop (Setup_iter p2osConsts (scriptEnv [0x99, 0, 0x99])) 3
      (Setup_init 3 [])).state.psos_state = .AFTER_FIRST_SYNC ∧
    (sync_loop (SetupTCP_iter p2osConsts (scriptEnv [0x99, 0, 0x99])) 3
      (SetupTCP_init 3 [])).state.receivedpacket = [0xFA, 0xFB, 3, 0x99] ∧
    (sync_loop (SetupTCP_iter p2osConsts (scriptEnv [0x99, 0, 0x99])) 3
      (SetupTCP_init 3 [])).state.psos_state = .AFTER_FIRST_SYNC := by
  decide

/-- C23 (amended). A pass through the loop body of `Setup` or `SetupTCP` that
receives a valid frame whose opcode is none of `SYNC0`, `SYNC1`, `SYNC2` resets
the state to `NO_SYNC`, sending `CLOSE`, when no `CLOSE` was sent earlier in the
attempt; when one was, it sends nothing more and leaves the state as it was. -/
theorem unexpected_opcode_resets_once (K : Consts) (env : Env) (s s1 : SyncState)
    (hsend : sync_send env s = some s1)
    (herr : (env.Receive s1.trace).err = false)
    (h0 : byteAt (env.Receive s1.trace).packet 3 ≠ K.code .SYNC0)
    (h1 : byteAt (env.Receive s1.trace).packet 3 ≠ K.code .SYNC1)
    (h2 : byteAt (env.Receive s1.trace).packet 3 ≠ K.code .SYNC2) :
    ∃ s2, Setup_iter K env s = .next s2 ∧ SetupTCP_iter K env s = .next s2 ∧
      s2.psos_state = (if s.sent_close then s.psos_state else .NO_SYNC) ∧
      s2.sent_close = true ∧
      closesSent s2 = closesSent s + (if s.sent_close then 0 else 1) := by
  obtain ⟨q1, q2, q3⟩ := sync_send_state env s s1 hsend
  refine ⟨sync_switch K (sync_receive env s1).2, ?_, ?_, ?_⟩
  · unfold Setup_iter
    rw [hsend]
    simp [sync_receive, herr]
  · unfold SetupTCP_iter
    rw [hsend]
    simp [sync_receive, herr]
  · obtain ⟨-, c⟩ := sync_switch_cases K (sync_receive env s1).2
    have hb : byteAt (sync_receive env s1).2.receivedpacket 3 =
        byteAt (env.Receive s1.trace).packet 3 := rfl
    have hsc : (sync_receive env s1).2.sent_close = s.sent_close := q2
    have hst : (sync_receive env s1).2.psos_state = s.psos_state := q1
    have hcl : closesSent (sync_receive env s1).2 = closesSent s := by
      rw [← q3]
      simp [closesSent, sync_receive]
    rw [hb] at c
    rcases c with ⟨-, c⟩ | ⟨-, c⟩ | ⟨-, c⟩ | ⟨-, -, -, c1, c2, c3⟩
    · exact absurd c h0
    · exact absurd c h1
    · exact absurd c h2
    · rw [hsc, hst] at c1
      rw [hsc, hcl] at c3
      exact ⟨c1, c2, c3⟩

/-- Witness of C23: the first pass of `Setup` on a robot that answers `SYNC0`
with the unknown opcode `0x99`. -/
theorem unexpected_opcode_resets_once_witness :
    ∃ s2, Setup_iter p2osConsts (scriptEnv [0x99]) (Setup_init 3 []) = .next s2 ∧
      SetupTCP_iter p2osConsts (scriptEnv [0x99]) (Setup_init 3 []) = .next s2 ∧
      s2.psos_state = (if (Setup_init 3 []).sent_close then (Setup_init 3 []).psos_state
        else .NO_SYNC) ∧
      s2.sent_close = true ∧
      closesSent s2 = closesSent (Setup_init 3 []) +
        (if (Setup_init 3 []).sent_close then 0 else 1) :=
  unexpected_opcode_resets_once p2osConsts (scriptEnv [0x99]) (Setup_init 3 [])
    ((Setup_init 3 []).send .SYNC0) rfl (by decide) (by decide) (by decide) (by decide)

/-- A connected node with the motor channel dirty sends `ENABLE` first. -/
theorem motor_dirty_emits (P : Platform) (env : Env) (fuel : Nat) (s : P2OSNode)
    (hc : connected s = true) (hd : s.motor_dirty = true) :
    (emitted s.trace (check_and_set_motor_state P env fuel s).2.trace).head? =
      some (.cmd4 .ENABLE .ARGINT (u8 s.cmdmotor_state_) 0) := by
  have hfd : s.psos_fd ≥ 0 ∧ s.sippacket.isSome = true := by
    simpa [connected] using hc
  have hc1 : connected { s with motor_dirty := false, p2os_data :=
      { s.p2os_data with motors_state := s.cmdmotor_state_ } } = true := by
    simpa [connected] using hfd
  obtain ⟨-, -, x, t, -⟩ := SendReceive_spec P env fuel
    { s with motor_dirty := false, p2os_data :=
      { s.p2os_data with motors_state := s.cmdmotor_state_ } }
    (some (.cmd4 .ENABLE .ARGINT (u8 s.cmdmotor_state_) 0)) false
  simp only [hc1, if_true, Option.toList_some] at t
  have hdef : check_and_set_motor_state P env fuel s =
      SendReceive P env fuel { s with motor_dirty := false, p2os_data :=
        { s.p2os_data with motors_state := s.cmdmotor_state_ } }
      (some (.cmd4 .ENABLE .ARGINT (u8 s.cmdmotor_state_) 0)) false := by
    simp [check_and_set_motor_state, hd]
  rw [hdef, emitted_of_append s.trace _ _ (by rw [t, List.append_assoc])]
  rfl

/-- A connected node with the gripper channel dirty sends the grip command
first, and the lift command too when the call returns. -/
theorem gripper_dirty_emits (P : Platform) (env : Env) (fuel : Nat) (s : P2OSNode)
    (hc : connected s = true) (hd : s.gripper_dirty_ = true) :
    (emitted s.trace (check_and_set_gripper_state P env fuel s).2.trace).head? =
      some (.cmd4 .GRIPPER .ARGINT (u8 s.gripper_state_.grip_state) 0) ∧
    ((check_and_set_gripper_state P env fuel s).1 = .returned →
      .cmd4 .GRIPPER .ARGINT (u8 s.gripper_state_.lift_state) 0 ∈
        emitted s.trace (check_and_set_gripper_state P env fuel s).2.trace) := by
  have hfd : s.psos_fd ≥ 0 ∧ s.sippacket.isSome = true := by
    simpa [connected] using hc
  have hc1 : connected { s with gripper_dirty_ := false } = true := by
    simpa [connected] using hfd
  obtain ⟨-, -, rest, t, hret⟩ := two_sends P env fuel { s with gripper_dirty_ := false }
    (.cmd4 .GRIPPER .ARGINT (u8 s.gripper_state_.grip_state) 0) false
    (fun s1 => .cmd4 .GRIPPER .ARGINT (u8 s1.gripper_state_.lift_state) 0) false hc1
  have hdef : check_and_set_gripper_state P env fuel s =
      (SendReceive P env fuel { s with gripper_dirty_ := false }
        (some (.cmd4 .GRIPPER .ARGINT (u8 s.gripper_state_.grip_state) 0)) false).andThen
      fun s1 => SendReceive P env fuel s1
        (some (.cmd4 .GRIPPER .ARGINT (u8 s1.gripper_state_.lift_state) 0)) false := by
    simp [check_and_set_gripper_state, hd]
  rw [hdef]
  have hem := emitted_of_append s.trace _ _ t
  refine ⟨?_, ?_⟩
  · rw [hem]; rfl
  · intro h
    obtain ⟨s1, hs1, hmem⟩ := hret h
    rw [hem]
    have hm := pending_congr P2OSNode.gripper_state_ (fun _ => rfl) hs1
    have : s1.gripper_state_ = s.gripper_state_ := hm
    simp only [this] at hmem
    exact List.mem_cons_of_mem _ hmem

/-- C26 (counterexample). On the idle node, whose desired motor state is 0 and
whose desired gripper state is (0, 0), a setter call with exactly these values
sets the dirty flag, and the following control cycle sends an `ENABLE` frame,
respectively two `GRIPPER` frames. -/
theorem noop_setter_marks_dirty :
    idleNode.motor_dirty = false ∧ idleNode.cmdmotor_state_ = 0 ∧
    (cmdmotor_state idleNode 0).motor_dirty = true ∧
    emitted idleNode.trace
      (check_and_set_motor_state samplePlatform statusEnv 0
        (cmdmotor_state idleNode 0)).2.trace = [.cmd4 .ENABLE .ARGINT 0 0] ∧
    idleNode.gripper_dirty_ = false ∧ idleNode.gripper_state_ = ⟨0, 0⟩ ∧
    (gripperCallback idleNode ⟨0, 0⟩).gripper_dirty_ = true ∧
    emitted idleNode.trace
      (check_and_set_gripper_state samplePlatform statusEnv 0
        (gripperCallback idleNode ⟨0, 0⟩)).2.trace =
      [.cmd4 .GRIPPER .ARGINT 0 0, .cmd4 .GRIPPER .ARGINT 0 0] := by
  refine ⟨rfl, rfl, rfl, rfl, rfl, rfl, rfl, rfl⟩

/-- C26 (amended). The motor-enable setter `cmdmotor_state` and the gripper/lift
setter `gripperCallback` store the value and mark their channel dirty on every
call, whether or not the value equals the one currently desired; on a connected
node the following control cycle therefore sends the `ENABLE` frame of the
value, respectively the `GRIPPER` frame of the grip value and, when the call
returns, the `GRIPPER` frame of the lift value. -/
theorem setters_always_mark_dirty (P : Platform) (env : Env) (fuel : Nat) (s : P2OSNode)
    (m : Int) (g : GripperState) (hc : connected s = true) :
    (cmdmotor_state s m).motor_dirty = true ∧ (cmdmotor_state s m).cmdmotor_state_ = m ∧
    (emitted s.trace
      (check_and_set_motor_state P env fuel (cmdmotor_state s m)).2.trace).head? =
      some (.cmd4 .ENABLE .ARGINT (u8 m) 0) ∧
    (gripperCallback s g).gripper_dirty_ = true ∧ (gripperCallback s g).gripper_state_ = g ∧
    (emitted s.trace
      (check_and_set_gripper_state P env fuel (gripperCallback s g)).2.trace).head? =
      some (.cmd4 .GRIPPER .ARGINT (u8 g.grip_state) 0) ∧
    ((check_and_set_gripper_state P env fuel (gripperCallback s g)).1 = .returned →
      .cmd4 .GRIPPER .ARGINT (u8 g.lift_state) 0 ∈
        emitted s.trace
          (check_and_set_gripper_state P env fuel (gripperCallback s g)).2.trace) := by
  have hfd : s.psos_fd ≥ 0 ∧ s.sippacket.isSome = true := by
    simpa [connected] using hc
  have c1 : connected (cmdmotor_state s m) = true := by
    simpa [connected, cmdmotor_state] using hfd
  have c2 : connected (gripperCallback s g) = true := by
    simpa [connected, gripperCallback] using hfd
  have e1 := motor_dirty_emits P env fuel (cmdmotor_state s m) c1 rfl
  obtain ⟨e2, e3⟩ := gripper_dirty_emits P env fuel (gripperCallback s g) c2 rfl
  exact ⟨rfl, rfl, e1, rfl, rfl, e2, e3⟩

/-- Witness of C26: the idle node, set to the values it already holds. -/
theorem setters_always_mark_dirty_witness :
    (cmdmotor_state idleNode 0).motor_dirty = true ∧
    (emitted idleNode.trace
      (check_and_set_motor_state samplePlatform statusEnv 0
        (cmdmotor_state idleNode 0)).2.trace).head? =
      some (.cmd4 .ENABLE .ARGINT (u8 0) 0) ∧
    (gripperCallback idleNode ⟨0, 0⟩).gripper_dirty_ = true :=
  have h := setters_always_mark_dirty samplePlatform statusEnv 0 idleNode 0 ⟨0, 0⟩ rfl
  ⟨h.1, h.2.2.1, h.2.2.2.1⟩

/-- C27. The names under which `arm_initialize` registers the joints of a
three-joint arm are `Joint0`, `Joint01`, `Joint012`: the stream `ss` is never
cleared, so joint `i` gets the digits of all indices up to `i`.  The run of
`SendReceive` on an `ARMINFOPAC` frame registers the two joints of the sample arm
as `Joint0` and `Joint01`. -/
theorem joint_names_accumulate :
    joint_names 3 = ["Joint0", "Joint01", "Joint012"] ∧
    (SendReceive samplePlatform (framesEnv [[0xFA, 0xFB, 3, 0xA1]]) 1 armRequestNode none
      true).1 = .returned ∧
    (SendReceive samplePlatform (framesEnv [[0xFA, 0xFB, 3, 0xA1]]) 1 armRequestNode none
      true).2.jnt_state_names = ["Joint0", "Joint01"] ∧
    (SendReceive samplePlatform (framesEnv [[0xFA, 0xFB, 3, 0xA1]]) 1 armRequestNode none
      true).2.jnt_pos_names = ["Joint0", "Joint01"] := by
  refine ⟨by decide, rfl, by decide, by decide⟩

/-- C25. A second `ARMINFOPAC` frame, received by the `SendReceive` that
`arm_initialize` calls to send `ARM_POWER`, starts the activation again:
`arm_initialized_` is set only at the end of `arm_initialize`.  `ARM_POWER` and
`ARM_STATUS` are each sent twice and the joints are registered twice. -/
theorem arm_activation_reentered :
    armRequestNode.arm_initialized_ = false ∧
    (SendReceive samplePlatform
      (framesEnv [[0xFA, 0xFB, 3, 0xA1], [0xFA, 0xFB, 3, 0xA1]]) 2 armRequestNode none
      true).1 = .returned ∧
    sentPackets (SendReceive samplePlatform
      (framesEnv [[0xFA, 0xFB, 3, 0xA1], [0xFA, 0xFB, 3, 0xA1]]) 2 armRequestNode none
      true).2.trace =
      [.cmd4 .ARM_POWER .ARGINT 1 0, .cmd4 .ARM_POWER .ARGINT 1 0,
       .cmd4 .ARM_STATUS .ARGINT 2 0, .cmd4 .ARM_STATUS .ARGINT 2 0] ∧
    (SendReceive samplePlatform
      (framesEnv [[0xFA, 0xFB, 3, 0xA1], [0xFA, 0xFB, 3, 0xA1]]) 2 armRequestNode none
      true).2.jnt_state_names = ["Joint0", "Joint01", "Joint0", "Joint01"] := by
  refine ⟨rfl, by decide!, by decide!, by decide!⟩

/-- C28. With the arm not requested, an `ARMINFOPAC` frame reporting two joints
leaves the arm buffers empty (`arm_initialize` does nothing), and the `ARMPAC`
frame that follows makes `read_arm_state` index `arm_pos[0]` of the empty
buffer. -/
theorem arm_buffer_index_out_of_range :
    noArmNode.use_arm_ = false ∧
    (SendReceive armInfoPlatform
      (framesEnv [[0xFA, 0xFB, 4, 0xA1, 2], [0xFA, 0xFB, 3, 0xA0]]) 1 noArmNode none true).1 =
      .returned ∧
    (SendReceive armInfoPlatform
      (framesEnv [[0xFA, 0xFB, 4, 0xA1, 2], [0xFA, 0xFB, 3, 0xA0]]) 1 noArmNode none
      true).2.arm_pos.length = 0 ∧
    (SendReceive armInfoPlatform
      (framesEnv [[0xFA, 0xFB, 4, 0xA1, 2], [0xFA, 0xFB, 3, 0xA0]]) 1 noArmNode none
      true).2.sippacket.map (fun sip => (sip.armNumJoints, sip.armJointPos.length,
        sip.armJointMoving.length)) = some (2, 6, 6) ∧
    (SendReceive armInfoPlatform
      (framesEnv [[0xFA, 0xFB, 4, 0xA1, 2], [0xFA, 0xFB, 3, 0xA0]]) 1
      (SendReceive armInfoPlatform
        (framesEnv [[0xFA, 0xFB, 4, 0xA1, 2], [0xFA, 0xFB, 3, 0xA0]]) 1 noArmNode none
        true).2 none true).1 = .fault := by
  refine ⟨rfl, rfl, rfl, rfl, rfl⟩

end P2OS
